import Mathlib

/-! # WinZone: draw settlement and ticket lifecycle

A shallow embedding of the settlement engine of `result_server.js`
(`declareWinner`) and of the retailer handlers of `api_server.js`
(`submit-ticket`, `claim`, `cancel`).

Modelling conventions.

* The MySQL tables `users`, `draws`, `tickets` and the single `game_settings`
  row are lists of records; a transaction is a function on the whole state and a
  rollback returns the state it started from.
* Amounts, balances, RTP percentages and wager quantities are exact rationals;
  the rounding of JavaScript doubles and of MySQL `DECIMAL` columns is not
  modelled, and every column the code does arithmetic on holds a number.
  Quantities and amounts may be negative: no handler validates a request body.
* The numbers the winner selector computes from the wagers (stakes, liabilities,
  RTP distances) are `JsNum`: exact finite values together with `Infinity`,
  `-Infinity` and `NaN`, a result overflowing where a double does.  Statements
  whose truth hinges on the rounding of a finite result are outside the embedding.
* Instants (`end_time`, `created_at`, the server clock) are whole seconds, the
  resolution of every timestamp the code formats or stores.
* `bet_details` is the object that `JSON.parse` returns, as the list of its
  entries, numbers as values; `none` stands for a text that makes `JSON.parse`
  (or the loop over its entries) throw.  A wager key may be any text, the names
  of the members every object inherits from `Object.prototype` included.
* The random source is an input: `Rand` carries one natural number per call of
  `crypto.randomInt` and the order produced by the comparator shuffle.
-/

namespace WinZone

/-! ## Data model -/

/-- Parsed `bet_details`: the entries of the wager object, spot label to quantity. -/
abbrev BetDetails := List (String × ℚ)

/-- Row of table `users` (the columns the handlers read or write). -/
structure User where
  user_id : Nat
  username : String
  balance : ℚ
deriving DecidableEq

/-- Row of table `draws`. -/
structure Draw where
  draw_id : Nat
  end_time : Int
  winning_spot : String
  total_collection : ℚ
  total_payout : ℚ
  is_processed : Bool
deriving DecidableEq

/-- Row of table `tickets`. -/
structure Ticket where
  ticket_id : Nat
  draw_id : Nat
  user_id : Nat
  bet_details : Option BetDetails
  total_amount : ℚ
  is_cancelled : Bool
  is_claimed : Bool
  created_at : Int
deriving DecidableEq

/-- Row `id = 1` of table `game_settings`. -/
structure GameSettings where
  target_percent : ℚ
  profit_min : ℚ
  profit_max : ℚ
deriving DecidableEq

/-- The database: the three tables and the optional settings row. -/
structure State where
  users : List User
  draws : List Draw
  tickets : List Ticket
  game_settings : Option GameSettings
deriving DecidableEq

/-- Random inputs of one run of `declareWinner`, one field per call site. -/
structure Rand where
  /-- Seed of `crypto.randomInt(0, spotNames.length)` in the empty-draw branch. -/
  emptyDraw : Nat
  /-- Seed of `crypto.randomInt(0, 100)`, the luck roll. -/
  luck : Nat
  /-- Seed of the index drawn in `winningSpots` or `losingSpots`. -/
  pick : Nat
  /-- Result of `Object.keys(spotBets).sort(() => Math.random() - 0.5)`: the keys of
  `spotBets` in some order. -/
  shuffledSpots : List String

/-- How a run of `declareWinner` ended. -/
inductive Outcome where
  | alreadyProcessed
  | finalizedEmpty
  | finalized
  | rolledBack
deriving DecidableEq, Repr

/-! ## Constants -/

/-- The literal `spotNames`, which is also the key order of `spotBets`. -/
def spotNames : List String :=
  ["A0", "B1", "C2", "D3", "E4", "F5", "G6", "H7", "I8", "J9"]

/-- Collections up to this amount use the engagement logic. -/
def SMALL_DRAW_LIMIT : ℚ := 200

/-- Luck rolls below this value give the player a win. -/
def WIN_RATIO : Nat := 60

/-- Damping constant of the proportional RTP control. -/
def CONTROL_FACTOR : ℚ := 3 / 10

/-! ## JavaScript numbers -/

/-- A JavaScript number as the winner selector computes with it: a finite value,
`Infinity`, `-Infinity` or `NaN`. Finite values are exact rationals; an arithmetic
result whose magnitude reaches the overflow threshold of a double is infinite. -/
inductive JsNum where
  | fin (q : ℚ)
  | posInf
  | negInf
  | nan
deriving DecidableEq

/-- The magnitude from which a result is rounded to `Infinity`: `2^1024 - 2^970`, half
a unit in the last place above `Number.MAX_VALUE`. -/
def JsNum.overflow : ℚ := ((2 ^ 1024 - 2 ^ 970 : ℕ) : ℚ)

/-- The number an exact arithmetic result becomes: itself when it is in range,
`Infinity` or `-Infinity` when it overflows. -/
def JsNum.ofRat (q : ℚ) : JsNum :=
  if JsNum.overflow ≤ q then JsNum.posInf
  else if q ≤ -JsNum.overflow then JsNum.negInf
  else JsNum.fin q

/-- JavaScript `x + y` on numbers. -/
def JsNum.add (x y : JsNum) : JsNum :=
  match x, y with
  | JsNum.fin a, JsNum.fin b => JsNum.ofRat (a + b)
  | JsNum.fin _, JsNum.posInf => JsNum.posInf
  | JsNum.fin _, JsNum.negInf => JsNum.negInf
  | JsNum.posInf, JsNum.fin _ => JsNum.posInf
  | JsNum.posInf, JsNum.posInf => JsNum.posInf
  | JsNum.negInf, JsNum.fin _ => JsNum.negInf
  | JsNum.negInf, JsNum.negInf => JsNum.negInf
  | _, _ => JsNum.nan

/-- JavaScript `-x`. -/
def JsNum.neg (x : JsNum) : JsNum :=
  match x with
  | JsNum.fin a => JsNum.fin (-a)
  | JsNum.posInf => JsNum.negInf
  | JsNum.negInf => JsNum.posInf
  | JsNum.nan => JsNum.nan

/-- JavaScript `x * y` on numbers. -/
def JsNum.mul (x y : JsNum) : JsNum :=
  match x, y with
  | JsNum.fin a, JsNum.fin b => JsNum.ofRat (a * b)
  | JsNum.fin a, JsNum.posInf =>
    if 0 < a then JsNum.posInf else if a < 0 then JsNum.negInf else JsNum.nan
  | JsNum.fin a, JsNum.negInf =>
    if 0 < a then JsNum.negInf else if a < 0 then JsNum.posInf else JsNum.nan
  | JsNum.posInf, JsNum.fin b =>
    if 0 < b then JsNum.posInf else if b < 0 then JsNum.negInf else JsNum.nan
  | JsNum.negInf, JsNum.fin b =>
    if 0 < b then JsNum.negInf else if b < 0 then JsNum.posInf else JsNum.nan
  | JsNum.posInf, JsNum.posInf => JsNum.posInf
  | JsNum.negInf, JsNum.negInf => JsNum.posInf
  | JsNum.posInf, JsNum.negInf => JsNum.negInf
  | JsNum.negInf, JsNum.posInf => JsNum.negInf
  | _, _ => JsNum.nan

/-- JavaScript `x / y` on numbers (a zero divisor is the positive zero). -/
def JsNum.div (x y : JsNum) : JsNum :=
  match x, y with
  | JsNum.fin a, JsNum.fin b =>
    if b = 0 then
      (if 0 < a then JsNum.posInf else if a < 0 then JsNum.negInf else JsNum.nan)
    else JsNum.ofRat (a / b)
  | JsNum.fin _, JsNum.posInf => JsNum.fin 0
  | JsNum.fin _, JsNum.negInf => JsNum.fin 0
  | JsNum.posInf, JsNum.fin b => if 0 ≤ b then JsNum.posInf else JsNum.negInf
  | JsNum.negInf, JsNum.fin b => if 0 ≤ b then JsNum.negInf else JsNum.posInf
  | _, _ => JsNum.nan

/-- JavaScript `Math.abs(x)`. -/
def JsNum.abs (x : JsNum) : JsNum :=
  match x with
  | JsNum.fin a => JsNum.fin |a|
  | JsNum.posInf => JsNum.posInf
  | JsNum.negInf => JsNum.posInf
  | JsNum.nan => JsNum.nan

/-- JavaScript `x < y` on numbers: false as soon as one side is `NaN`. -/
def JsNum.lt (x y : JsNum) : Bool :=
  match x, y with
  | JsNum.fin a, JsNum.fin b => decide (a < b)
  | JsNum.fin _, JsNum.posInf => true
  | JsNum.negInf, JsNum.fin _ => true
  | JsNum.negInf, JsNum.posInf => true
  | _, _ => false

/-- JavaScript `x <= y` on numbers: false as soon as one side is `NaN`. -/
def JsNum.le (x y : JsNum) : Bool :=
  match x, y with
  | JsNum.fin a, JsNum.fin b => decide (a ≤ b)
  | JsNum.fin _, JsNum.posInf => true
  | JsNum.negInf, JsNum.fin _ => true
  | JsNum.negInf, JsNum.posInf => true
  | JsNum.posInf, JsNum.posInf => true
  | JsNum.negInf, JsNum.negInf => true
  | _, _ => false

/-- JavaScript `Number.isFinite(x)`. -/
def JsNum.isFinite (x : JsNum) : Bool :=
  match x with
  | JsNum.fin _ => true
  | _ => false

/-- Numeric literals denote finite numbers. -/
instance (n : Nat) : OfNat JsNum n := ⟨JsNum.fin n⟩

/-- The operators `+`, unary `-`, `-`, `*`, `/`, `<` and `<=` of JavaScript on numbers. -/
instance : Add JsNum := ⟨JsNum.add⟩
instance : Neg JsNum := ⟨JsNum.neg⟩
instance : Sub JsNum := ⟨fun x y => JsNum.add x (JsNum.neg y)⟩
instance : Mul JsNum := ⟨JsNum.mul⟩
instance : Div JsNum := ⟨JsNum.div⟩
instance : LT JsNum := ⟨fun x y => JsNum.lt x y = true⟩
instance : LE JsNum := ⟨fun x y => JsNum.le x y = true⟩
instance (x y : JsNum) : Decidable (x < y) := inferInstanceAs (Decidable (JsNum.lt x y = true))
instance (x y : JsNum) : Decidable (x ≤ y) := inferInstanceAs (Decidable (JsNum.le x y = true))

/-- The value a numeric column takes from a number passed as a statement parameter: the
number itself when it is finite. A numeric column holds no `NaN` and no `Infinity`; what
the server stores for one depends on the column type and the SQL mode, which the
repository does not show, and the model stores 0. -/
def sqlNumber (x : JsNum) : ℚ :=
  match x with
  | JsNum.fin q => q
  | _ => 0

/-! ## Helpers standing for JavaScript and SQL primitives -/

/-- Model of `crypto.randomInt(min, max)`: the seed reduced into `[min, max)`. -/
def randomInt (min max seed : Nat) : Nat := min + seed % (max - min)

/-- Model of `x || d` on a number that may be missing: zero and missing give `d`. -/
def orDefault (x : Option ℚ) (d : ℚ) : ℚ :=
  match x with
  | none => d
  | some v => if v = 0 then d else v

/-- SQL `DATE(ts)`: the day an instant (in seconds) falls on. -/
def sqlDate (ts : Int) : Int := ts / 86400

/-- Auto-increment id of a row inserted into `draws`. -/
def nextDrawId (draws : List Draw) : Nat :=
  (draws.map (fun d => d.draw_id)).foldr max 0 + 1

/-- Auto-increment id of a row inserted into `tickets`. -/
def nextTicketId (tickets : List Ticket) : Nat :=
  (tickets.map (fun t => t.ticket_id)).foldr max 0 + 1

/-- The row `INSERT INTO draws (...) VALUES (?, 'PENDING', 0, 0, 0)` creates. -/
def pendingDraw (draw_id : Nat) (end_time : Int) : Draw :=
  { draw_id := draw_id, end_time := end_time, winning_spot := "PENDING",
    total_collection := 0, total_payout := 0, is_processed := false }

/-- SQL `UPDATE users SET balance = balance + ? WHERE user_id = ?`. -/
def creditUser (users : List User) (user_id : Nat) (amount : ℚ) : List User :=
  users.map (fun u => if u.user_id = user_id then { u with balance := u.balance + amount } else u)

/-- SQL `UPDATE users SET balance = ? WHERE user_id = ?`. -/
def setBalance (users : List User) (user_id : Nat) (newBalance : ℚ) : List User :=
  users.map (fun u => if u.user_id = user_id then { u with balance := newBalance } else u)

/-- SQL `UPDATE draws SET winning_spot = ?, total_collection = ?, total_payout = ?,
is_processed = 1 WHERE draw_id = ?`. -/
def finalizeDraw (draws : List Draw) (drawId : Nat) (winningSpot : String)
    (collection payout : ℚ) : List Draw :=
  draws.map (fun d =>
    if d.draw_id = drawId then
      { d with winning_spot := winningSpot, total_collection := collection,
               total_payout := payout, is_processed := true }
    else d)

/-- SQL `SELECT * FROM tickets WHERE draw_id = ?`. -/
def ticketsOfDraw (tickets : List Ticket) (drawId : Nat) : List Ticket :=
  tickets.filter (fun t => t.draw_id = drawId)

/-! ## `declareWinner`: stake aggregation (lines 109-121) -/

/-- The names of the function-valued members every object inherits from
`Object.prototype`. Read on `spotBets` before any assignment, each gives a function,
not `undefined`. -/
def inheritedMethods : List String :=
  ["constructor", "__defineGetter__", "__defineSetter__", "hasOwnProperty",
   "__lookupGetter__", "__lookupSetter__", "isPrototypeOf", "propertyIsEnumerable",
   "toString", "valueOf", "toLocaleString"]

/-- The object `spotBets`: the number held under each of the ten labels, and the own
keys the aggregation loop has added after them, in insertion order. The value under an
added key is a text (a function concatenated with numbers), which every comparison and
every product reads as `NaN`. -/
structure SpotBets where
  /-- The number under each of the ten labels. -/
  stake : String → JsNum
  /-- The own keys beyond the ten labels, in insertion order. -/
  extraKeys : List String

/-- The value `spotBets[spot]` read as a number: the stake of a label, and `NaN` for an
added key (a text) and for a key the object does not have (`undefined`). -/
def SpotBets.get (spotBets : SpotBets) (spot : String) : JsNum :=
  if spot ∈ spotNames then spotBets.stake spot else JsNum.nan

/-- Writing `spotBets spot` for `spotBets[spot]` read as a number. -/
instance : CoeFun SpotBets (fun _ => String → JsNum) := ⟨SpotBets.get⟩

/-- The list `Object.keys(spotBets)`: the ten labels, then the added keys. -/
def SpotBets.keys (spotBets : SpotBets) : List String :=
  spotNames ++ spotBets.extraKeys

/-- One pass of the inner loop: `if (spotBets[spot] !== undefined) spotBets[spot] += qty * 10`.
Under a label the stake grows by `qty * 10`. Under the name of an inherited method the
value read is a function, so the test passes and `+=` stores a text under that name,
which becomes an own key of `spotBets`. Under `__proto__` the assignment of a text has
no effect, and under any other key the value read is `undefined`. -/
def addBet (spotBets : SpotBets) (entry : String × ℚ) : SpotBets :=
  if entry.1 ∈ spotNames then
    { spotBets with
      stake := Function.update spotBets.stake entry.1
        (spotBets.stake entry.1 + JsNum.fin entry.2 * 10) }
  else if entry.1 ∈ inheritedMethods ∧ entry.1 ∉ spotBets.extraKeys then
    { spotBets with extraKeys := spotBets.extraKeys ++ [entry.1] }
  else spotBets

/-- The loop over the tickets, threading `(spotBets, drawCollection)`; `none` when a
`bet_details` text cannot be parsed. -/
def calculateBets : List Ticket → SpotBets × ℚ → Option (SpotBets × ℚ)
  | [], acc => some acc
  | ticket :: rest, acc =>
    match ticket.bet_details with
    | none => none
    | some betDetails =>
      calculateBets rest (betDetails.foldl addBet acc.1, acc.2 + ticket.total_amount)

/-- Initial `spotBets` (every spot 0, no other key) and `drawCollection = 0`. -/
def initialBets : SpotBets × ℚ := ({ stake := fun _ => 0, extraKeys := [] }, 0)

/-! ## `declareWinner`: engagement logic (lines 137-178) -/

/-- One pass of the fallback loop of lines 169-174 on `(minPay, bestSpot)`. -/
def lowestStakeStep (spotBets : SpotBets) (acc : JsNum × String) (spot : String) :
    JsNum × String :=
  if spotBets spot < acc.1 then (spotBets spot, spot) else acc

/-- The fallback loop of lines 168-174 over the keys, from `minPay = Infinity` and
`bestSpot = ''`: the first key of strictly lowest stake, if any stake is below
`Infinity`. -/
def lowestStakeSpot (spotBets : SpotBets) (keys : List String) : String :=
  (keys.foldl (lowestStakeStep spotBets) (JsNum.posInf, "")).2

/-- Keys with `spotBets[spot] > 0`. -/
def winningSpots (spotBets : SpotBets) : List String :=
  spotBets.keys.filter (fun spot => decide (spotBets spot > 0))

/-- Keys for which `spotBets[spot] > 0` is false. -/
def losingSpots (spotBets : SpotBets) : List String :=
  spotBets.keys.filter (fun spot => !decide (spotBets spot > 0))

/-- Branch `drawCollection <= SMALL_DRAW_LIMIT`: the chosen spot. -/
def engagementSpot (spotBets : SpotBets) (rng : Rand) : String :=
  let luck := randomInt 0 100 rng.luck
  if luck < WIN_RATIO ∧ (winningSpots spotBets).length > 0 then
    (winningSpots spotBets).getD (randomInt 0 (winningSpots spotBets).length rng.pick) ""
  else if (losingSpots spotBets).length > 0 then
    (losingSpots spotBets).getD (randomInt 0 (losingSpots spotBets).length rng.pick) ""
  else lowestStakeSpot spotBets spotBets.keys

/-! ## `declareWinner`: profit control (lines 181-226) -/

/-- The `dailyStats` query: `(day_sales, day_payout)` over the join of tickets with
their draw, restricted to today's non-cancelled tickets. -/
def dailyStats (st : State) (now : Int) : ℚ × ℚ :=
  let joined : List (Ticket × Draw) :=
    st.tickets.flatMap (fun t => (st.draws.filter (fun d => t.draw_id = d.draw_id)).map (fun d => (t, d)))
  let rows := joined.filter
    (fun r => decide (sqlDate r.1.created_at = sqlDate now) && !r.1.is_cancelled)
  ((rows.map (fun r => r.1.total_amount)).sum,
   (rows.map (fun r => if r.2.winning_spot ≠ "PENDING" then r.2.total_payout else 0)).sum)

/-- Value of `TARGET_RTP`. -/
def targetRTP (settings : Option GameSettings) : ℚ :=
  orDefault (settings.map (fun s => s.target_percent)) 90

/-- Value of `MIN_DRAW_RTP`. -/
def minDrawRTP (settings : Option GameSettings) : ℚ :=
  orDefault (settings.map (fun s => s.profit_min)) 80

/-- Value of `MAX_DRAW_RTP`. -/
def maxDrawRTP (settings : Option GameSettings) : ℚ :=
  orDefault (settings.map (fun s => s.profit_max)) 100

/-- Value of `currentRTP` (line 204). -/
def currentRTP (settings : Option GameSettings) (daySales dayPayout : ℚ) : ℚ :=
  if daySales > 0 then dayPayout / daySales * 100 else targetRTP settings

/-- Value of `allowedDrawRTP` after line 207. -/
def allowedDrawRTP (settings : Option GameSettings) (daySales dayPayout : ℚ) : ℚ :=
  let rtpGap := targetRTP settings - currentRTP settings daySales dayPayout
  let allowed := targetRTP settings + rtpGap * CONTROL_FACTOR
  max (minDrawRTP settings) (min allowed (maxDrawRTP settings))

/-- One pass of the loop of lines 215-225 on `(lowestDiff, bestSpot, chosenPayout)`. -/
def bestSpotStep (spotBets : SpotBets) (drawCollection allowed : ℚ)
    (acc : JsNum × String × JsNum) (spot : String) : JsNum × String × JsNum :=
  let potentialPayout := spotBets spot * 9
  let potentialRTP := potentialPayout / JsNum.fin drawCollection * 100
  let diff := JsNum.abs (potentialRTP - JsNum.fin allowed)
  if diff < acc.1 then (diff, spot, potentialPayout) else acc

/-- The loop of lines 212-225 over the shuffled keys, from `lowestDiff = Infinity`,
`bestSpot = ''`, `chosenPayout = 0`. -/
def findBestSpot (spotBets : SpotBets) (drawCollection allowed : ℚ)
    (shuffledSpots : List String) : JsNum × String × JsNum :=
  shuffledSpots.foldl (bestSpotStep spotBets drawCollection allowed) (JsNum.posInf, "", 0)

/-- The hybrid brain of lines 133-226: `(bestSpot, chosenPayout)`. -/
def hybridBrain (rng : Rand) (settings : Option GameSettings) (stats : ℚ × ℚ)
    (spotBets : SpotBets) (drawCollection : ℚ) : String × JsNum :=
  if drawCollection ≤ SMALL_DRAW_LIMIT then
    let bestSpot := engagementSpot spotBets rng
    (bestSpot, spotBets bestSpot * 9)
  else
    let r := findBestSpot spotBets drawCollection
      (allowedDrawRTP settings stats.1 stats.2) rng.shuffledSpots
    (r.2.1, r.2.2)

/-! ## `declareWinner`: payout and finalisation (lines 232-253) -/

/-- The value `parseFloat(betDetails[spot] || 0)`. -/
def winningQty (betDetails : BetDetails) (spot : String) : ℚ :=
  orDefault (betDetails.lookup spot) 0

/-- The payout loop of lines 233-244; `none` when a `bet_details` text cannot be parsed. -/
def payoutUsers (bestSpot : String) : List Ticket → List User → Option (List User)
  | [], users => some users
  | ticket :: rest, users =>
    match ticket.bet_details with
    | none => none
    | some betDetails =>
      if winningQty betDetails bestSpot > 0 then
        payoutUsers bestSpot rest
          (creditUser users ticket.user_id (winningQty betDetails bestSpot * 90))
      else payoutUsers bestSpot rest users

/-- Lines 87-253 on the draw `drawId`, inside the open transaction `tx`; `none` when
a step throws. -/
def settleDraw (rng : Rand) (now : Int) (drawId : Nat) (tx : State) : Option (Outcome × State) :=
  let tickets := ticketsOfDraw tx.tickets drawId
  if tickets.length = 0 then
    let winningSpot := spotNames.getD (randomInt 0 spotNames.length rng.emptyDraw) ""
    some (Outcome.finalizedEmpty, { tx with draws := finalizeDraw tx.draws drawId winningSpot 0 0 })
  else
    match calculateBets tickets initialBets with
    | none => none
    | some (spotBets, drawCollection) =>
      let choice := hybridBrain rng tx.game_settings (dailyStats tx now) spotBets drawCollection
      match payoutUsers choice.1 tickets tx.users with
      | none => none
      | some users =>
        some (Outcome.finalized,
          { tx with users := users,
                    draws := finalizeDraw tx.draws drawId choice.1 drawCollection
                      (sqlNumber choice.2) })

/-- Lines 60-85: the draw row with this end time, created as PENDING when absent;
`none` when the row found is already processed. Returns the draw id and the state
of the open transaction. -/
def findOrCreateDraw (drawEndTime : Int) (st : State) : Option (Nat × State) :=
  match st.draws.filter (fun d => d.end_time = drawEndTime) with
  | [] =>
    some (nextDrawId st.draws,
      { st with draws := st.draws ++ [pendingDraw (nextDrawId st.draws) drawEndTime] })
  | draw :: _ => if draw.is_processed then none else some (draw.draw_id, st)

/-- The transaction of `declareWinner` for the draw ending at `drawEndTime` (the value
of `getPreviousDrawTime()`), with `now` the database clock. A step that throws rolls
back to the state the run started from. -/
def declareWinner (rng : Rand) (now drawEndTime : Int) (st : State) : Outcome × State :=
  match findOrCreateDraw drawEndTime st with
  | none => (Outcome.alreadyProcessed, st)
  | some (drawId, tx) =>
    match settleDraw rng now drawId tx with
    | none => (Outcome.rolledBack, st)
    | some r => r

/-- The row that `SELECT * FROM draws WHERE end_time = ?` returns first. -/
def roundOf (st : State) (endTime : Int) : Option Draw :=
  (st.draws.filter (fun d => d.end_time = endTime)).head?

/-! ## Retailer handlers of `api_server.js` -/

/-- The field `ticketData` of a submit-ticket request body. -/
structure TicketData where
  totalAmount : ℚ
  drawEndTime : Int
  betDetails : BetDetails

/-- Responses of `POST /api/retailer/submit-ticket`. -/
inductive SubmitResult where
  | shopClosed
  | insufficientBalance
  | transactionFailed
  | confirmed (newBalance : ℚ) (newTicketId drawId : Nat)
deriving DecidableEq

/-- Responses of `POST /api/retailer/claim`. -/
inductive ClaimResult where
  | invalidTicket
  | cannotClaim
  | noWinningSpots
  | serverError
  | success (winAmount : ℚ) (ticketId : Nat) (spot : String) (qty newBalance : ℚ)
deriving DecidableEq

/-- Responses of `POST /api/retailer/cancel`. -/
inductive CancelResult where
  | ticketNotFound
  | alreadyCancelled
  | timeOver
  | serverError
  | cancelled (newBalance : ℚ)
deriving DecidableEq

/-- The commission kept by the retailer on a sale (`commissionRate = 0.09`). -/
def commissionRate : ℚ := 9 / 100

/-- The function `isShopOpen`, on the India-time hour that `istDate.getHours()` returns. -/
def isShopOpen (currentHour : Nat) : Bool :=
  decide (currentHour ≥ 6) && decide (currentHour ≤ 23)

/-- SQL `SELECT user_id, balance FROM users WHERE username = ? FOR UPDATE`. -/
def usersNamed (users : List User) (username : String) : List User :=
  users.filter (fun u => u.username = username)

/-- SQL `FROM tickets t JOIN draws d ON t.draw_id = d.draw_id WHERE t.ticket_id = ?
AND t.user_id = ?`. -/
def ticketWithDraw (st : State) (ticketId userId : Nat) : List (Ticket × Draw) :=
  (st.tickets.flatMap
    (fun t => (st.draws.filter (fun d => t.draw_id = d.draw_id)).map (fun d => (t, d)))).filter
    (fun r => decide (r.1.ticket_id = ticketId) && decide (r.1.user_id = userId))

/-- The handler of `POST /api/retailer/submit-ticket` (lines 71-135); `now` is the
database clock, which fills the column default of `created_at`. -/
def submitTicket (currentHour : Nat) (now : Int) (username : String) (ticketData : TicketData)
    (st : State) : SubmitResult × State :=
  if !isShopOpen currentHour then (SubmitResult.shopClosed, st)
  else
    match usersNamed st.users username with
    | [] => (SubmitResult.transactionFailed, st)
    | user :: _ =>
      let deduction := ticketData.totalAmount - ticketData.totalAmount * commissionRate
      let newBalance := user.balance - deduction
      if newBalance < 0 then (SubmitResult.insufficientBalance, st)
      else
        let drawRows := st.draws.filter (fun d => d.end_time = ticketData.drawEndTime)
        let draw_id := match drawRows with
          | d :: _ => d.draw_id
          | [] => nextDrawId st.draws
        let draws := match drawRows with
          | _ :: _ => st.draws
          | [] => st.draws ++ [pendingDraw (nextDrawId st.draws) ticketData.drawEndTime]
        let newTicketId := nextTicketId st.tickets
        let ticket : Ticket :=
          { ticket_id := newTicketId, draw_id := draw_id, user_id := user.user_id,
            bet_details := some ticketData.betDetails, total_amount := ticketData.totalAmount,
            is_cancelled := false, is_claimed := false, created_at := now }
        (SubmitResult.confirmed newBalance newTicketId draw_id,
          { users := setBalance st.users user.user_id newBalance,
            draws := draws,
            tickets := st.tickets ++ [ticket],
            game_settings := st.game_settings })

/-- SQL `UPDATE tickets SET is_claimed = 1 WHERE ticket_id = ?`. -/
def markClaimed (tickets : List Ticket) (ticketId : Nat) : List Ticket :=
  tickets.map (fun t => if t.ticket_id = ticketId then { t with is_claimed := true } else t)

/-- SQL `UPDATE tickets SET is_cancelled = 1 WHERE ticket_id = ?`. -/
def markCancelled (tickets : List Ticket) (ticketId : Nat) : List Ticket :=
  tickets.map (fun t => if t.ticket_id = ticketId then { t with is_cancelled := true } else t)

/-- The handler of `POST /api/retailer/claim` (lines 138-190). -/
def claim (ticketId : Nat) (username : String) (st : State) : ClaimResult × State :=
  match usersNamed st.users username with
  | [] => (ClaimResult.serverError, st)
  | user :: _ =>
    match ticketWithDraw st ticketId user.user_id with
    | [] => (ClaimResult.invalidTicket, st)
    | (ticket, draw) :: _ =>
      if ticket.is_cancelled || ticket.is_claimed || decide (draw.winning_spot = "PENDING") then
        (ClaimResult.cannotClaim, st)
      else
        match ticket.bet_details with
        | none => (ClaimResult.serverError, st)
        | some bets =>
          if winningQty bets draw.winning_spot = 0 then (ClaimResult.noWinningSpots, st)
          else
            let winAmount := winningQty bets draw.winning_spot * 90
            let newBalance := user.balance + winAmount
            (ClaimResult.success winAmount ticketId draw.winning_spot
                (winningQty bets draw.winning_spot) newBalance,
              { st with users := setBalance st.users user.user_id newBalance,
                        tickets := markClaimed st.tickets ticketId })

/-- The handler of `POST /api/retailer/cancel` (lines 235-281); `now` is the India
time the database reports, `drawTime - serverTime` is in milliseconds. -/
def cancel (now : Int) (ticketId : Nat) (username : String) (st : State) : CancelResult × State :=
  match usersNamed st.users username with
  | [] => (CancelResult.serverError, st)
  | user :: _ =>
    match ticketWithDraw st ticketId user.user_id with
    | [] => (CancelResult.ticketNotFound, st)
    | (ticket, draw) :: _ =>
      if ticket.is_cancelled then (CancelResult.alreadyCancelled, st)
      else if (draw.end_time - now) * 1000 < 60000 then (CancelResult.timeOver, st)
      else
        let newBalance := user.balance + ticket.total_amount
        (CancelResult.cancelled newBalance,
          { st with users := setBalance st.users user.user_id newBalance,
                    tickets := markCancelled st.tickets ticketId })

/-! ## Sequences of operations -/

/-- One request or scheduler firing, with the inputs it reads from outside the database. -/
inductive Op where
  | submit (currentHour : Nat) (now : Int) (username : String) (ticketData : TicketData)
  | cancel (now : Int) (ticketId : Nat) (username : String)
  | claim (ticketId : Nat) (username : String)
  | declare (rng : Rand) (now drawEndTime : Int)

/-- The committed state after one operation. -/
def step (st : State) : Op → State
  | Op.submit currentHour now username ticketData =>
    (submitTicket currentHour now username ticketData st).2
  | Op.cancel now ticketId username => (cancel now ticketId username st).2
  | Op.claim ticketId username => (claim ticketId username st).2
  | Op.declare rng now drawEndTime => (declareWinner rng now drawEndTime st).2

/-- The committed state after a sequence of operations, one transaction after another. -/
def run (st : State) (ops : List Op) : State :=
  ops.foldl step st

/-! ## Concrete scenarios -/

/-- A shop with one retailer holding 100 and no round yet. -/
def shop : State :=
  { users := [{ user_id := 1, username := "ram", balance := 100 }],
    draws := [], tickets := [], game_settings := none }

/-- A slip of quantity 1 on spot A0 for the round closing at second 600. -/
def slipA0 : TicketData :=
  { totalAmount := 10, drawEndTime := 600, betDetails := [("A0", 1)] }

/-- Random inputs that take the win branch and the first candidate. -/
def luckyRand : Rand :=
  { emptyDraw := 0, luck := 0, pick := 0, shuffledSpots := spotNames }

/-- A slip sold for the round closing at second 600 and cancelled 500 seconds before
the close: the retailer has the stake back. -/
def cancelledSale : State :=
  run shop [Op.submit 10 0 "ram" slipA0, Op.cancel 100 1 "ram"]

/-- A slip sold for the round closing at second 600 and still standing. -/
def openSale : State :=
  run shop [Op.submit 10 0 "ram" slipA0]

/-! ## The quantities the specification speaks of -/

/-- Quantity a ticket wagers on a spot: the entry of its parsed `bet_details`, and 0
when the spot is absent. -/
def Ticket.quantityOn (t : Ticket) (spot : String) : ℚ :=
  match t.bet_details with
  | none => 0
  | some betDetails => (betDetails.lookup spot).getD 0

/-- Specification side: the sum over the non-cancelled tickets of the quantity on the
spot times 90 (a round's total payout, also the liability of the spot). -/
def specTotalPayout (tickets : List Ticket) (spot : String) : ℚ :=
  ((tickets.filter (fun t => !t.is_cancelled)).map (fun t => t.quantityOn spot * 90)).sum

/-- Specification side: the sum of `total_amount` over the non-cancelled tickets. -/
def specCollection (tickets : List Ticket) : ℚ :=
  ((tickets.filter (fun t => !t.is_cancelled)).map (fun t => t.total_amount)).sum

/-- A shop whose only retailer has balance 0. -/
def brokeShop : State :=
  { users := [{ user_id := 1, username := "ram", balance := 0 }],
    draws := [], tickets := [], game_settings := none }

/-- A slip whose `totalAmount` is negative; no handler validates the request body. -/
def negativeSlip : TicketData :=
  { totalAmount := -100, drawEndTime := 600, betDetails := [] }

/-! ## Well-formed wagers -/

/-- Every quantity of a wager object is non-negative. -/
def NonNegBets (betDetails : BetDetails) : Prop :=
  ∀ entry ∈ betDetails, 0 ≤ entry.2

/-- The ticket has a non-negative total amount and non-negative quantities. -/
def Ticket.NonNeg (t : Ticket) : Prop :=
  0 ≤ t.total_amount ∧ ∀ betDetails, t.bet_details = some betDetails → NonNegBets betDetails

/-- The operation, when it is a submit, carries a non-negative total amount and
non-negative quantities. -/
def Op.NonNeg : Op → Prop
  | Op.submit _ _ _ ticketData => 0 ≤ ticketData.totalAmount ∧ NonNegBets ticketData.betDetails
  | _ => True

/-- No account balance is negative. -/
def State.Solvent (st : State) : Prop :=
  ∀ u ∈ st.users, 0 ≤ u.balance

/-- Specification side: the sum, over the non-cancelled tickets of one account, of the
quantity on the spot times 90. -/
def specCredit (tickets : List Ticket) (userId : Nat) (spot : String) : ℚ :=
  ((tickets.filter (fun t => !t.is_cancelled && decide (t.user_id = userId))).map
    (fun t => t.quantityOn spot * 90)).sum

/-- As `specCredit`, restricted to the tickets whose quantity on the spot is positive. -/
def positiveCredit (tickets : List Ticket) (userId : Nat) (spot : String) : ℚ :=
  ((tickets.filter (fun t =>
      !t.is_cancelled && decide (t.user_id = userId) && decide (0 < t.quantityOn spot))).map
    (fun t => t.quantityOn spot * 90)).sum

/-- What the payout loop of `declareWinner` adds to the account `userId`: quantity
times 90 for each ticket of the account it meets with a positive quantity on the spot. -/
def paidOut (tickets : List Ticket) (userId : Nat) (spot : String) : ℚ :=
  ((tickets.filter (fun t =>
      decide (t.user_id = userId) && decide (0 < t.quantityOn spot))).map
    (fun t => t.quantityOn spot * 90)).sum

/-- A slip with a negative quantity on A0; no handler validates the wager object. -/
def shortSlip : TicketData :=
  { totalAmount := 10, drawEndTime := 600, betDetails := [("A0", -1)] }

/-- The state after the sale of `shortSlip`. -/
def shortSale : State :=
  run shop [Op.submit 10 0 "ram" shortSlip]

/-- Random inputs that take the loss branch and the first candidate. -/
def unluckyRand : Rand :=
  { emptyDraw := 0, luck := 99, pick := 0, shuffledSpots := spotNames }

/-- A slip with quantity -1 on B1. -/
def shortSlipB1 : TicketData :=
  { totalAmount := 10, drawEndTime := 600, betDetails := [("B1", -1)] }

/-- Random inputs that take the loss branch and the second candidate. -/
def unluckyRandSecond : Rand :=
  { emptyDraw := 0, luck := 99, pick := 1, shuffledSpots := spotNames }

/-- The stakes of the small-round scenario: quantity 5 on A0 and nothing else. -/
def stakeOnA0 : SpotBets :=
  { stake := Function.update (fun _ => 0) "A0" 50, extraKeys := [] }

/-- A shop whose retailer can afford a large slip. -/
def richShop : State :=
  { users := [{ user_id := 1, username := "ram", balance := 5000 }],
    draws := [], tickets := [],
    game_settings := some { target_percent := 90, profit_min := 80, profit_max := 100 } }

/-- A slip of 1000 spread over two spots, which puts its round above the small-draw limit. -/
def bigSlip : TicketData :=
  { totalAmount := 1000, drawEndTime := 600, betDetails := [("A0", 90), ("B1", 10)] }

/-- The state after the sale of `bigSlip`. -/
def bigSale : State :=
  run richShop [Op.submit 10 0 "ram" bigSlip]

/-- The state after the sale of `shortSlipB1`. -/
def shortSaleB1 : State :=
  run shop [Op.submit 10 0 "ram" shortSlipB1]

/-! ## Quantities of the winner selector -/

/-- The distance `|liability / collection x 100 - allowedRTP|` of a spot, its liability
being nine times its stake, for stakes that are finite numbers. -/
def spotDistance (stakes : String → ℚ) (drawCollection allowed : ℚ) (spot : String) : ℚ :=
  |stakes spot * 9 / drawCollection * 100 - allowed|

/-- The value `diff` the loop of lines 215-225 computes for a spot. -/
def spotDiff (spotBets : SpotBets) (drawCollection allowed : ℚ) (spot : String) : JsNum :=
  JsNum.abs (spotBets spot * 9 / JsNum.fin drawCollection * 100 - JsNum.fin allowed)

/-- The stake of a spot as a rational: the number under the label when it is finite (and
0 when it is not). -/
def SpotBets.finiteStake (spotBets : SpotBets) (spot : String) : ℚ :=
  sqlNumber (spotBets spot)

/-- A slip of 1000 with quantity 1e308 on every spot: each stake `qty * 10` overflows. -/
def hugeSlip : TicketData :=
  { totalAmount := 1000, drawEndTime := 600,
    betDetails := spotNames.map (fun spot => (spot, 10 ^ 308)) }

/-- The state after the sale of `hugeSlip`. -/
def hugeSale : State :=
  run richShop [Op.submit 10 0 "ram" hugeSlip]

/-- A slip of 100 with quantity 1e308 on every spot. -/
def hugeSmallSlip : TicketData :=
  { totalAmount := 100, drawEndTime := 600,
    betDetails := spotNames.map (fun spot => (spot, 10 ^ 308)) }

/-- A slip of 10 whose wager object has the single key `constructor`. -/
def constructorSlip : TicketData :=
  { totalAmount := 10, drawEndTime := 600, betDetails := [("constructor", 1)] }

/-- The state after the sale of `constructorSlip`. -/
def constructorSale : State :=
  run shop [Op.submit 10 0 "ram" constructorSlip]

/-- Random inputs that take the loss branch and the eleventh candidate. -/
def unluckyRandEleventh : Rand :=
  { emptyDraw := 0, luck := 99, pick := 10, shuffledSpots := spotNames }

/-- A slip of 100 with quantity 1 on every spot and a wager under the key `toString`. -/
def toStringSlip : TicketData :=
  { totalAmount := 100, drawEndTime := 600,
    betDetails := spotNames.map (fun spot => (spot, 1)) ++ [("toString", 1)] }

/-- The tickets of a round: the bound ticket a slip becomes. -/
def ticketOfSlip (slip : TicketData) : Ticket :=
  { ticket_id := 1, draw_id := 1, user_id := 1, bet_details := some slip.betDetails,
    total_amount := slip.totalAmount, is_cancelled := false, is_claimed := false,
    created_at := 0 }

/-- Specification side: `clamp(x, lo, hi)`. -/
def specClamp (x lo hi : ℚ) : ℚ :=
  if x < lo then lo else if hi < x then hi else x

/-- A settings row with target 40, a stored minimum of 0 and maximum 50. -/
def zeroMinimumRow : GameSettings :=
  { target_percent := 40, profit_min := 0, profit_max := 50 }

/-- A settings row with target 50, a stored minimum of 0 and maximum 100. -/
def zeroMinimumWideRow : GameSettings :=
  { target_percent := 50, profit_min := 0, profit_max := 100 }

/-- Stakes of a small round that covers every spot: 10 on C2 and 20 on each other spot. -/
def stakeEverywhere : SpotBets :=
  { stake := fun spot => if spot = "C2" then 10 else 20, extraKeys := [] }

/-- Stakes of the large-round scenario: 900 on A0 and 100 on B1 (quantities 90 and 10). -/
def stakeBigRound : SpotBets :=
  { stake := Function.update (Function.update (fun _ => 0) "A0" 900) "B1" 100,
    extraKeys := [] }

/-- A shuffle that iterates the ten spots in reverse key order. -/
def reversedRand : Rand :=
  { emptyDraw := 0, luck := 0, pick := 0, shuffledSpots := spotNames.reverse }

/-! ## Quantities of the ticket handlers -/

/-- Specification side: the sum of the per-spot wager quantities of a wager object times
the unit price 10. -/
def specWagerTotal (betDetails : BetDetails) : ℚ :=
  (betDetails.map (fun entry => entry.2)).sum * 10

/-- The slip of the small-round scenario: total 150 with quantity 5 on A0. -/
def mismatchedSlip : TicketData :=
  { totalAmount := 150, drawEndTime := 600, betDetails := [("A0", 5)] }

/-- A shop whose retailer holds 200. -/
def shop200 : State :=
  { users := [{ user_id := 1, username := "ram", balance := 200 }],
    draws := [], tickets := [], game_settings := none }

/-- One cancel request: the server time it meets, the ticket id and the caller. -/
structure CancelCall where
  now : Int
  ticketId : Nat
  username : String

/-- Whether a cancel response is the success response, which comes with a refund. -/
def CancelResult.isRefund : CancelResult → Bool
  | CancelResult.cancelled _ => true
  | _ => false

/-- Number of the cancel calls of a sequence, served one after another from `st`, that
refund the ticket `ticketId`. -/
def refundsApplied (ticketId : Nat) : State → List CancelCall → Nat
  | _, [] => 0
  | st, call :: rest =>
    (if call.ticketId = ticketId ∧
        (cancel call.now call.ticketId call.username st).1.isRefund = true then 1 else 0) +
      refundsApplied ticketId (cancel call.now call.ticketId call.username st).2 rest

/-- Every ticket with this id carries the cancelled flag. -/
def AllCancelled (ticketId : Nat) (st : State) : Prop :=
  ∀ t ∈ st.tickets, t.ticket_id = ticketId → t.is_cancelled = true

/-- The ticket stored by the sale of `slipA0`. -/
def ticketA0 : Ticket :=
  { ticket_id := 1, draw_id := 1, user_id := 1, bet_details := some [("A0", 1)],
    total_amount := 10, is_cancelled := false, is_claimed := false, created_at := 0 }

/-- The retailer of `shop` after the sale of `slipA0`. -/
def ramAfterSale : User :=
  { user_id := 1, username := "ram", balance := 909 / 10 }

/-! ## Quantities of the claim handler -/

/-- One claim request: the ticket id and the caller. -/
structure ClaimCall where
  ticketId : Nat
  username : String

/-- Whether a claim response is the success response, which comes with a credit. -/
def ClaimResult.isCredit : ClaimResult → Bool
  | ClaimResult.success _ _ _ _ _ => true
  | _ => false

/-- Number of the claim calls of a sequence, served one after another from `st`, that
credit the ticket `ticketId`. -/
def claimsApplied (ticketId : Nat) : State → List ClaimCall → Nat
  | _, [] => 0
  | st, call :: rest =>
    (if call.ticketId = ticketId ∧
        (claim call.ticketId call.username st).1.isCredit = true then 1 else 0) +
      claimsApplied ticketId (claim call.ticketId call.username st).2 rest

/-- Every ticket with this id carries the claimed flag or the cancelled flag. -/
def ClaimBlocked (ticketId : Nat) (st : State) : Prop :=
  ∀ t ∈ st.tickets, t.ticket_id = ticketId → t.is_claimed = true ∨ t.is_cancelled = true

/-! ## Quantities of the daily statistics -/

/-- Specification side: the sum of `total_payout` over the rounds of today that are
settled, each round counted once. -/
def specDayPayout (st : State) (now : Int) : ℚ :=
  ((st.draws.filter (fun d => d.is_processed && decide (sqlDate d.end_time = sqlDate now))).map
    (fun d => d.total_payout)).sum

/-- Two slips of 10 on A0 sold for the same round, the round then settled with A0. -/
def twoSlipsSettled : State :=
  (declareWinner luckyRand 605 600
    (run shop [Op.submit 10 0 "ram" slipA0, Op.submit 10 1 "ram" slipA0])).2

/-- A ticket whose `bet_details` text does not parse, bound to round 1. -/
def brokenTicket : Ticket :=
  { ticket_id := 7, draw_id := 1, user_id := 1, bet_details := none, total_amount := 10,
    is_cancelled := false, is_claimed := false, created_at := 0 }

/-- The state `openSale` with a second, unparsable ticket in the same round. -/
def brokenSale : State :=
  { openSale with tickets := openSale.tickets ++ [brokenTicket] }

/-- The state `openSale` after its round was settled with A0. -/
def settledSale : State :=
  (declareWinner luckyRand 605 600 openSale).2

/-! ## Server clock and the ledger invariant -/

/-- The operations are served in the order of a non-decreasing database clock that
starts at `clock`, and `declareWinner` is run only for end times that clock has reached. -/
def ClockOrdered : Int → List Op → Prop
  | _, [] => True
  | clock, Op.submit _ now _ _ :: rest => clock ≤ now ∧ ClockOrdered now rest
  | clock, Op.cancel now _ _ :: rest => clock ≤ now ∧ ClockOrdered now rest
  | clock, Op.claim _ _ :: rest => ClockOrdered clock rest
  | clock, Op.declare _ now drawEndTime :: rest =>
    clock ≤ now ∧ drawEndTime ≤ now ∧ ClockOrdered now rest

/-- What the ledger keeps true at server time `clock`: ticket ids and round ids are
unique, every round with a determined winning spot has closed, every claimed ticket
belongs to a round that has closed, and no ticket is both cancelled and claimed. -/
structure LedgerInv (clock : Int) (st : State) : Prop where
  ticketIds : (st.tickets.map (fun t => t.ticket_id)).Nodup
  drawIds : (st.draws.map (fun d => d.draw_id)).Nodup
  determinedPast : ∀ d ∈ st.draws, d.winning_spot ≠ "PENDING" → d.end_time ≤ clock
  claimedPast : ∀ t ∈ st.tickets, t.is_claimed = true →
    ∃ d ∈ st.draws, d.draw_id = t.draw_id ∧ d.end_time ≤ clock
  exclusive : ∀ t ∈ st.tickets, ¬ (t.is_cancelled = true ∧ t.is_claimed = true)

/-- A day on which the scheduler settles the round closing at second 600 while the
database clock still reads 540: sale, settlement, claim of the win, then cancel. -/
def skewedDay : List Op :=
  [Op.submit 10 0 "ram" slipA0, Op.declare luckyRand 540 600, Op.claim 1 "ram",
   Op.cancel 540 1 "ram"]

/-- The same day with the settlement and the cancel attempt after the close. -/
def orderedDay : List Op :=
  [Op.submit 10 0 "ram" slipA0, Op.declare luckyRand 605 600, Op.claim 1 "ram",
   Op.cancel 700 1 "ram"]

/-! # Theorems -/

/-! ## Facts about the draw row (lines 60-85 and the final `UPDATE draws`) -/

theorem filter_finalizeDraw (ds : List Draw) (id : Nat) (w : String) (c p : ℚ) (e : Int) :
    (finalizeDraw ds id w c p).filter (fun d => d.end_time = e) =
      finalizeDraw (ds.filter (fun d => d.end_time = e)) id w c p := by
  induction ds with
  | nil => rfl
  | cons d ds ih =>
    unfold finalizeDraw at ih ⊢
    by_cases h1 : d.draw_id = id <;> by_cases h2 : d.end_time = e <;>
      simp [List.filter_cons, h1, h2, ih]

theorem findOrCreateDraw_some {e : Int} {st tx : State} {id : Nat}
    (h : findOrCreateDraw e st = some (id, tx)) :
    tx.users = st.users ∧ tx.tickets = st.tickets ∧ tx.game_settings = st.game_settings ∧
      ∃ d rest, tx.draws.filter (fun d => d.end_time = e) = d :: rest ∧
        d.draw_id = id ∧ d.is_processed = false := by
  unfold findOrCreateDraw at h
  split at h
  · rename_i hnil
    simp only [Option.some.injEq, Prod.mk.injEq] at h
    obtain ⟨hid, htx⟩ := h
    subst htx
    refine ⟨rfl, rfl, rfl, pendingDraw (nextDrawId st.draws) e, [], ?_, hid, rfl⟩
    simp [List.filter_append, hnil, pendingDraw]
  · rename_i draw rest hcons
    split at h
    · exact absurd h (by simp)
    · rename_i hproc
      simp only [Option.some.injEq, Prod.mk.injEq] at h
      obtain ⟨hid, htx⟩ := h
      subst htx
      exact ⟨rfl, rfl, rfl, draw, rest, hcons, hid, by simpa using hproc⟩

theorem calculateBets_eq_none (tickets : List Ticket) (acc : SpotBets × ℚ) :
    calculateBets tickets acc = none ↔ ∃ t ∈ tickets, t.bet_details = none := by
  induction tickets generalizing acc with
  | nil => simp [calculateBets]
  | cons t ts ih =>
    unfold calculateBets
    cases hb : t.bet_details with
    | none => simp [hb]
    | some bd => simp [hb, ih]

theorem payoutUsers_eq_none (w : String) (tickets : List Ticket) (users : List User) :
    payoutUsers w tickets users = none ↔ ∃ t ∈ tickets, t.bet_details = none := by
  induction tickets generalizing users with
  | nil => simp [payoutUsers]
  | cons t ts ih =>
    unfold payoutUsers
    cases hb : t.bet_details with
    | none => simp [hb]
    | some bd =>
      by_cases hq : winningQty bd w > 0 <;> simp [hb, hq, ih]

theorem settleDraw_eq_none (rng : Rand) (now : Int) (id : Nat) (tx : State) :
    settleDraw rng now id tx = none ↔ ∃ t ∈ ticketsOfDraw tx.tickets id, t.bet_details = none := by
  unfold settleDraw
  by_cases hlen : (ticketsOfDraw tx.tickets id).length = 0
  · have hnil : ticketsOfDraw tx.tickets id = [] := List.length_eq_zero.mp hlen
    simp [hnil]
  · simp only [hlen, if_false]
    cases hc : calculateBets (ticketsOfDraw tx.tickets id) initialBets with
    | none => simpa using (calculateBets_eq_none _ _).mp hc
    | some sc =>
      obtain ⟨spotBets, drawCollection⟩ := sc
      have hno : ¬ ∃ t ∈ ticketsOfDraw tx.tickets id, t.bet_details = none := by
        intro hex
        have := (calculateBets_eq_none _ initialBets).mpr hex
        rw [hc] at this
        exact absurd this (by simp)
      simp only
      cases hp : payoutUsers
          (hybridBrain rng tx.game_settings (dailyStats tx now) spotBets drawCollection).1
          (ticketsOfDraw tx.tickets id) tx.users with
      | none => exact absurd ((payoutUsers_eq_none _ _ _).mp hp) hno
      | some users => simp [hno]

theorem settleDraw_empty (rng : Rand) (now : Int) (id : Nat) (tx : State)
    (h : ticketsOfDraw tx.tickets id = []) :
    settleDraw rng now id tx =
      some (Outcome.finalizedEmpty,
        { tx with draws := (finalizeDraw tx.draws id
            (spotNames.getD (randomInt 0 spotNames.length rng.emptyDraw) "") 0 0) }) := by
  simp [settleDraw, h]

theorem settleDraw_nonempty (rng : Rand) (now : Int) (id : Nat) (tx : State)
    (spotBets : SpotBets) (drawCollection : ℚ) (users : List User)
    (h : ticketsOfDraw tx.tickets id ≠ [])
    (hc : calculateBets (ticketsOfDraw tx.tickets id) initialBets = some (spotBets, drawCollection))
    (hp : payoutUsers
        (hybridBrain rng tx.game_settings (dailyStats tx now) spotBets drawCollection).1
        (ticketsOfDraw tx.tickets id) tx.users = some users) :
    settleDraw rng now id tx =
      some (Outcome.finalized,
        { tx with
          users := users,
          draws := (finalizeDraw tx.draws id
            (hybridBrain rng tx.game_settings (dailyStats tx now) spotBets drawCollection).1
            drawCollection
            (sqlNumber
              (hybridBrain rng tx.game_settings (dailyStats tx now) spotBets drawCollection).2)) }) := by
  have hlen : ¬ (ticketsOfDraw tx.tickets id).length = 0 := fun hl => h (List.length_eq_zero.mp hl)
  simp only [settleDraw, hlen, if_false, hc, hp]

/-- Inversion of `settleDraw`: a run that does not throw took the empty-draw branch or
the full aggregation, selection and payout path. -/
theorem settleDraw_some {rng : Rand} {now : Int} {id : Nat} {tx st' : State} {o : Outcome}
    (h : settleDraw rng now id tx = some (o, st')) :
    (ticketsOfDraw tx.tickets id = [] ∧ o = Outcome.finalizedEmpty ∧
      st' = { tx with draws := (finalizeDraw tx.draws id
            (spotNames.getD (randomInt 0 spotNames.length rng.emptyDraw) "") 0 0) }) ∨
    (ticketsOfDraw tx.tickets id ≠ [] ∧ o = Outcome.finalized ∧
      ∃ spotBets drawCollection users,
        calculateBets (ticketsOfDraw tx.tickets id) initialBets = some (spotBets, drawCollection) ∧
        payoutUsers
          (hybridBrain rng tx.game_settings (dailyStats tx now) spotBets drawCollection).1
          (ticketsOfDraw tx.tickets id) tx.users = some users ∧
        st' = { tx with
          users := users,
          draws := (finalizeDraw tx.draws id
            (hybridBrain rng tx.game_settings (dailyStats tx now) spotBets drawCollection).1
            drawCollection
            (sqlNumber
              (hybridBrain rng tx.game_settings (dailyStats tx now) spotBets drawCollection).2)) }) := by
  by_cases hnil : ticketsOfDraw tx.tickets id = []
  · rw [settleDraw_empty rng now id tx hnil] at h
    simp only [Option.some.injEq, Prod.mk.injEq] at h
    exact Or.inl ⟨hnil, h.1.symm, h.2.symm⟩
  · right
    cases hc : calculateBets (ticketsOfDraw tx.tickets id) initialBets with
    | none =>
      have := (settleDraw_eq_none rng now id tx).mpr ((calculateBets_eq_none _ _).mp hc)
      rw [this] at h
      exact absurd h (by simp)
    | some sc =>
      obtain ⟨spotBets, drawCollection⟩ := sc
      cases hp : payoutUsers
          (hybridBrain rng tx.game_settings (dailyStats tx now) spotBets drawCollection).1
          (ticketsOfDraw tx.tickets id) tx.users with
      | none =>
        have := (settleDraw_eq_none rng now id tx).mpr ((payoutUsers_eq_none _ _ _).mp hp)
        rw [this] at h
        exact absurd h (by simp)
      | some users =>
        rw [settleDraw_nonempty rng now id tx spotBets drawCollection users hnil hc hp] at h
        simp only [Option.some.injEq, Prod.mk.injEq] at h
        exact ⟨hnil, h.1.symm, spotBets, drawCollection, users, rfl, hp, h.2.symm⟩

theorem settleDraw_draws {rng : Rand} {now : Int} {id : Nat} {tx st' : State} {o : Outcome}
    (h : settleDraw rng now id tx = some (o, st')) :
    o ≠ Outcome.rolledBack ∧ st'.tickets = tx.tickets ∧
      ∃ w c p, st'.draws = finalizeDraw tx.draws id w c p := by
  rcases settleDraw_some h with ⟨-, ho, hst⟩ | ⟨-, ho, sb, c, us, -, -, hst⟩
  · rw [ho, hst]
    exact ⟨by simp, rfl, _, _, _, rfl⟩
  · rw [ho, hst]
    exact ⟨by simp, rfl, _, _, _, rfl⟩

theorem findOrCreateDraw_after_settle {e : Int} {st tx st' : State} {id : Nat} {rng : Rand}
    {now : Int} {o : Outcome} (hf : findOrCreateDraw e st = some (id, tx))
    (hs : settleDraw rng now id tx = some (o, st')) :
    findOrCreateDraw e st' = none := by
  obtain ⟨-, -, -, d, rest, hfilter, hid, -⟩ := findOrCreateDraw_some hf
  obtain ⟨-, -, w, c, p, hdraws⟩ := settleDraw_draws hs
  unfold findOrCreateDraw
  rw [hdraws, filter_finalizeDraw, hfilter]
  simp [finalizeDraw, hid]

/-- C2: running `declareWinner` a second time for the same draw end time, whatever the
random draws and the clock of either run, leaves the state of the first run untouched;
the second run reports the round as already processed unless the first run rolled back,
in which case it rolls back again. -/
theorem declareWinner_idempotent (rng1 rng2 : Rand) (now1 now2 drawEndTime : Int) (st : State) :
    declareWinner rng2 now2 drawEndTime (declareWinner rng1 now1 drawEndTime st).2 =
      (if (declareWinner rng1 now1 drawEndTime st).1 = Outcome.rolledBack
        then Outcome.rolledBack else Outcome.alreadyProcessed,
       (declareWinner rng1 now1 drawEndTime st).2) := by
  cases hf : findOrCreateDraw drawEndTime st with
  | none => simp [declareWinner, hf]
  | some r =>
    obtain ⟨id, tx⟩ := r
    cases hs : settleDraw rng1 now1 id tx with
    | none =>
      have hs2 : settleDraw rng2 now2 id tx = none :=
        (settleDraw_eq_none rng2 now2 id tx).mpr ((settleDraw_eq_none rng1 now1 id tx).mp hs)
      simp [declareWinner, hf, hs, hs2]
    | some r1 =>
      obtain ⟨o, st'⟩ := r1
      have hnone := findOrCreateDraw_after_settle hf hs
      have ho : o ≠ Outcome.rolledBack := (settleDraw_draws hs).1
      simp [declareWinner, hf, hs, hnone, ho]

/-! ## Settlement and cancelled tickets -/

/-- C1 (the code at the failing input): a slip of quantity 1 on A0 is sold and then
cancelled; `declareWinner` settles the round with A0 and writes `total_payout = 90`,
while the sum over the non-cancelled tickets of the round is 0. -/
theorem declareWinner_total_payout_counts_cancelled :
    (declareWinner luckyRand 605 600 cancelledSale).1 = Outcome.finalized ∧
    roundOf (declareWinner luckyRand 605 600 cancelledSale).2 600 =
      some { draw_id := 1, end_time := 600, winning_spot := "A0", total_collection := 10,
             total_payout := 90, is_processed := true } ∧
    (ticketsOfDraw cancelledSale.tickets 1).map (fun t => t.is_cancelled) = [true] ∧
    specTotalPayout (ticketsOfDraw cancelledSale.tickets 1) "A0" = 0 := by
  decide!

/-- C3 (the code at the failing input): a slip of quantity 1 on A0 is sold (balance
100 - 9.1 = 90.9), `declareWinner` settles the round with A0 and credits 90 (balance
180.9), and the claim that follows succeeds and credits 90 again (balance 270.9). -/
theorem settlement_then_claim_credits_twice :
    openSale.users.map (fun u => u.balance) = [909 / 10] ∧
    (declareWinner luckyRand 605 600 openSale).1 = Outcome.finalized ∧
    (declareWinner luckyRand 605 600 openSale).2.users.map (fun u => u.balance) = [1809 / 10] ∧
    (claim 1 "ram" (declareWinner luckyRand 605 600 openSale).2).1 =
      ClaimResult.success 90 1 "A0" 1 (2709 / 10) ∧
    (claim 1 "ram" (declareWinner luckyRand 605 600 openSale).2).2.users.map
      (fun u => u.balance) = [2709 / 10] := by
  decide!

/-- C6 (the code at the failing input): on the single cancelled ticket of
`cancelledSale` the aggregation loop yields collection 10 and liability 90 on A0,
while the sums over the non-cancelled tickets are both 0. -/
theorem calculateBets_counts_cancelled :
    cancelledSale.tickets.map (fun t => (t.is_cancelled, t.total_amount)) = [(true, 10)] ∧
    (calculateBets cancelledSale.tickets initialBets).map (fun r => (r.1 "A0" * 9, r.2)) =
      some (90, 10) ∧
    specCollection cancelledSale.tickets = 0 ∧
    specTotalPayout cancelledSale.tickets "A0" = 0 := by
  decide!

/-! ## Balances stay non-negative -/

theorem setBalance_solvent (users : List User) (id : Nat) (b : ℚ) (hb : 0 ≤ b)
    (h : ∀ u ∈ users, 0 ≤ u.balance) : ∀ u ∈ setBalance users id b, 0 ≤ u.balance := by
  intro u hu
  simp only [setBalance, List.mem_map] at hu
  obtain ⟨v, hv, rfl⟩ := hu
  split
  · exact hb
  · exact h v hv

theorem creditUser_solvent (users : List User) (id : Nat) (a : ℚ) (ha : 0 ≤ a)
    (h : ∀ u ∈ users, 0 ≤ u.balance) : ∀ u ∈ creditUser users id a, 0 ≤ u.balance := by
  intro u hu
  simp only [creditUser, List.mem_map] at hu
  obtain ⟨v, hv, rfl⟩ := hu
  split
  · exact add_nonneg (h v hv) ha
  · exact h v hv

theorem payoutUsers_solvent (w : String) (tickets : List Ticket) (users us : List User)
    (hp : payoutUsers w tickets users = some us) (h : ∀ u ∈ users, 0 ≤ u.balance) :
    ∀ u ∈ us, 0 ≤ u.balance := by
  induction tickets generalizing users with
  | nil =>
    simp only [payoutUsers, Option.some.injEq] at hp
    subst hp
    exact h
  | cons t ts ih =>
    unfold payoutUsers at hp
    cases hb : t.bet_details with
    | none => simp [hb] at hp
    | some bd =>
      simp only [hb] at hp
      by_cases hq : winningQty bd w > 0
      · simp only [hq, if_true] at hp
        exact ih _ hp (creditUser_solvent users _ _ (by positivity) h)
      · simp only [hq, if_false] at hp
        exact ih _ hp h

theorem lookup_mem {k : String} {v : ℚ} (bd : BetDetails) (h : bd.lookup k = some v) :
    (k, v) ∈ bd := by
  induction bd with
  | nil => simp at h
  | cons e es ih =>
    obtain ⟨k', v'⟩ := e
    by_cases hk : k = k'
    · subst hk
      simp only [List.lookup_cons, beq_self_eq_true, Option.some.injEq] at h
      subst h
      exact List.mem_cons_self _ _
    · have hne : (k == k') = false := by simpa using hk
      simp only [List.lookup_cons, hne] at h
      exact List.mem_cons_of_mem _ (ih h)

theorem winningQty_nonneg (bd : BetDetails) (spot : String) (h : NonNegBets bd) :
    0 ≤ winningQty bd spot := by
  unfold winningQty orDefault
  cases hl : bd.lookup spot with
  | none => simp
  | some v =>
    simp only
    split
    · exact le_refl _
    · exact h _ (lookup_mem bd hl)

theorem usersNamed_head_mem {users : List User} {name : String} {user : User} {rest : List User}
    (h : usersNamed users name = user :: rest) : user ∈ users := by
  have : user ∈ usersNamed users name := by rw [h]; exact List.mem_cons_self _ _
  exact (List.mem_filter.mp this).1

theorem ticketWithDraw_head_mem {st : State} {ticketId userId : Nat} {ticket : Ticket}
    {draw : Draw} {rest : List (Ticket × Draw)}
    (h : ticketWithDraw st ticketId userId = (ticket, draw) :: rest) :
    ticket ∈ st.tickets ∧ draw ∈ st.draws ∧ ticket.draw_id = draw.draw_id ∧
      ticket.ticket_id = ticketId ∧ ticket.user_id = userId := by
  have hm : (ticket, draw) ∈ ticketWithDraw st ticketId userId := by
    rw [h]; exact List.mem_cons_self _ _
  simp only [ticketWithDraw, List.mem_filter, List.mem_flatMap, List.mem_map, Bool.and_eq_true,
    decide_eq_true_eq] at hm
  obtain ⟨⟨t, ht, d, ⟨hd, hjoin⟩, heq⟩, hid, huid⟩ := hm
  simp only [Prod.mk.injEq] at heq
  obtain ⟨rfl, rfl⟩ := heq
  exact ⟨ht, hd, hjoin, hid, huid⟩

theorem markClaimed_nonNeg (tickets : List Ticket) (id : Nat)
    (h : ∀ t ∈ tickets, t.NonNeg) : ∀ t ∈ markClaimed tickets id, t.NonNeg := by
  intro t ht
  simp only [markClaimed, List.mem_map] at ht
  obtain ⟨v, hv, rfl⟩ := ht
  split
  · exact h v hv
  · exact h v hv

theorem markCancelled_nonNeg (tickets : List Ticket) (id : Nat)
    (h : ∀ t ∈ tickets, t.NonNeg) : ∀ t ∈ markCancelled tickets id, t.NonNeg := by
  intro t ht
  simp only [markCancelled, List.mem_map] at ht
  obtain ⟨v, hv, rfl⟩ := ht
  split
  · exact h v hv
  · exact h v hv

theorem submitTicket_invariant (currentHour : Nat) (now : Int) (username : String)
    (ticketData : TicketData) (st : State)
    (hamt : 0 ≤ ticketData.totalAmount) (hbets : NonNegBets ticketData.betDetails)
    (hs : st.Solvent) (ht : ∀ t ∈ st.tickets, t.NonNeg) :
    (submitTicket currentHour now username ticketData st).2.Solvent ∧
      ∀ t ∈ (submitTicket currentHour now username ticketData st).2.tickets, t.NonNeg := by
  unfold submitTicket
  split
  · exact ⟨hs, ht⟩
  · split
    · exact ⟨hs, ht⟩
    · rename_i user rest huser
      dsimp only
      split
      · exact ⟨hs, ht⟩
      · rename_i hbal
        refine ⟨setBalance_solvent _ _ _ (not_lt.mp hbal) hs, ?_⟩
        intro t htm
        simp only [List.mem_append, List.mem_singleton] at htm
        rcases htm with htm | rfl
        · exact ht t htm
        · refine ⟨hamt, ?_⟩
          intro bd hbd
          simp only [Option.some.injEq] at hbd
          subst hbd
          exact hbets

theorem cancel_invariant (now : Int) (ticketId : Nat) (username : String) (st : State)
    (hs : st.Solvent) (ht : ∀ t ∈ st.tickets, t.NonNeg) :
    (cancel now ticketId username st).2.Solvent ∧
      ∀ t ∈ (cancel now ticketId username st).2.tickets, t.NonNeg := by
  unfold cancel
  split
  · exact ⟨hs, ht⟩
  · rename_i user rest huser
    split
    · exact ⟨hs, ht⟩
    · rename_i ticket draw rest2 hrow
      split
      · exact ⟨hs, ht⟩
      · split
        · exact ⟨hs, ht⟩
        · have hu := hs user (usersNamed_head_mem huser)
          have htk := (ht ticket (ticketWithDraw_head_mem hrow).1).1
          exact ⟨setBalance_solvent _ _ _ (add_nonneg hu htk) hs, markCancelled_nonNeg _ _ ht⟩

theorem claim_invariant (ticketId : Nat) (username : String) (st : State)
    (hs : st.Solvent) (ht : ∀ t ∈ st.tickets, t.NonNeg) :
    (claim ticketId username st).2.Solvent ∧
      ∀ t ∈ (claim ticketId username st).2.tickets, t.NonNeg := by
  unfold claim
  split
  · exact ⟨hs, ht⟩
  · rename_i user rest huser
    split
    · exact ⟨hs, ht⟩
    · rename_i ticket draw rest2 hrow
      split
      · exact ⟨hs, ht⟩
      · split
        · exact ⟨hs, ht⟩
        · rename_i bets hbets
          split
          · exact ⟨hs, ht⟩
          · have hu := hs user (usersNamed_head_mem huser)
            have hq := winningQty_nonneg bets draw.winning_spot
              ((ht ticket (ticketWithDraw_head_mem hrow).1).2 bets hbets)
            exact ⟨setBalance_solvent _ _ _ (add_nonneg hu (by positivity)) hs,
              markClaimed_nonNeg _ _ ht⟩

theorem declareWinner_invariant (rng : Rand) (now drawEndTime : Int) (st : State)
    (hs : st.Solvent) (ht : ∀ t ∈ st.tickets, t.NonNeg) :
    (declareWinner rng now drawEndTime st).2.Solvent ∧
      ∀ t ∈ (declareWinner rng now drawEndTime st).2.tickets, t.NonNeg := by
  cases hf : findOrCreateDraw drawEndTime st with
  | none =>
    simp only [declareWinner, hf]
    exact ⟨hs, ht⟩
  | some r =>
    obtain ⟨id, tx⟩ := r
    obtain ⟨husers, htickets, -, -⟩ := findOrCreateDraw_some hf
    cases hsd : settleDraw rng now id tx with
    | none =>
      simp only [declareWinner, hf, hsd]
      exact ⟨hs, ht⟩
    | some r1 =>
      obtain ⟨o, st'⟩ := r1
      simp only [declareWinner, hf, hsd]
      rcases settleDraw_some hsd with ⟨-, -, hst⟩ | ⟨-, -, sb, c, us, -, hp, hst⟩
      · subst hst
        refine ⟨?_, ?_⟩
        · intro u hu
          exact hs u (by simpa [husers] using hu)
        · intro t htm
          exact ht t (by simpa [htickets] using htm)
      · subst hst
        refine ⟨?_, ?_⟩
        · exact payoutUsers_solvent _ _ _ _ hp (by rw [husers]; exact hs)
        · intro t htm
          exact ht t (by simpa [htickets] using htm)

theorem step_invariant (op : Op) (st : State) (hop : op.NonNeg)
    (hs : st.Solvent) (ht : ∀ t ∈ st.tickets, t.NonNeg) :
    (step st op).Solvent ∧ ∀ t ∈ (step st op).tickets, t.NonNeg := by
  cases op with
  | submit currentHour now username ticketData =>
    exact submitTicket_invariant currentHour now username ticketData st hop.1 hop.2 hs ht
  | cancel now ticketId username => exact cancel_invariant now ticketId username st hs ht
  | claim ticketId username => exact claim_invariant ticketId username st hs ht
  | declare rng now drawEndTime => exact declareWinner_invariant rng now drawEndTime st hs ht

/-- C4 (as stated, refuted): from a state whose only balance is 0, a submit with
`totalAmount = -100` passes the balance check (new balance 91) and the cancel that
follows refunds -100, leaving the committed balance -9. -/
theorem balance_negative_after_submit_cancel :
    brokeShop.users.map (fun u => u.balance) = [0] ∧
    (submitTicket 10 0 "ram" negativeSlip brokeShop).1 = SubmitResult.confirmed 91 1 1 ∧
    (cancel 100 1 "ram" (submitTicket 10 0 "ram" negativeSlip brokeShop).2).1 =
      CancelResult.cancelled (-9) ∧
    (run brokeShop [Op.submit 10 0 "ram" negativeSlip, Op.cancel 100 1 "ram"]).users.map
      (fun u => u.balance) = [-9] := by
  decide!

/-- C4 (amended): from a state in which every balance is >= 0 and every stored ticket
has a non-negative total amount and non-negative quantities, after any sequence of
submit-ticket, cancel, claim and `declareWinner` operations whose submitted tickets
have a non-negative total amount and non-negative quantities, every balance is >= 0. -/
theorem balances_stay_nonnegative (st : State) (ops : List Op)
    (hs : ∀ u ∈ st.users, 0 ≤ u.balance) (ht : ∀ t ∈ st.tickets, t.NonNeg)
    (hops : ∀ op ∈ ops, op.NonNeg) :
    ∀ u ∈ (run st ops).users, 0 ≤ u.balance := by
  induction ops generalizing st with
  | nil => exact hs
  | cons op ops ih =>
    have hstep := step_invariant op st (hops op (List.mem_cons_self _ _)) hs ht
    exact ih (step st op) hstep.1 hstep.2 (fun o ho => hops o (List.mem_cons_of_mem _ ho))

/-- C4 (amended), at a concrete run: after a sale, the settlement of its round and the
claim of the ticket, the retailer of `shop` holds 270.9, which is not negative. -/
theorem balances_stay_nonnegative_witness :
    ({ user_id := 1, username := "ram", balance := 2709 / 10 } : User) ∈
      (run shop [Op.submit 10 0 "ram" slipA0, Op.declare luckyRand 605 600,
        Op.claim 1 "ram"]).users ∧
    0 ≤ ({ user_id := 1, username := "ram", balance := 2709 / 10 } : User).balance :=
  ⟨by decide!,
   balances_stay_nonnegative shop
    [Op.submit 10 0 "ram" slipA0, Op.declare luckyRand 605 600, Op.claim 1 "ram"]
    (by simp [shop])
    (by simp [shop])
    (by simp [Op.NonNeg, NonNegBets, slipA0])
    { user_id := 1, username := "ram", balance := 2709 / 10 } (by decide!)⟩

/-! ## What a settlement writes -/

theorem roundOf_finalizeDraw (st' tx : State) (id : Nat) (w : String) (c p : ℚ) (e : Int)
    (d : Draw) (rest : List Draw)
    (hfilter : tx.draws.filter (fun d => d.end_time = e) = d :: rest) (hid : d.draw_id = id)
    (hdraws : st'.draws = finalizeDraw tx.draws id w c p) :
    roundOf st' e =
      some { draw_id := id, end_time := e, winning_spot := w, total_collection := c,
             total_payout := p, is_processed := true } := by
  have hmem : d ∈ tx.draws.filter (fun d => d.end_time = e) := by
    rw [hfilter]; exact List.mem_cons_self _ _
  have hend : d.end_time = e := by simpa using (List.mem_filter.mp hmem).2
  unfold roundOf
  rw [hdraws, filter_finalizeDraw, hfilter]
  simp [finalizeDraw, hid, hend]

/-- Inversion of a run of `declareWinner` that settles a round holding tickets. -/
theorem declareWinner_finalized {rng : Rand} {now e : Int} {st st' : State}
    (h : declareWinner rng now e st = (Outcome.finalized, st')) :
    ∃ id tx spotBets drawCollection,
      findOrCreateDraw e st = some (id, tx) ∧
      ticketsOfDraw st.tickets id ≠ [] ∧
      calculateBets (ticketsOfDraw st.tickets id) initialBets = some (spotBets, drawCollection) ∧
      payoutUsers
        (hybridBrain rng st.game_settings (dailyStats tx now) spotBets drawCollection).1
        (ticketsOfDraw st.tickets id) st.users = some st'.users ∧
      st'.tickets = st.tickets ∧
      roundOf st' e =
        some { draw_id := id, end_time := e,
               winning_spot :=
                 (hybridBrain rng st.game_settings (dailyStats tx now) spotBets drawCollection).1,
               total_collection := drawCollection,
               total_payout := sqlNumber
                 (hybridBrain rng st.game_settings (dailyStats tx now) spotBets drawCollection).2,
               is_processed := true } := by
  cases hf : findOrCreateDraw e st with
  | none => simp [declareWinner, hf] at h
  | some r =>
    obtain ⟨id, tx⟩ := r
    obtain ⟨husers, htickets, hsettings, d, rest, hfilter, hid, -⟩ := findOrCreateDraw_some hf
    cases hsd : settleDraw rng now id tx with
    | none => simp [declareWinner, hf, hsd] at h
    | some r1 =>
      obtain ⟨o, st1⟩ := r1
      simp only [declareWinner, hf, hsd, Prod.mk.injEq] at h
      obtain ⟨ho, hst⟩ := h
      subst ho hst
      rcases settleDraw_some hsd with ⟨-, ho, -⟩ | ⟨hne, -, sb, c, us, hc, hp, hst⟩
      · exact absurd ho (by simp)
      · rw [htickets] at hne hc hp
        rw [husers, hsettings] at hp
        refine ⟨id, tx, sb, c, rfl, hne, hc, ?_, ?_, ?_⟩
        · rw [hst]; exact hp
        · rw [hst]; exact htickets
        · rw [← hsettings]
          exact roundOf_finalizeDraw st1 tx id _ _ _ e d rest hfilter hid (by rw [hst])

/-- Inversion of a run of `declareWinner` that settles a round without tickets. -/
theorem declareWinner_finalizedEmpty {rng : Rand} {now e : Int} {st st' : State}
    (h : declareWinner rng now e st = (Outcome.finalizedEmpty, st')) :
    ∃ id tx,
      findOrCreateDraw e st = some (id, tx) ∧
      ticketsOfDraw st.tickets id = [] ∧
      st'.users = st.users ∧ st'.tickets = st.tickets ∧
      roundOf st' e =
        some { draw_id := id, end_time := e,
               winning_spot := spotNames.getD (randomInt 0 spotNames.length rng.emptyDraw) "",
               total_collection := 0, total_payout := 0, is_processed := true } := by
  cases hf : findOrCreateDraw e st with
  | none => simp [declareWinner, hf] at h
  | some r =>
    obtain ⟨id, tx⟩ := r
    obtain ⟨husers, htickets, -, d, rest, hfilter, hid, -⟩ := findOrCreateDraw_some hf
    cases hsd : settleDraw rng now id tx with
    | none => simp [declareWinner, hf, hsd] at h
    | some r1 =>
      obtain ⟨o, st1⟩ := r1
      simp only [declareWinner, hf, hsd, Prod.mk.injEq] at h
      obtain ⟨ho, hst⟩ := h
      subst ho hst
      rcases settleDraw_some hsd with ⟨hnil, -, hst⟩ | ⟨-, ho, -⟩
      · rw [htickets] at hnil
        refine ⟨id, tx, rfl, hnil, ?_, ?_, ?_⟩
        · rw [hst]; exact husers
        · rw [hst]; exact htickets
        · exact roundOf_finalizeDraw st1 tx id _ _ _ e d rest hfilter hid (by rw [hst])
      · exact absurd ho (by simp)

theorem winningQty_eq_quantityOn (t : Ticket) (bd : BetDetails) (spot : String)
    (h : t.bet_details = some bd) : winningQty bd spot = t.quantityOn spot := by
  unfold winningQty orDefault Ticket.quantityOn
  rw [h]
  cases hl : bd.lookup spot with
  | none => simp [hl]
  | some v =>
    by_cases hv : v = 0
    · simp [hl, hv]
    · simp [hl, hv]

theorem payoutUsers_users (w : String) (tickets : List Ticket) (users us : List User)
    (hp : payoutUsers w tickets users = some us) :
    us = users.map (fun u => { u with balance := u.balance + paidOut tickets u.user_id w }) := by
  induction tickets generalizing users with
  | nil =>
    simp only [payoutUsers, Option.some.injEq] at hp
    subst hp
    simp [paidOut]
  | cons t ts ih =>
    unfold payoutUsers at hp
    cases hb : t.bet_details with
    | none => simp [hb] at hp
    | some bd =>
      have hq := winningQty_eq_quantityOn t bd w hb
      simp only [hb, hq] at hp
      by_cases hpos : t.quantityOn w > 0
      · simp only [hpos, if_true] at hp
        rw [ih _ hp, creditUser, List.map_map]
        apply List.map_congr_left
        intro u _
        by_cases hu : u.user_id = t.user_id
        · have hu' : t.user_id = u.user_id := hu.symm
          simp [paidOut, List.filter_cons, hu, hpos, add_assoc]
        · have hu' : ¬ t.user_id = u.user_id := fun h => hu h.symm
          simp [paidOut, List.filter_cons, hu, hu']
      · simp only [hpos, if_false] at hp
        rw [ih _ hp]
        apply List.map_congr_left
        intro u _
        have hpos' : ¬ 0 < t.quantityOn w := hpos
        simp [paidOut, List.filter_cons, hpos']

theorem paidOut_eq_positiveCredit (tickets : List Ticket) (userId : Nat) (spot : String)
    (h : ∀ t ∈ tickets, t.is_cancelled = false) :
    paidOut tickets userId spot = positiveCredit tickets userId spot := by
  unfold paidOut positiveCredit
  congr 2
  apply List.filter_congr
  intro t ht
  simp [h t ht]

/-! ## Credits applied by a settlement -/

/-- C5 (as stated, refuted): a standing ticket with quantity -1 on A0 is in the round;
`declareWinner` settles with A0 and leaves the owner's balance at 90.9, while the sum
over the owner's non-cancelled tickets of quantity x 90 is -90. -/
theorem declareWinner_skips_negative_quantity :
    (declareWinner unluckyRand 605 600 shortSale).1 = Outcome.finalized ∧
    roundOf (declareWinner unluckyRand 605 600 shortSale).2 600 =
      some { draw_id := 1, end_time := 600, winning_spot := "A0", total_collection := 10,
             total_payout := -90, is_processed := true } ∧
    shortSale.users.map (fun u => (u.user_id, u.balance)) = [(1, 909 / 10)] ∧
    (declareWinner unluckyRand 605 600 shortSale).2.users.map (fun u => (u.user_id, u.balance)) =
      [(1, 909 / 10)] ∧
    specCredit (ticketsOfDraw shortSale.tickets 1) 1 "A0" = -90 := by
  decide!

/-- C5 (amended): when `declareWinner` settles a round none of whose tickets is
cancelled, the round is processed and each account's balance increases by exactly the
sum, over that account's tickets in the round with a positive quantity on the winning
spot, of quantity x 90; an account with no such ticket keeps its balance. -/
theorem declareWinner_credits_positive_wins (rng : Rand) (now e : Int) (st st' tx : State)
    (id : Nat) (hf : findOrCreateDraw e st = some (id, tx))
    (hnc : ∀ t ∈ ticketsOfDraw st.tickets id, t.is_cancelled = false)
    (h : declareWinner rng now e st = (Outcome.finalized, st')) :
    ∃ d, roundOf st' e = some d ∧ d.draw_id = id ∧ d.is_processed = true ∧
      st'.users = st.users.map (fun u =>
        { u with balance := u.balance +
            positiveCredit (ticketsOfDraw st.tickets id) u.user_id d.winning_spot }) := by
  obtain ⟨id', tx', sb, c, hf', -, -, hp, -, hround⟩ := declareWinner_finalized h
  rw [hf] at hf'
  simp only [Option.some.injEq, Prod.mk.injEq] at hf'
  obtain ⟨rfl, rfl⟩ := hf'
  refine ⟨_, hround, rfl, rfl, ?_⟩
  rw [payoutUsers_users _ _ _ _ hp]
  apply List.map_congr_left
  intro u _
  rw [paidOut_eq_positiveCredit _ _ _ hnc]

/-- C5 (amended), at a concrete round: the standing slip of `openSale` wins on A0 and
its owner's balance goes from 90.9 to 180.9. -/
theorem declareWinner_credits_positive_wins_witness :
    ∃ d, roundOf (declareWinner luckyRand 605 600 openSale).2 600 = some d ∧ d.draw_id = 1 ∧
      d.is_processed = true ∧
      (declareWinner luckyRand 605 600 openSale).2.users = openSale.users.map (fun u =>
        { u with balance := u.balance +
            positiveCredit (ticketsOfDraw openSale.tickets 1) u.user_id d.winning_spot }) :=
  declareWinner_credits_positive_wins luckyRand 605 600 openSale
    (declareWinner luckyRand 605 600 openSale).2 openSale 1 (by decide!) (by decide!) (by decide!)

/-! ## JavaScript numbers: finite results -/

theorem JsNum.ofRat_of_isFinite {q : ℚ} (h : (JsNum.ofRat q).isFinite = true) :
    JsNum.ofRat q = JsNum.fin q := by
  unfold JsNum.ofRat at h ⊢
  by_cases h1 : JsNum.overflow ≤ q
  · simp [h1, JsNum.isFinite] at h
  · by_cases h2 : q ≤ -JsNum.overflow
    · simp [h1, h2, JsNum.isFinite] at h
    · simp [h1, h2]

theorem JsNum.mul_fin_of_isFinite {x : JsNum} {k : ℚ}
    (h : (x * JsNum.fin k).isFinite = true) :
    ∃ q, x = JsNum.fin q ∧ x * JsNum.fin k = JsNum.fin (q * k) := by
  cases x with
  | fin q => exact ⟨q, rfl, JsNum.ofRat_of_isFinite h⟩
  | posInf =>
    exfalso
    have hm : JsNum.posInf * JsNum.fin k =
        (if 0 < k then JsNum.posInf else if k < 0 then JsNum.negInf else JsNum.nan) := rfl
    rw [hm] at h
    split_ifs at h <;> simp [JsNum.isFinite] at h
  | negInf =>
    exfalso
    have hm : JsNum.negInf * JsNum.fin k =
        (if 0 < k then JsNum.negInf else if k < 0 then JsNum.posInf else JsNum.nan) := rfl
    rw [hm] at h
    split_ifs at h <;> simp [JsNum.isFinite] at h
  | nan =>
    exfalso
    have hm : JsNum.nan * JsNum.fin k = JsNum.nan := rfl
    rw [hm] at h
    simp [JsNum.isFinite] at h

theorem JsNum.div_fin_of_isFinite {x : JsNum} {c : ℚ} (hc : c ≠ 0)
    (h : (x / JsNum.fin c).isFinite = true) :
    ∃ q, x = JsNum.fin q ∧ x / JsNum.fin c = JsNum.fin (q / c) := by
  cases x with
  | fin q =>
    have hm : JsNum.fin q / JsNum.fin c = JsNum.ofRat (q / c) := by
      show JsNum.div (JsNum.fin q) (JsNum.fin c) = _
      simp [JsNum.div, hc]
    rw [hm] at h ⊢
    exact ⟨q, rfl, JsNum.ofRat_of_isFinite h⟩
  | posInf =>
    exfalso
    have hm : JsNum.posInf / JsNum.fin c =
        (if 0 ≤ c then JsNum.posInf else JsNum.negInf) := rfl
    rw [hm] at h
    split_ifs at h <;> simp [JsNum.isFinite] at h
  | negInf =>
    exfalso
    have hm : JsNum.negInf / JsNum.fin c =
        (if 0 ≤ c then JsNum.negInf else JsNum.posInf) := rfl
    rw [hm] at h
    split_ifs at h <;> simp [JsNum.isFinite] at h
  | nan =>
    exfalso
    have hm : JsNum.nan / JsNum.fin c = JsNum.nan := rfl
    rw [hm] at h
    simp [JsNum.isFinite] at h

theorem JsNum.sub_fin_of_isFinite {x : JsNum} {a : ℚ}
    (h : (x - JsNum.fin a).isFinite = true) :
    ∃ q, x = JsNum.fin q ∧ x - JsNum.fin a = JsNum.fin (q - a) := by
  cases x with
  | fin q =>
    have hm : JsNum.fin q - JsNum.fin a = JsNum.ofRat (q - a) := by
      show JsNum.add (JsNum.fin q) (JsNum.neg (JsNum.fin a)) = _
      simp [JsNum.add, JsNum.neg, sub_eq_add_neg]
    rw [hm] at h ⊢
    exact ⟨q, rfl, JsNum.ofRat_of_isFinite h⟩
  | posInf =>
    exfalso
    have hm : JsNum.posInf - JsNum.fin a = JsNum.posInf := rfl
    rw [hm] at h
    simp [JsNum.isFinite] at h
  | negInf =>
    exfalso
    have hm : JsNum.negInf - JsNum.fin a = JsNum.negInf := rfl
    rw [hm] at h
    simp [JsNum.isFinite] at h
  | nan =>
    exfalso
    have hm : JsNum.nan - JsNum.fin a = JsNum.nan := rfl
    rw [hm] at h
    simp [JsNum.isFinite] at h

theorem JsNum.abs_of_isFinite {x : JsNum} (h : (JsNum.abs x).isFinite = true) :
    ∃ q, x = JsNum.fin q ∧ JsNum.abs x = JsNum.fin |q| := by
  cases x with
  | fin q => exact ⟨q, rfl, rfl⟩
  | posInf => simp [JsNum.abs, JsNum.isFinite] at h
  | negInf => simp [JsNum.abs, JsNum.isFinite] at h
  | nan => simp [JsNum.abs, JsNum.isFinite] at h

theorem JsNum.fin_lt_fin {a b : ℚ} : JsNum.fin a < JsNum.fin b ↔ a < b := by
  show JsNum.lt (JsNum.fin a) (JsNum.fin b) = true ↔ a < b
  simp [JsNum.lt]

theorem JsNum.fin_lt_posInf (a : ℚ) : JsNum.fin a < JsNum.posInf := by
  show JsNum.lt (JsNum.fin a) JsNum.posInf = true
  rfl

theorem JsNum.not_lt_nan (x : JsNum) : ¬ x < JsNum.nan := by
  show ¬ JsNum.lt x JsNum.nan = true
  cases x <;> simp [JsNum.lt]

theorem JsNum.ofRat_le_ofRat {a b : ℚ} (h : a ≤ b) : JsNum.ofRat a ≤ JsNum.ofRat b := by
  show JsNum.le (JsNum.ofRat a) (JsNum.ofRat b) = true
  unfold JsNum.ofRat
  by_cases ha1 : JsNum.overflow ≤ a
  · have hb1 : JsNum.overflow ≤ b := le_trans ha1 h
    simp [ha1, hb1, JsNum.le]
  · by_cases ha2 : a ≤ -JsNum.overflow
    · by_cases hb1 : JsNum.overflow ≤ b
      · simp [ha1, ha2, hb1, JsNum.le]
      · by_cases hb2 : b ≤ -JsNum.overflow
        · simp [ha1, ha2, hb1, hb2, JsNum.le]
        · simp [ha1, ha2, hb1, hb2, JsNum.le]
    · by_cases hb1 : JsNum.overflow ≤ b
      · simp [ha1, ha2, hb1, JsNum.le]
      · have hb2 : ¬ b ≤ -JsNum.overflow := fun hb => ha2 (le_trans h hb)
        simp [ha1, ha2, hb1, hb2, JsNum.le, h]

theorem JsNum.fin_mul_nine (q : ℚ) : JsNum.fin q * 9 = JsNum.ofRat (q * 9) := by
  show JsNum.mul (JsNum.fin q) (JsNum.fin ((9 : ℕ) : ℚ)) = _
  simp [JsNum.mul]

/-- The distance the profit-control loop computes is finite only when the stake, the
liability and the RTP of the spot are finite, and it is then the exact distance. -/
theorem spotDiff_of_isFinite {spotBets : SpotBets} {c a : ℚ} {s : String} (hc : c ≠ 0)
    (h : (spotDiff spotBets c a s).isFinite = true) :
    ∃ q, spotBets s = JsNum.fin q ∧ spotBets s * 9 = JsNum.fin (q * 9) ∧
      spotDiff spotBets c a s = JsNum.fin |q * 9 / c * 100 - a| := by
  unfold spotDiff at h ⊢
  obtain ⟨d1, h1, e1⟩ := JsNum.abs_of_isFinite h
  have f1 : (spotBets s * 9 / JsNum.fin c * 100 - JsNum.fin a).isFinite = true := by
    rw [h1]; rfl
  obtain ⟨d2, h2, e2⟩ := JsNum.sub_fin_of_isFinite f1
  have f2 : (spotBets s * 9 / JsNum.fin c * JsNum.fin ((100 : ℕ) : ℚ)).isFinite = true := by
    rw [show spotBets s * 9 / JsNum.fin c * JsNum.fin ((100 : ℕ) : ℚ) =
      spotBets s * 9 / JsNum.fin c * 100 from rfl, h2]; rfl
  obtain ⟨d3, h3, e3⟩ := JsNum.mul_fin_of_isFinite f2
  have f3 : (spotBets s * 9 / JsNum.fin c).isFinite = true := by rw [h3]; rfl
  obtain ⟨d4, h4, e4⟩ := JsNum.div_fin_of_isFinite hc f3
  have f4 : (spotBets s * JsNum.fin ((9 : ℕ) : ℚ)).isFinite = true := by
    rw [show spotBets s * JsNum.fin ((9 : ℕ) : ℚ) = spotBets s * 9 from rfl, h4]; rfl
  obtain ⟨q, h5, e5⟩ := JsNum.mul_fin_of_isFinite f4
  have e5' : spotBets s * 9 = JsNum.fin (q * 9) := by
    rw [show spotBets s * 9 = spotBets s * JsNum.fin ((9 : ℕ) : ℚ) from rfl, e5]
    simp
  refine ⟨q, h5, e5', ?_⟩
  rw [e1]
  have hd4 : d4 = q * 9 := by
    have := h4.symm.trans e5'
    simpa using this
  have hd3 : d3 = d4 / c := by
    have := h3.symm.trans e4
    simpa using this
  have hd2 : d2 = d3 * 100 := by
    have := h2.symm.trans
      ((show spotBets s * 9 / JsNum.fin c * 100 =
        spotBets s * 9 / JsNum.fin c * JsNum.fin ((100 : ℕ) : ℚ) from rfl).trans e3)
    simpa using this
  have hd1 : d1 = d2 - a := by
    have := h1.symm.trans e2
    simpa using this
  rw [hd1, hd2, hd3, hd4]

/-! ## The winner selector -/

theorem getD_randomInt_mem (l : List String) (seed : Nat) (h : l.length > 0) :
    l.getD (randomInt 0 l.length seed) "" ∈ l := by
  have hlt : randomInt 0 l.length seed < l.length := by
    unfold randomInt
    simpa using Nat.mod_lt seed h
  rw [List.getD_eq_getElem _ _ hlt]
  exact List.getElem_mem _

theorem SpotBets.get_of_not_mem (spotBets : SpotBets) {s : String} (h : s ∉ spotNames) :
    spotBets s = JsNum.nan := by
  show SpotBets.get spotBets s = JsNum.nan
  simp [SpotBets.get, h]

theorem SpotBets.keys_of_no_extra {spotBets : SpotBets} (h : spotBets.extraKeys = []) :
    spotBets.keys = spotNames := by
  simp [SpotBets.keys, h]

theorem SpotBets.mem_keys_of_mem {spotBets : SpotBets} {s : String} (h : s ∈ spotNames) :
    s ∈ spotBets.keys := by
  unfold SpotBets.keys
  exact List.mem_append_left _ h

theorem JsNum.eq_fin_sqlNumber {x : JsNum} (h : x.isFinite = true) :
    x = JsNum.fin (sqlNumber x) := by
  cases x with
  | fin q => rfl
  | posInf => simp [JsNum.isFinite] at h
  | negInf => simp [JsNum.isFinite] at h
  | nan => simp [JsNum.isFinite] at h

theorem JsNum.lt_irrefl (x : JsNum) : ¬ x < x := by
  show ¬ JsNum.lt x x = true
  cases x <;> simp [JsNum.lt]

theorem JsNum.lt_trans {x y z : JsNum} (hxy : x < y) (hyz : y < z) : x < z := by
  have hxy' : JsNum.lt x y = true := hxy
  have hyz' : JsNum.lt y z = true := hyz
  show JsNum.lt x z = true
  cases x <;> cases y <;> cases z <;> simp [JsNum.lt] at hxy' hyz' ⊢
  exact lt_of_lt_of_le hxy' (le_of_lt hyz')

theorem JsNum.nan_not_lt (y : JsNum) : ¬ JsNum.nan < y := by
  show ¬ JsNum.lt JsNum.nan y = true
  cases y <;> simp [JsNum.lt]

theorem JsNum.lt_posInf_of_lt {x y : JsNum} (h : x < y) : x < JsNum.posInf := by
  have h' : JsNum.lt x y = true := h
  show JsNum.lt x JsNum.posInf = true
  cases x <;> cases y <;> simp [JsNum.lt] at h' ⊢

theorem JsNum.lt_posInf_of_isFinite {x : JsNum} (h : x.isFinite = true) : x < JsNum.posInf := by
  rw [JsNum.eq_fin_sqlNumber h]
  exact JsNum.fin_lt_posInf _

theorem JsNum.le_of_not_lt_of_pos {x y : JsNum} (hx : 0 < x) (hy : 0 < y) (h : ¬ y < x) :
    x ≤ y := by
  have hx' : JsNum.lt (JsNum.fin ((0 : ℕ) : ℚ)) x = true := hx
  have hy' : JsNum.lt (JsNum.fin ((0 : ℕ) : ℚ)) y = true := hy
  have h' : ¬ JsNum.lt y x = true := h
  show JsNum.le x y = true
  cases x <;> cases y <;> simp [JsNum.lt, JsNum.le] at hx' hy' h' ⊢
  exact h'

theorem JsNum.ofRat_le_posInf (q : ℚ) : JsNum.ofRat q ≤ JsNum.posInf := by
  show JsNum.le (JsNum.ofRat q) JsNum.posInf = true
  unfold JsNum.ofRat
  split_ifs <;> rfl

theorem JsNum.mul_nine_le_of_pos {x y : JsNum} (hx : 0 < x) (hy : 0 < y) (h : x ≤ y) :
    x * 9 ≤ y * 9 := by
  have hx' : JsNum.lt (JsNum.fin ((0 : ℕ) : ℚ)) x = true := hx
  have hy' : JsNum.lt (JsNum.fin ((0 : ℕ) : ℚ)) y = true := hy
  cases x with
  | fin a =>
    cases y with
    | fin b =>
      rw [JsNum.fin_mul_nine, JsNum.fin_mul_nine]
      apply JsNum.ofRat_le_ofRat
      have hab : a ≤ b := by
        have h' : JsNum.le (JsNum.fin a) (JsNum.fin b) = true := h
        simpa [JsNum.le] using h'
      have h9 : (0 : ℚ) ≤ 9 := by norm_num
      exact mul_le_mul_of_nonneg_right hab h9
    | posInf =>
      rw [JsNum.fin_mul_nine]
      have hp : JsNum.posInf * 9 = JsNum.posInf := by decide!
      rw [hp]
      exact JsNum.ofRat_le_posInf _
    | negInf => simp [JsNum.lt] at hy'
    | nan => simp [JsNum.lt] at hy'
  | posInf =>
    cases y with
    | fin b =>
      have h' : JsNum.le JsNum.posInf (JsNum.fin b) = true := h
      simp [JsNum.le] at h'
    | posInf => decide!
    | negInf => simp [JsNum.lt] at hy'
    | nan => simp [JsNum.lt] at hy'
  | negInf => simp [JsNum.lt] at hx'
  | nan => simp [JsNum.lt] at hx'

theorem winningSpots_mem {spotBets : SpotBets} {s : String} :
    s ∈ winningSpots spotBets ↔ s ∈ spotNames ∧ 0 < spotBets s := by
  unfold winningSpots SpotBets.keys
  rw [List.mem_filter, List.mem_append]
  constructor
  · rintro ⟨-, hpos⟩
    have hpos' : 0 < spotBets s := by simpa using hpos
    by_cases hs : s ∈ spotNames
    · exact ⟨hs, hpos'⟩
    · rw [SpotBets.get_of_not_mem spotBets hs] at hpos'
      exact absurd hpos' (JsNum.not_lt_nan _)
  · rintro ⟨hs, hpos⟩
    exact ⟨Or.inl hs, by simpa using hpos⟩

theorem losingSpots_mem {spotBets : SpotBets} {s : String} :
    s ∈ losingSpots spotBets ↔ s ∈ spotBets.keys ∧ ¬ 0 < spotBets s := by
  simp [losingSpots, List.mem_filter]

/-! ## Minimum searches of the winner selector -/

/-- The fallback loop, once `minPay` holds the stake of `bestSpot`: it ends on a key
whose stake no key of the list undercuts. -/
theorem lowestStake_fold (spotBets : SpotBets) (xs : List String) (acc : JsNum × String)
    (hacc : acc.1 = spotBets acc.2) :
    (xs.foldl (lowestStakeStep spotBets) acc).1 =
        spotBets (xs.foldl (lowestStakeStep spotBets) acc).2 ∧
    ((xs.foldl (lowestStakeStep spotBets) acc).2 = acc.2 ∨
      (xs.foldl (lowestStakeStep spotBets) acc).2 ∈ xs) ∧
    ((xs.foldl (lowestStakeStep spotBets) acc).1 = acc.1 ∨
      (xs.foldl (lowestStakeStep spotBets) acc).1 < acc.1) ∧
    ∀ s ∈ xs, ¬ spotBets s < (xs.foldl (lowestStakeStep spotBets) acc).1 := by
  induction xs generalizing acc with
  | nil => exact ⟨hacc, Or.inl rfl, Or.inl rfl, by simp⟩
  | cons x xs ih =>
    rw [List.foldl_cons]
    by_cases hlt : spotBets x < acc.1
    · have hstep : lowestStakeStep spotBets acc x = (spotBets x, x) := by
        unfold lowestStakeStep
        rw [if_pos hlt]
      rw [hstep]
      obtain ⟨h1, h2, h3, h4⟩ := ih (spotBets x, x) rfl
      refine ⟨h1, ?_, ?_, ?_⟩
      · rcases h2 with h2 | h2
        · exact Or.inr (by rw [h2]; exact List.mem_cons_self _ _)
        · exact Or.inr (List.mem_cons_of_mem _ h2)
      · rcases h3 with h3 | h3
        · exact Or.inr (by rw [h3]; exact hlt)
        · exact Or.inr (JsNum.lt_trans h3 hlt)
      · intro s hs
        rcases List.mem_cons.mp hs with rfl | hs'
        · rcases h3 with h3 | h3
          · rw [h3]; exact JsNum.lt_irrefl _
          · intro hcon
            exact JsNum.lt_irrefl _ (JsNum.lt_trans hcon h3)
        · exact h4 s hs'
    · have hstep : lowestStakeStep spotBets acc x = acc := by
        unfold lowestStakeStep
        rw [if_neg hlt]
      rw [hstep]
      obtain ⟨h1, h2, h3, h4⟩ := ih acc hacc
      refine ⟨h1, ?_, h3, ?_⟩
      · rcases h2 with h2 | h2
        · exact Or.inl h2
        · exact Or.inr (List.mem_cons_of_mem _ h2)
      · intro s hs
        rcases List.mem_cons.mp hs with rfl | hs'
        · rcases h3 with h3 | h3
          · rw [h3]; exact hlt
          · intro hcon
            exact hlt (JsNum.lt_trans hcon h3)
        · exact h4 s hs'

/-- The fallback loop from `minPay = Infinity`: when some key of the list has a stake
below `Infinity`, it returns a key of the list with a stake below `Infinity` that no
key of the list undercuts. -/
theorem lowestStakeSpot_spec (spotBets : SpotBets) (keys : List String)
    (hex : ∃ s ∈ keys, spotBets s < JsNum.posInf) :
    lowestStakeSpot spotBets keys ∈ keys ∧
    spotBets (lowestStakeSpot spotBets keys) < JsNum.posInf ∧
    ∀ s ∈ keys, ¬ spotBets s < spotBets (lowestStakeSpot spotBets keys) := by
  unfold lowestStakeSpot
  induction keys with
  | nil =>
    obtain ⟨s, hs, -⟩ := hex
    exact absurd hs (List.not_mem_nil _)
  | cons x xs ih =>
    rw [List.foldl_cons]
    by_cases hlt : spotBets x < JsNum.posInf
    · have hstep : lowestStakeStep spotBets (JsNum.posInf, "") x = (spotBets x, x) := by
        unfold lowestStakeStep
        dsimp only
        rw [if_pos hlt]
      rw [hstep]
      obtain ⟨h1, h2, h3, h4⟩ := lowestStake_fold spotBets xs (spotBets x, x) rfl
      have hfin : (xs.foldl (lowestStakeStep spotBets) (spotBets x, x)).1 < JsNum.posInf := by
        rcases h3 with h3 | h3
        · rw [h3]; exact hlt
        · exact JsNum.lt_posInf_of_lt h3
      refine ⟨?_, by rw [← h1]; exact hfin, ?_⟩
      · rcases h2 with h2 | h2
        · rw [h2]; exact List.mem_cons_self _ _
        · exact List.mem_cons_of_mem _ h2
      · intro s hs
        rw [← h1]
        rcases List.mem_cons.mp hs with rfl | hs'
        · rcases h3 with h3 | h3
          · rw [h3]; exact JsNum.lt_irrefl _
          · intro hcon
            exact JsNum.lt_irrefl _ (JsNum.lt_trans hcon h3)
        · exact h4 s hs'
    · have hstep : lowestStakeStep spotBets (JsNum.posInf, "") x = (JsNum.posInf, "") := by
        unfold lowestStakeStep
        dsimp only
        rw [if_neg hlt]
      rw [hstep]
      have hex' : ∃ s ∈ xs, spotBets s < JsNum.posInf := by
        obtain ⟨s, hs, hslt⟩ := hex
        rcases List.mem_cons.mp hs with rfl | hs'
        · exact absurd hslt hlt
        · exact ⟨s, hs', hslt⟩
      obtain ⟨h1, h2, h3⟩ := ih hex'
      refine ⟨List.mem_cons_of_mem _ h1, h2, ?_⟩
      intro s hs
      rcases List.mem_cons.mp hs with rfl | hs'
      · intro hcon
        exact hlt (JsNum.lt_posInf_of_lt hcon)
      · exact h3 s hs'

theorem bestSpotStep_eq (spotBets : SpotBets) (c a : ℚ) (acc : JsNum × String × JsNum)
    (spot : String) :
    bestSpotStep spotBets c a acc spot =
      if spotDiff spotBets c a spot < acc.1 then
        (spotDiff spotBets c a spot, spot, spotBets spot * 9)
      else acc := rfl

/-- The profit-control loop, once `lowestDiff` holds the distance of `bestSpot`: it
ends on a spot whose distance no spot of the list undercuts, with its liability. -/
theorem bestSpot_fold (spotBets : SpotBets) (c a : ℚ) (xs : List String)
    (acc : JsNum × String × JsNum)
    (hacc : acc.1 = spotDiff spotBets c a acc.2.1) (hpay : acc.2.2 = spotBets acc.2.1 * 9) :
    (xs.foldl (bestSpotStep spotBets c a) acc).1 =
        spotDiff spotBets c a (xs.foldl (bestSpotStep spotBets c a) acc).2.1 ∧
    (xs.foldl (bestSpotStep spotBets c a) acc).2.2 =
        spotBets (xs.foldl (bestSpotStep spotBets c a) acc).2.1 * 9 ∧
    ((xs.foldl (bestSpotStep spotBets c a) acc).2.1 = acc.2.1 ∨
      (xs.foldl (bestSpotStep spotBets c a) acc).2.1 ∈ xs) ∧
    ((xs.foldl (bestSpotStep spotBets c a) acc).1 = acc.1 ∨
      (xs.foldl (bestSpotStep spotBets c a) acc).1 < acc.1) ∧
    ∀ s ∈ xs, ¬ spotDiff spotBets c a s < (xs.foldl (bestSpotStep spotBets c a) acc).1 := by
  induction xs generalizing acc with
  | nil => exact ⟨hacc, hpay, Or.inl rfl, Or.inl rfl, by simp⟩
  | cons x xs ih =>
    rw [List.foldl_cons]
    by_cases hlt : spotDiff spotBets c a x < acc.1
    · have hstep : bestSpotStep spotBets c a acc x =
          (spotDiff spotBets c a x, x, spotBets x * 9) := by
        rw [bestSpotStep_eq, if_pos hlt]
      rw [hstep]
      obtain ⟨h1, h2, h3, h4, h5⟩ := ih (spotDiff spotBets c a x, x, spotBets x * 9) rfl rfl
      refine ⟨h1, h2, ?_, ?_, ?_⟩
      · rcases h3 with h3 | h3
        · exact Or.inr (by rw [h3]; exact List.mem_cons_self _ _)
        · exact Or.inr (List.mem_cons_of_mem _ h3)
      · rcases h4 with h4 | h4
        · exact Or.inr (by rw [h4]; exact hlt)
        · exact Or.inr (JsNum.lt_trans h4 hlt)
      · intro s hs
        rcases List.mem_cons.mp hs with rfl | hs'
        · rcases h4 with h4 | h4
          · rw [h4]; exact JsNum.lt_irrefl _
          · intro hcon
            exact JsNum.lt_irrefl _ (JsNum.lt_trans hcon h4)
        · exact h5 s hs'
    · have hstep : bestSpotStep spotBets c a acc x = acc := by
        rw [bestSpotStep_eq, if_neg hlt]
      rw [hstep]
      obtain ⟨h1, h2, h3, h4, h5⟩ := ih acc hacc hpay
      refine ⟨h1, h2, ?_, h4, ?_⟩
      · rcases h3 with h3 | h3
        · exact Or.inl h3
        · exact Or.inr (List.mem_cons_of_mem _ h3)
      · intro s hs
        rcases List.mem_cons.mp hs with rfl | hs'
        · rcases h4 with h4 | h4
          · rw [h4]; exact hlt
          · intro hcon
            exact hlt (JsNum.lt_trans hcon h4)
        · exact h5 s hs'

/-- The profit-control loop from `lowestDiff = Infinity`: when some spot of the list has
a distance below `Infinity`, it returns a spot of the list with a distance below
`Infinity` that no spot of the list undercuts, together with the liability of that spot. -/
theorem findBestSpot_spec (spotBets : SpotBets) (c a : ℚ) (spots : List String)
    (hex : ∃ s ∈ spots, spotDiff spotBets c a s < JsNum.posInf) :
    (findBestSpot spotBets c a spots).2.1 ∈ spots ∧
    spotDiff spotBets c a (findBestSpot spotBets c a spots).2.1 < JsNum.posInf ∧
    (findBestSpot spotBets c a spots).2.2 =
      spotBets (findBestSpot spotBets c a spots).2.1 * 9 ∧
    ∀ s ∈ spots, ¬ spotDiff spotBets c a s <
      spotDiff spotBets c a (findBestSpot spotBets c a spots).2.1 := by
  unfold findBestSpot
  induction spots with
  | nil =>
    obtain ⟨s, hs, -⟩ := hex
    exact absurd hs (List.not_mem_nil _)
  | cons x xs ih =>
    rw [List.foldl_cons]
    by_cases hlt : spotDiff spotBets c a x < JsNum.posInf
    · have hstep : bestSpotStep spotBets c a (JsNum.posInf, "", 0) x =
          (spotDiff spotBets c a x, x, spotBets x * 9) := by
        rw [bestSpotStep_eq]
        dsimp only
        rw [if_pos hlt]
      rw [hstep]
      obtain ⟨h1, h2, h3, h4, h5⟩ := bestSpot_fold spotBets c a xs
        (spotDiff spotBets c a x, x, spotBets x * 9) rfl rfl
      have hfin : (xs.foldl (bestSpotStep spotBets c a)
          (spotDiff spotBets c a x, x, spotBets x * 9)).1 < JsNum.posInf := by
        rcases h4 with h4 | h4
        · rw [h4]; exact hlt
        · exact JsNum.lt_posInf_of_lt h4
      refine ⟨?_, by rw [← h1]; exact hfin, h2, ?_⟩
      · rcases h3 with h3 | h3
        · rw [h3]; exact List.mem_cons_self _ _
        · exact List.mem_cons_of_mem _ h3
      · intro s hs
        rw [← h1]
        rcases List.mem_cons.mp hs with rfl | hs'
        · rcases h4 with h4 | h4
          · rw [h4]; exact JsNum.lt_irrefl _
          · intro hcon
            exact JsNum.lt_irrefl _ (JsNum.lt_trans hcon h4)
        · exact h5 s hs'
    · have hstep : bestSpotStep spotBets c a (JsNum.posInf, "", 0) x =
          (JsNum.posInf, "", 0) := by
        rw [bestSpotStep_eq]
        dsimp only
        rw [if_neg hlt]
      rw [hstep]
      have hex' : ∃ s ∈ xs, spotDiff spotBets c a s < JsNum.posInf := by
        obtain ⟨s, hs, hslt⟩ := hex
        rcases List.mem_cons.mp hs with rfl | hs'
        · exact absurd hslt hlt
        · exact ⟨s, hs', hslt⟩
      obtain ⟨h1, h2, h3, h4⟩ := ih hex'
      refine ⟨List.mem_cons_of_mem _ h1, h2, h3, ?_⟩
      intro s hs
      rcases List.mem_cons.mp hs with rfl | hs'
      · intro hcon
        exact hlt (JsNum.lt_posInf_of_lt hcon)
      · exact h4 s hs'

/-- Under a key that is none of the ten labels the distance is `NaN`. -/
theorem spotDiff_of_not_mem (spotBets : SpotBets) (c a : ℚ) {s : String}
    (h : s ∉ spotNames) : spotDiff spotBets c a s = JsNum.nan := by
  unfold spotDiff
  rw [SpotBets.get_of_not_mem spotBets h]
  rfl

/-- A distance below `Infinity` is a finite number: `Math.abs` returns no negative value. -/
theorem spotDiff_isFinite_of_lt (spotBets : SpotBets) (c a : ℚ) (s : String)
    (h : spotDiff spotBets c a s < JsNum.posInf) :
    (spotDiff spotBets c a s).isFinite = true := by
  have h' : JsNum.lt (spotDiff spotBets c a s) JsNum.posInf = true := h
  unfold spotDiff at h' ⊢
  generalize spotBets s * 9 / JsNum.fin c * 100 - JsNum.fin a = v at h' ⊢
  cases v <;> simp [JsNum.abs, JsNum.lt, JsNum.isFinite] at h' ⊢

theorem small_draw_limit_pos {c : ℚ} (h : SMALL_DRAW_LIMIT < c) : c ≠ 0 := by
  unfold SMALL_DRAW_LIMIT at h
  intro h0
  rw [h0] at h
  norm_num at h

/-- The selector returns one of the ten labels when, in the engagement branch,
`spotBets` has no key beyond the ten labels and some stake is finite, and when, in the
profit-control branch, some spot has a finite RTP distance. -/
theorem hybridBrain_mem (rng : Rand) (settings : Option GameSettings) (stats : ℚ × ℚ)
    (spotBets : SpotBets) (c : ℚ)
    (heng : c ≤ SMALL_DRAW_LIMIT →
      spotBets.extraKeys = [] ∧ ∃ s ∈ spotNames, (spotBets s).isFinite = true)
    (hprof : SMALL_DRAW_LIMIT < c →
      rng.shuffledSpots.Perm spotBets.keys ∧ ∃ s ∈ spotNames,
        (spotDiff spotBets c (allowedDrawRTP settings stats.1 stats.2) s).isFinite = true) :
    (hybridBrain rng settings stats spotBets c).1 ∈ spotNames := by
  unfold hybridBrain
  split
  · rename_i hsmall
    obtain ⟨hkeys, s0, hs0, hfin0⟩ := heng hsmall
    have hk : spotBets.keys = spotNames := SpotBets.keys_of_no_extra hkeys
    dsimp only
    unfold engagementSpot
    dsimp only
    split
    · rename_i h
      exact (winningSpots_mem.mp (getD_randomInt_mem _ rng.pick h.2)).1
    · split
      · rename_i h
        have hmem := (losingSpots_mem.mp (getD_randomInt_mem _ rng.pick h)).1
        rwa [hk] at hmem
      · rw [hk]
        exact (lowestStakeSpot_spec spotBets spotNames
          ⟨s0, hs0, JsNum.lt_posInf_of_isFinite hfin0⟩).1
  · rename_i hbig
    dsimp only
    obtain ⟨hperm, s0, hs0, hfin0⟩ := hprof (not_le.mp hbig)
    obtain ⟨-, hlt, -, -⟩ := findBestSpot_spec spotBets c
      (allowedDrawRTP settings stats.1 stats.2) rng.shuffledSpots
      ⟨s0, hperm.symm.subset (SpotBets.mem_keys_of_mem hs0),
        JsNum.lt_posInf_of_isFinite hfin0⟩
    by_contra hnot
    rw [spotDiff_of_not_mem spotBets c _ hnot] at hlt
    exact JsNum.nan_not_lt _ hlt

/-! ## Keys the aggregation loop adds -/

theorem addBet_extraKeys (spotBets : SpotBets) (entry : String × ℚ)
    (h : entry.1 ∉ inheritedMethods) : (addBet spotBets entry).extraKeys = spotBets.extraKeys := by
  unfold addBet
  split
  · rfl
  · split
    · rename_i h2
      exact absurd h2.1 h
    · rfl

theorem foldl_addBet_extraKeys (bd : BetDetails) (spotBets : SpotBets)
    (h : ∀ entry ∈ bd, entry.1 ∉ inheritedMethods) :
    (bd.foldl addBet spotBets).extraKeys = spotBets.extraKeys := by
  induction bd generalizing spotBets with
  | nil => rfl
  | cons e es ih =>
    rw [List.foldl_cons, ih _ (fun x hx => h x (List.mem_cons_of_mem _ hx)),
      addBet_extraKeys _ _ (h e (List.mem_cons_self _ _))]

/-- When no wager names an inherited method, the aggregation adds no key to `spotBets`. -/
theorem calculateBets_extraKeys (tickets : List Ticket) (acc r : SpotBets × ℚ)
    (h : ∀ t ∈ tickets, ∀ bd ∈ t.bet_details, ∀ entry ∈ bd, entry.1 ∉ inheritedMethods)
    (hc : calculateBets tickets acc = some r) : r.1.extraKeys = acc.1.extraKeys := by
  induction tickets generalizing acc with
  | nil =>
    simp only [calculateBets, Option.some.injEq] at hc
    rw [← hc]
  | cons t ts ih =>
    unfold calculateBets at hc
    cases hb : t.bet_details with
    | none => simp [hb] at hc
    | some bd =>
      simp only [hb] at hc
      rw [ih _ (fun t' ht' => h t' (List.mem_cons_of_mem _ ht')) hc]
      exact foldl_addBet_extraKeys bd acc.1
        (h t (List.mem_cons_self _ _) bd (by rw [hb]; rfl))

/-! ## The winning spot a settlement writes -/

theorem declareWinner_settles (rng : Rand) (now e : Int) (st tx : State) (id : Nat)
    (hf : findOrCreateDraw e st = some (id, tx))
    (hne : ticketsOfDraw st.tickets id ≠ [])
    (hparse : ∀ t ∈ ticketsOfDraw st.tickets id, t.bet_details ≠ none) :
    ∃ st', declareWinner rng now e st = (Outcome.finalized, st') := by
  obtain ⟨-, htickets, -, -⟩ := findOrCreateDraw_some hf
  cases hsd : settleDraw rng now id tx with
  | none =>
    obtain ⟨t, ht, hb⟩ := (settleDraw_eq_none rng now id tx).mp hsd
    rw [htickets] at ht
    exact absurd hb (hparse t ht)
  | some r =>
    obtain ⟨o, st'⟩ := r
    rcases settleDraw_some hsd with ⟨hnil, -, -⟩ | ⟨-, ho, -⟩
    · rw [htickets] at hnil
      exact absurd hnil hne
    · exact ⟨st', by simp [declareWinner, hf, hsd, ho]⟩

/-- C7 (as stated, refuted): the round of `hugeSale` holds one ticket of 1000 with
quantity 1e308 on every spot; each stake `qty * 10` overflows to `Infinity`, in
profit-control mode every distance is `Infinity`, no spot passes `diff < lowestDiff`,
and `declareWinner` finalises the round with the empty string as winning spot. The
round of `constructorSale` holds one ticket whose only wager key is `constructor`; the
loop stores a text under that key, the key joins the losing spots, and with the loss
branch and index 10 `declareWinner` writes `constructor` as winning spot. -/
theorem declareWinner_writes_no_label :
    hugeSale.tickets.map (fun t => (t.total_amount, t.bet_details)) =
      [(1000, some hugeSlip.betDetails)] ∧
    (calculateBets (ticketsOfDraw hugeSale.tickets 1) initialBets).map
      (fun r => (spotNames.map (fun s => r.1 s), r.1.keys, r.2)) =
      some ([JsNum.posInf, JsNum.posInf, JsNum.posInf, JsNum.posInf, JsNum.posInf,
             JsNum.posInf, JsNum.posInf, JsNum.posInf, JsNum.posInf, JsNum.posInf],
            spotNames, 1000) ∧
    (declareWinner luckyRand 605 600 hugeSale).1 = Outcome.finalized ∧
    roundOf (declareWinner luckyRand 605 600 hugeSale).2 600 =
      some { draw_id := 1, end_time := 600, winning_spot := "", total_collection := 1000,
             total_payout := 0, is_processed := true } ∧
    constructorSale.tickets.map (fun t => (t.total_amount, t.bet_details)) =
      [(10, some [("constructor", 1)])] ∧
    (calculateBets (ticketsOfDraw constructorSale.tickets 1) initialBets).map
      (fun r => (losingSpots r.1, r.2)) =
      some (spotNames ++ ["constructor"], 10) ∧
    (declareWinner unluckyRandEleventh 605 600 constructorSale).1 = Outcome.finalized ∧
    (roundOf (declareWinner unluckyRandEleventh 605 600 constructorSale).2 600).map
      (fun d => (d.winning_spot, d.is_processed)) = some ("constructor", true) ∧
    "" ∉ spotNames ∧ "constructor" ∉ spotNames := by
  refine ⟨?_, ?_, ?_, ?_, ?_, ?_, ?_, ?_, ?_⟩ <;> decide!

/-- C7 (amended): whenever `declareWinner` meets a round with at least one ticket (all
of them parsable), whatever the settings row, the daily statistics and the random
draws, provided that in engagement mode `spotBets` has no key beyond the ten labels (no
wager key names an inherited method of `Object.prototype`) and at least one of the ten
aggregate stakes is a finite number, and that in profit-control mode (where the shuffle
is an order of the keys of `spotBets`) at least one of the ten RTP distances is a finite
number, it settles the round and the winning spot it writes is one of the ten labels,
never the empty string and never 'PENDING'; under the same conditions on `spotBets` the
selector returns one of the ten labels in the engagement branch and in the
profit-control branch alike; and `spotBets` has no key beyond the ten labels whenever no
wager key of the round names an inherited method. -/
theorem declareWinner_winning_spot_is_label (rng : Rand) (now e : Int) (st tx : State) (id : Nat)
    (hf : findOrCreateDraw e st = some (id, tx))
    (hne : ticketsOfDraw st.tickets id ≠ [])
    (hparse : ∀ t ∈ ticketsOfDraw st.tickets id, t.bet_details ≠ none)
    (hsel : ∀ r ∈ calculateBets (ticketsOfDraw st.tickets id) initialBets,
      (r.2 ≤ SMALL_DRAW_LIMIT →
        r.1.extraKeys = [] ∧ ∃ s ∈ spotNames, (r.1 s).isFinite = true) ∧
      (SMALL_DRAW_LIMIT < r.2 →
        rng.shuffledSpots.Perm r.1.keys ∧ ∃ s ∈ spotNames,
          (spotDiff r.1 r.2
            (allowedDrawRTP st.game_settings (dailyStats tx now).1 (dailyStats tx now).2)
            s).isFinite = true)) :
    (∃ st' d, declareWinner rng now e st = (Outcome.finalized, st') ∧ roundOf st' e = some d ∧
      d.winning_spot ∈ spotNames ∧ d.winning_spot ≠ "" ∧ d.winning_spot ≠ "PENDING") ∧
    (∀ (settings : Option GameSettings) (stats : ℚ × ℚ) (spotBets : SpotBets) (c : ℚ),
      (c ≤ SMALL_DRAW_LIMIT →
        spotBets.extraKeys = [] ∧ ∃ s ∈ spotNames, (spotBets s).isFinite = true) →
      (SMALL_DRAW_LIMIT < c →
        rng.shuffledSpots.Perm spotBets.keys ∧ ∃ s ∈ spotNames,
          (spotDiff spotBets c (allowedDrawRTP settings stats.1 stats.2) s).isFinite = true) →
      (hybridBrain rng settings stats spotBets c).1 ∈ spotNames) ∧
    ((∀ t ∈ ticketsOfDraw st.tickets id, ∀ bd ∈ t.bet_details, ∀ entry ∈ bd,
        entry.1 ∉ inheritedMethods) →
      ∀ r ∈ calculateBets (ticketsOfDraw st.tickets id) initialBets, r.1.extraKeys = []) := by
  refine ⟨?_, fun settings stats spotBets c he hp =>
    hybridBrain_mem rng settings stats spotBets c he hp,
    fun hk r hr => calculateBets_extraKeys _ initialBets r hk hr⟩
  obtain ⟨st', h⟩ := declareWinner_settles rng now e st tx id hf hne hparse
  obtain ⟨id', tx', sb, c, hf', -, hc, -, -, hround⟩ := declareWinner_finalized h
  rw [hf] at hf'
  simp only [Option.some.injEq, Prod.mk.injEq] at hf'
  obtain ⟨hid, htx⟩ := hf'
  subst hid htx
  have hsel' := hsel (sb, c) (by rw [hc]; rfl)
  have hmem := hybridBrain_mem rng st.game_settings (dailyStats tx now) sb c hsel'.1 hsel'.2
  refine ⟨st', _, h, hround, hmem, ?_, ?_⟩
  · intro hw
    dsimp only at hw
    rw [hw] at hmem
    simp [spotNames] at hmem
  · intro hw
    dsimp only at hw
    rw [hw] at hmem
    simp [spotNames] at hmem

/-- C7 (amended), at a concrete round in profit-control mode: the round of `bigSale`
(collection 1000, stakes 900 on A0 and 100 on B1) is settled with one of the ten labels. -/
theorem declareWinner_winning_spot_is_label_witness :
    ∃ st' d, declareWinner luckyRand 605 600 bigSale = (Outcome.finalized, st') ∧
      roundOf st' 600 = some d ∧
      d.winning_spot ∈ spotNames ∧ d.winning_spot ≠ "" ∧ d.winning_spot ≠ "PENDING" :=
  (declareWinner_winning_spot_is_label luckyRand 605 600 bigSale bigSale 1
    (by decide!) (by decide!) (by decide!) (by decide!)).1

/-- C8: for a round without tickets, found unprocessed or created by the settlement
itself, `declareWinner` finalises the round with a winning spot among the ten labels,
`total_collection = 0`, `total_payout = 0` and `is_processed = 1`, and leaves every
account and every ticket as it was. -/
theorem declareWinner_empty_round (rng : Rand) (now e : Int) (st tx : State) (id : Nat)
    (hf : findOrCreateDraw e st = some (id, tx))
    (hnil : ticketsOfDraw st.tickets id = []) :
    ∃ st' d, declareWinner rng now e st = (Outcome.finalizedEmpty, st') ∧
      roundOf st' e = some d ∧ d.winning_spot ∈ spotNames ∧
      d.total_collection = 0 ∧ d.total_payout = 0 ∧ d.is_processed = true ∧
      st'.users = st.users ∧ st'.tickets = st.tickets := by
  obtain ⟨-, htickets, -, -⟩ := findOrCreateDraw_some hf
  have hsd := settleDraw_empty rng now id tx (by rw [htickets]; exact hnil)
  have h : declareWinner rng now e st = (Outcome.finalizedEmpty,
      { tx with draws := (finalizeDraw tx.draws id
        (spotNames.getD (randomInt 0 spotNames.length rng.emptyDraw) "") 0 0) }) := by
    simp [declareWinner, hf, hsd]
  obtain ⟨id', tx', -, -, husers, htk, hround⟩ := declareWinner_finalizedEmpty h
  exact ⟨_, _, h, hround, getD_randomInt_mem spotNames rng.emptyDraw (by simp [spotNames]),
    rfl, rfl, rfl, husers, htk⟩

/-- C8, at a concrete state: `shop` has no row for the round closing at second 600; the
settlement creates the row and finalises it empty. -/
theorem declareWinner_empty_round_witness :
    ∃ st' d, declareWinner luckyRand 605 600 shop = (Outcome.finalizedEmpty, st') ∧
      roundOf st' 600 = some d ∧ d.winning_spot ∈ spotNames ∧
      d.total_collection = 0 ∧ d.total_payout = 0 ∧ d.is_processed = true ∧
      st'.users = shop.users ∧ st'.tickets = shop.tickets :=
  declareWinner_empty_round luckyRand 605 600 shop
    { shop with draws := [pendingDraw 1 600] } 1 (by decide!) (by decide!)

/-! ## The engagement branch -/

/-- C9: in the engagement branch (collection <= 200), when the luck roll is below 60
and some spot has a positive aggregate stake, the winning spot is one of the ten spots
and has a positive stake; when no spot other than A0 has a positive stake it is A0. -/
theorem engagement_win_branch (rng : Rand) (settings : Option GameSettings) (stats : ℚ × ℚ)
    (spotBets : SpotBets) (drawCollection : ℚ)
    (hsmall : drawCollection ≤ SMALL_DRAW_LIMIT)
    (hluck : randomInt 0 100 rng.luck < WIN_RATIO)
    (hstake : ∃ s ∈ spotNames, 0 < spotBets s) :
    (hybridBrain rng settings stats spotBets drawCollection).1 ∈ spotNames ∧
    0 < spotBets (hybridBrain rng settings stats spotBets drawCollection).1 ∧
    ((∀ s ∈ spotNames, s ≠ "A0" → ¬ 0 < spotBets s) →
      (hybridBrain rng settings stats spotBets drawCollection).1 = "A0") := by
  obtain ⟨s, hs, hpos⟩ := hstake
  have hlen : (winningSpots spotBets).length > 0 :=
    List.length_pos_of_mem (winningSpots_mem.mpr ⟨hs, hpos⟩)
  have hw : (hybridBrain rng settings stats spotBets drawCollection).1 =
      (winningSpots spotBets).getD (randomInt 0 (winningSpots spotBets).length rng.pick) "" := by
    simp [hybridBrain, hsmall, engagementSpot, hluck, hlen]
  have hmem := winningSpots_mem.mp (getD_randomInt_mem (winningSpots spotBets) rng.pick hlen)
  rw [← hw] at hmem
  refine ⟨hmem.1, hmem.2, ?_⟩
  intro honly
  by_contra hne
  exact honly _ hmem.1 hne hmem.2

/-- C9, at the small-round scenario: collection 150, stake only on A0, luck roll 0: the
winning spot is A0. -/
theorem engagement_win_branch_witness :
    (hybridBrain luckyRand none (0, 0) stakeOnA0 150).1 = "A0" :=
  (engagement_win_branch luckyRand none (0, 0) stakeOnA0 150 (by decide!) (by decide!)
    (by decide!)).2.2 (by decide!)

/-- C10 (the code at the failing input): the round holds one ticket with quantity -1
on B1, so the aggregate stake is -10 on B1 and 0 on the nine other spots; the luck roll
99 takes the loss branch, the losing spots are all ten spots (the test is
`spotBets[spot] > 0`, not `spotBets[spot] === 0`), index 1 of them is B1, and
`declareWinner` writes winning spot B1, a spot the player did bet on, with
`total_payout = -90`: neither a zero-stake spot nor a payout of 0. -/
theorem engagement_loss_branch_picks_negative_stake :
    (calculateBets (ticketsOfDraw shortSaleB1.tickets 1) initialBets).map
      (fun r => (spotNames.map (fun s => r.1 s), losingSpots r.1, r.2)) =
      some ([0, -10, 0, 0, 0, 0, 0, 0, 0, 0], spotNames, 10) ∧
    ¬ randomInt 0 100 unluckyRandSecond.luck < WIN_RATIO ∧
    roundOf (declareWinner unluckyRandSecond 605 600 shortSaleB1).2 600 =
      some { draw_id := 1, end_time := 600, winning_spot := "B1", total_collection := 10,
             total_payout := -90, is_processed := true } := by
  refine ⟨?_, ?_, ?_⟩ <;> decide!

/-- C11 (as stated, refuted): the ticket of `toStringSlip` stakes 10 on each of the ten
spots and carries a wager under the key `toString`; the loop stores a text under that
key, which is the only losing spot, so with the loss branch taken the selector returns
`toString`, not a spot of minimum liability, and a payout that is not a number. With
quantity 1e308 on every spot (`hugeSmallSlip`) each stake is `Infinity`, no stake passes
`spotBets[spot] < minPay` and the selector returns the empty string. -/
theorem engagement_loss_branch_draws_added_key :
    (calculateBets [ticketOfSlip toStringSlip] initialBets).map
      (fun r => (spotNames.map (fun s => r.1 s), r.1.keys, r.2, losingSpots r.1,
        hybridBrain unluckyRand none (0, 0) r.1 r.2)) =
      some ([10, 10, 10, 10, 10, 10, 10, 10, 10, 10], spotNames ++ ["toString"], 100,
        ["toString"], ("toString", JsNum.nan)) ∧
    ¬ randomInt 0 100 unluckyRand.luck < WIN_RATIO ∧
    (calculateBets [ticketOfSlip hugeSmallSlip] initialBets).map
      (fun r => (spotNames.map (fun s => r.1 s), r.1.keys, r.2, losingSpots r.1,
        hybridBrain unluckyRand none (0, 0) r.1 r.2)) =
      some ([JsNum.posInf, JsNum.posInf, JsNum.posInf, JsNum.posInf, JsNum.posInf,
             JsNum.posInf, JsNum.posInf, JsNum.posInf, JsNum.posInf, JsNum.posInf],
        spotNames, 100, [], ("", JsNum.nan)) ∧
    "toString" ∉ spotNames ∧ "" ∉ spotNames := by
  refine ⟨?_, ?_, ?_, ?_⟩ <;> decide!

/-- C11 (amended): in the engagement branch, when the loss branch is taken, `spotBets`
has no key beyond the ten labels and every one of the ten spots has a positive
aggregate stake, at least one of them finite, the winning spot is one of the ten spots,
its liability (stake x 9) is <= the liability of each of the ten spots, and the chosen
payout is that liability. -/
theorem engagement_loss_branch_all_covered (rng : Rand) (settings : Option GameSettings)
    (stats : ℚ × ℚ) (spotBets : SpotBets) (drawCollection : ℚ)
    (hsmall : drawCollection ≤ SMALL_DRAW_LIMIT)
    (hloss : ¬ randomInt 0 100 rng.luck < WIN_RATIO ∨ ¬ ∃ s ∈ spotNames, 0 < spotBets s)
    (hall : ∀ s ∈ spotNames, 0 < spotBets s)
    (hkeys : spotBets.extraKeys = [])
    (hfin : ∃ s ∈ spotNames, (spotBets s).isFinite = true) :
    (hybridBrain rng settings stats spotBets drawCollection).1 ∈ spotNames ∧
    (∀ s ∈ spotNames,
      spotBets (hybridBrain rng settings stats spotBets drawCollection).1 * 9 ≤ spotBets s * 9) ∧
    (hybridBrain rng settings stats spotBets drawCollection).2 =
      spotBets (hybridBrain rng settings stats spotBets drawCollection).1 * 9 := by
  have hk : spotBets.keys = spotNames := SpotBets.keys_of_no_extra hkeys
  have hluck : ¬ randomInt 0 100 rng.luck < WIN_RATIO := by
    rcases hloss with h | h
    · exact h
    · exact absurd ⟨"A0", by simp [spotNames], hall "A0" (by simp [spotNames])⟩ h
  have hlosing : ¬ (losingSpots spotBets).length > 0 := by
    intro hpos
    obtain ⟨s, hs⟩ := List.exists_mem_of_length_pos hpos
    have hmem := losingSpots_mem.mp hs
    rw [hk] at hmem
    exact hmem.2 (hall s hmem.1)
  have hw : (hybridBrain rng settings stats spotBets drawCollection).1 =
      lowestStakeSpot spotBets spotNames := by
    simp only [hybridBrain, hsmall, if_true, engagementSpot, hluck, false_and, if_false,
      hlosing, hk]
  have hp : (hybridBrain rng settings stats spotBets drawCollection).2 =
      spotBets (hybridBrain rng settings stats spotBets drawCollection).1 * 9 := by
    simp only [hybridBrain, hsmall, if_true]
  obtain ⟨s0, hs0, hfin0⟩ := hfin
  obtain ⟨hmem, -, hmin⟩ := lowestStakeSpot_spec spotBets spotNames
    ⟨s0, hs0, JsNum.lt_posInf_of_isFinite hfin0⟩
  rw [← hw] at hmem hmin
  refine ⟨hmem, ?_, hp⟩
  intro s hs
  exact JsNum.mul_nine_le_of_pos (hall _ hmem) (hall s hs)
    (JsNum.le_of_not_lt_of_pos (hall _ hmem) (hall s hs) (hmin s hs))

/-- C11 (amended), at a concrete round: stake 10 on C2 and 20 on each other spot, luck
roll 99: the winning spot is C2 and the payout is 90. -/
theorem engagement_loss_branch_all_covered_witness :
    hybridBrain unluckyRand none (0, 0) stakeEverywhere 190 = ("C2", 90) ∧
    (hybridBrain unluckyRand none (0, 0) stakeEverywhere 190).1 ∈ spotNames ∧
    (∀ s ∈ spotNames,
      stakeEverywhere (hybridBrain unluckyRand none (0, 0) stakeEverywhere 190).1 * 9 ≤
        stakeEverywhere s * 9) ∧
    (hybridBrain unluckyRand none (0, 0) stakeEverywhere 190).2 =
      stakeEverywhere (hybridBrain unluckyRand none (0, 0) stakeEverywhere 190).1 * 9 :=
  ⟨by decide!,
   engagement_loss_branch_all_covered unluckyRand none (0, 0) stakeEverywhere 190 (by decide!)
    (Or.inl (by decide!)) (by decide!) (by decide!) (by decide!)⟩

/-! ## The profit-control branch -/

/-- The values `TARGET_RTP`, `MIN_DRAW_RTP` and `MAX_DRAW_RTP` against the settings
row: a stored value other than 0 is used as it is, a stored 0 and a missing row give
the defaults 90, 80 and 100. -/
theorem effective_settings (settings : Option GameSettings) :
    (∀ row : GameSettings, settings = some row →
      (row.target_percent ≠ 0 → targetRTP settings = row.target_percent) ∧
      (row.profit_min ≠ 0 → minDrawRTP settings = row.profit_min) ∧
      (row.profit_max ≠ 0 → maxDrawRTP settings = row.profit_max) ∧
      (row.target_percent = 0 → targetRTP settings = 90) ∧
      (row.profit_min = 0 → minDrawRTP settings = 80) ∧
      (row.profit_max = 0 → maxDrawRTP settings = 100)) ∧
    (settings = none →
      targetRTP settings = 90 ∧ minDrawRTP settings = 80 ∧ maxDrawRTP settings = 100) := by
  refine ⟨?_, ?_⟩
  · intro row hrow
    subst hrow
    refine ⟨?_, ?_, ?_, ?_, ?_, ?_⟩ <;> intro h <;>
      simp [targetRTP, minDrawRTP, maxDrawRTP, orDefault, h]
  · intro hnone
    subst hnone
    simp [targetRTP, minDrawRTP, maxDrawRTP, orDefault]

/-- C12 (as stated, refuted): the settings row `zeroMinimumRow` (target 40, minimum 0,
maximum 50) has minimum <= maximum, and on a day without sales the clamp of the claim
gives 40; the code reads the stored minimum 0 as the default 80 and allows 80, which is
outside the interval from 0 to 50. -/
theorem allowedDrawRTP_zero_minimum_row :
    zeroMinimumRow.profit_min ≤ zeroMinimumRow.profit_max ∧
    specClamp
      (zeroMinimumRow.target_percent +
        (zeroMinimumRow.target_percent - currentRTP (some zeroMinimumRow) 0 0) * (3 / 10))
      zeroMinimumRow.profit_min zeroMinimumRow.profit_max = 40 ∧
    minDrawRTP (some zeroMinimumRow) = 80 ∧
    allowedDrawRTP (some zeroMinimumRow) 0 0 = 80 ∧
    ¬ allowedDrawRTP (some zeroMinimumRow) 0 0 ≤ zeroMinimumRow.profit_max := by
  decide!

/-- C12 (amended): in the profit-control branch, with `target`, `minimum` and `maximum`
read as the code reads them (`TARGET_RTP`, `MIN_DRAW_RTP`, `MAX_DRAW_RTP`: the stored
value when it is not 0, and 90, 80, 100 for a stored 0 or a missing row), whenever
minimum <= maximum the allowed draw RTP equals
clamp(target + (target - currentRTP) x 0.3, minimum, maximum) and lies in the closed
interval from minimum to maximum, for every settings row, daily sales and daily payout. -/
theorem allowedDrawRTP_is_clamp (settings : Option GameSettings) (daySales dayPayout : ℚ)
    (hminmax : minDrawRTP settings ≤ maxDrawRTP settings) :
    allowedDrawRTP settings daySales dayPayout =
      specClamp
        (targetRTP settings +
          (targetRTP settings - currentRTP settings daySales dayPayout) * (3 / 10))
        (minDrawRTP settings) (maxDrawRTP settings) ∧
    minDrawRTP settings ≤ allowedDrawRTP settings daySales dayPayout ∧
    allowedDrawRTP settings daySales dayPayout ≤ maxDrawRTP settings ∧
    (∀ row : GameSettings, settings = some row →
      (row.target_percent ≠ 0 → targetRTP settings = row.target_percent) ∧
      (row.profit_min ≠ 0 → minDrawRTP settings = row.profit_min) ∧
      (row.profit_max ≠ 0 → maxDrawRTP settings = row.profit_max) ∧
      (row.target_percent = 0 → targetRTP settings = 90) ∧
      (row.profit_min = 0 → minDrawRTP settings = 80) ∧
      (row.profit_max = 0 → maxDrawRTP settings = 100)) ∧
    (settings = none →
      targetRTP settings = 90 ∧ minDrawRTP settings = 80 ∧ maxDrawRTP settings = 100) := by
  refine ⟨?_, ?_, ?_, (effective_settings settings).1, (effective_settings settings).2⟩
  · unfold allowedDrawRTP specClamp CONTROL_FACTOR
    dsimp only
    split
    · rename_i hlt
      rw [min_eq_left (le_trans (le_of_lt hlt) hminmax), max_eq_left (le_of_lt hlt)]
    · rename_i hge
      split
      · rename_i hgt
        rw [min_eq_right (le_of_lt hgt), max_eq_right hminmax]
      · rename_i hle
        rw [min_eq_left (not_lt.mp hle), max_eq_right (not_lt.mp hge)]
  · unfold allowedDrawRTP
    exact le_max_left _ _
  · unfold allowedDrawRTP
    exact max_le hminmax (min_le_right _ _)

/-- C12 (amended), at a concrete day: stored settings (90, 80, 100), daily sales 1000 and
daily payout 2000, so the current RTP is 200 and the raw value 57 is clamped to 80. -/
theorem allowedDrawRTP_is_clamp_witness :
    allowedDrawRTP richShop.game_settings 1000 2000 = 80 ∧
    allowedDrawRTP richShop.game_settings 1000 2000 =
      specClamp (targetRTP richShop.game_settings +
          (targetRTP richShop.game_settings - currentRTP richShop.game_settings 1000 2000) *
            (3 / 10))
        (minDrawRTP richShop.game_settings) (maxDrawRTP richShop.game_settings) ∧
    minDrawRTP richShop.game_settings ≤ allowedDrawRTP richShop.game_settings 1000 2000 ∧
    allowedDrawRTP richShop.game_settings 1000 2000 ≤ maxDrawRTP richShop.game_settings ∧
    minDrawRTP richShop.game_settings = 80 ∧ maxDrawRTP richShop.game_settings = 100 :=
  ⟨by decide!,
   (allowedDrawRTP_is_clamp richShop.game_settings 1000 2000 (by decide!)).1,
   (allowedDrawRTP_is_clamp richShop.game_settings 1000 2000 (by decide!)).2.1,
   (allowedDrawRTP_is_clamp richShop.game_settings 1000 2000 (by decide!)).2.2.1,
   by decide!, by decide!⟩

/-- C13 (as stated, refuted): with quantity 1e308 on every spot and collection 1000
(the ticket of `hugeSlip`) every stake, every liability and every distance is
`Infinity`; in profit-control mode no spot passes `diff < lowestDiff`, so the selector
returns the empty string and the payout 0: the winner is none of the ten spots and the
payout is the liability of no spot. -/
theorem profit_control_picks_no_spot :
    (calculateBets [ticketOfSlip hugeSlip] initialBets).map
      (fun r => (spotNames.map (fun s => r.1 s), r.1.keys, r.2,
        spotNames.map (fun s => spotDiff r.1 r.2 (allowedDrawRTP richShop.game_settings 0 0) s),
        hybridBrain reversedRand richShop.game_settings (0, 0) r.1 r.2)) =
      some ([JsNum.posInf, JsNum.posInf, JsNum.posInf, JsNum.posInf, JsNum.posInf,
             JsNum.posInf, JsNum.posInf, JsNum.posInf, JsNum.posInf, JsNum.posInf],
        spotNames, 1000,
        [JsNum.posInf, JsNum.posInf, JsNum.posInf, JsNum.posInf, JsNum.posInf,
         JsNum.posInf, JsNum.posInf, JsNum.posInf, JsNum.posInf, JsNum.posInf],
        ("", 0)) ∧
    SMALL_DRAW_LIMIT < 1000 ∧ reversedRand.shuffledSpots = spotNames.reverse ∧
    "" ∉ spotNames := by
  refine ⟨?_, ?_, ?_, ?_⟩ <;> decide!

/-- C13 (amended): in the profit-control branch (collection > 200), for every order of
the keys of `spotBets`, when at least one of the ten spots has a finite distance
`|liability / collection x 100 - allowedDrawRTP|`, the winning spot is one of the ten
spots, its distance is finite, no spot has a strictly smaller distance (among the spots
of finite distance the winner's exact distance is the least), and the chosen payout is
the liability of the winning spot; with daily sales 0 and a target inside the allowed
interval (target 90 with the interval 80 to 100) the allowed RTP is the target. -/
theorem profit_control_picks_closest (rng : Rand) (settings : Option GameSettings)
    (stats : ℚ × ℚ) (spotBets : SpotBets) (drawCollection : ℚ)
    (hbig : SMALL_DRAW_LIMIT < drawCollection)
    (hperm : rng.shuffledSpots.Perm spotBets.keys)
    (hfin : ∃ s ∈ spotNames,
      (spotDiff spotBets drawCollection (allowedDrawRTP settings stats.1 stats.2)
        s).isFinite = true) :
    (hybridBrain rng settings stats spotBets drawCollection).1 ∈ spotNames ∧
    spotDiff spotBets drawCollection (allowedDrawRTP settings stats.1 stats.2)
        (hybridBrain rng settings stats spotBets drawCollection).1 =
      JsNum.fin (spotDistance spotBets.finiteStake drawCollection
        (allowedDrawRTP settings stats.1 stats.2)
        (hybridBrain rng settings stats spotBets drawCollection).1) ∧
    (∀ s ∈ spotNames,
      ¬ spotDiff spotBets drawCollection (allowedDrawRTP settings stats.1 stats.2) s <
        spotDiff spotBets drawCollection (allowedDrawRTP settings stats.1 stats.2)
          (hybridBrain rng settings stats spotBets drawCollection).1) ∧
    (∀ s ∈ spotNames,
      (spotDiff spotBets drawCollection (allowedDrawRTP settings stats.1 stats.2)
        s).isFinite = true →
      spotDistance spotBets.finiteStake drawCollection (allowedDrawRTP settings stats.1 stats.2)
          (hybridBrain rng settings stats spotBets drawCollection).1 ≤
        spotDistance spotBets.finiteStake drawCollection
          (allowedDrawRTP settings stats.1 stats.2) s) ∧
    (hybridBrain rng settings stats spotBets drawCollection).2 =
      spotBets (hybridBrain rng settings stats spotBets drawCollection).1 * 9 ∧
    (stats.1 = 0 → minDrawRTP settings ≤ targetRTP settings →
      targetRTP settings ≤ maxDrawRTP settings →
      allowedDrawRTP settings stats.1 stats.2 = targetRTP settings) := by
  have hnot : ¬ drawCollection ≤ SMALL_DRAW_LIMIT := not_le.mpr hbig
  have hc : drawCollection ≠ 0 := small_draw_limit_pos hbig
  have hw : hybridBrain rng settings stats spotBets drawCollection =
      ((findBestSpot spotBets drawCollection (allowedDrawRTP settings stats.1 stats.2)
          rng.shuffledSpots).2.1,
       (findBestSpot spotBets drawCollection (allowedDrawRTP settings stats.1 stats.2)
          rng.shuffledSpots).2.2) := by
    simp only [hybridBrain, hnot, if_false]
  have hexact : ∀ s,
      (spotDiff spotBets drawCollection (allowedDrawRTP settings stats.1 stats.2)
        s).isFinite = true →
      spotDiff spotBets drawCollection (allowedDrawRTP settings stats.1 stats.2) s =
        JsNum.fin (spotDistance spotBets.finiteStake drawCollection
          (allowedDrawRTP settings stats.1 stats.2) s) := by
    intro s hs
    obtain ⟨q, hq, -, hd⟩ := spotDiff_of_isFinite hc hs
    have hsq : spotBets.finiteStake s = q := by
      unfold SpotBets.finiteStake
      rw [hq]
      rfl
    rw [hd]
    unfold spotDistance
    rw [hsq]
  obtain ⟨s0, hs0, hfin0⟩ := hfin
  obtain ⟨hmem, hlt, hpay, hmin⟩ := findBestSpot_spec spotBets drawCollection
    (allowedDrawRTP settings stats.1 stats.2) rng.shuffledSpots
    ⟨s0, hperm.symm.subset (SpotBets.mem_keys_of_mem hs0),
      JsNum.lt_posInf_of_isFinite hfin0⟩
  have hwfin := spotDiff_isFinite_of_lt spotBets drawCollection _ _ hlt
  have hlabel : (findBestSpot spotBets drawCollection (allowedDrawRTP settings stats.1 stats.2)
      rng.shuffledSpots).2.1 ∈ spotNames := by
    by_contra hno
    rw [spotDiff_of_not_mem spotBets drawCollection _ hno] at hlt
    exact JsNum.nan_not_lt _ hlt
  rw [hw]
  dsimp only
  refine ⟨hlabel, hexact _ hwfin, ?_, ?_, hpay, ?_⟩
  · intro s hs
    exact hmin s (hperm.symm.subset (SpotBets.mem_keys_of_mem hs))
  · intro s hs hsfin
    have hno := hmin s (hperm.symm.subset (SpotBets.mem_keys_of_mem hs))
    rw [hexact s hsfin, hexact _ hwfin] at hno
    exact not_lt.mp (fun h => hno (JsNum.fin_lt_fin.mpr h))
  · intro hsales hlo hhi
    unfold allowedDrawRTP currentRTP
    simp only [hsales, gt_iff_lt, lt_self_iff_false, if_false, sub_self, zero_mul, add_zero]
    rw [min_eq_left hhi, max_eq_right hlo]

/-- C13 (amended), at the large-round scenario: collection 1000, settings (90, 80, 100),
daily sales 0, stakes 900 on A0 and 100 on B1, the spots iterated in reverse order: the
allowed RTP is 90 and the winning spot is B1, whose liability 900 gives exactly 90. -/
theorem profit_control_picks_closest_witness :
    (hybridBrain reversedRand richShop.game_settings (0, 0) stakeBigRound 1000) = ("B1", 900) ∧
    allowedDrawRTP richShop.game_settings 0 0 = 90 ∧
    spotDistance stakeBigRound.finiteStake 1000 90 "B1" = 0 ∧
    (hybridBrain reversedRand richShop.game_settings (0, 0) stakeBigRound 1000).1 ∈ spotNames ∧
    (∀ s ∈ spotNames,
      ¬ spotDiff stakeBigRound 1000 (allowedDrawRTP richShop.game_settings 0 0) s <
        spotDiff stakeBigRound 1000 (allowedDrawRTP richShop.game_settings 0 0)
          (hybridBrain reversedRand richShop.game_settings (0, 0) stakeBigRound 1000).1) ∧
    (hybridBrain reversedRand richShop.game_settings (0, 0) stakeBigRound 1000).2 =
      stakeBigRound (hybridBrain reversedRand richShop.game_settings (0, 0) stakeBigRound 1000).1 *
        9 :=
  ⟨by decide!, by decide!, by decide!,
   (profit_control_picks_closest reversedRand richShop.game_settings (0, 0) stakeBigRound 1000
    (by decide!) (List.reverse_perm _) ⟨"A0", by decide!, by decide!⟩).1,
   (profit_control_picks_closest reversedRand richShop.game_settings (0, 0) stakeBigRound 1000
    (by decide!) (List.reverse_perm _) ⟨"A0", by decide!, by decide!⟩).2.2.1,
   (profit_control_picks_closest reversedRand richShop.game_settings (0, 0) stakeBigRound 1000
    (by decide!) (List.reverse_perm _) ⟨"A0", by decide!, by decide!⟩).2.2.2.2.1⟩

/-! ## The submit-ticket handler, path by path -/

theorem submitTicket_closed (currentHour : Nat) (now : Int) (username : String)
    (ticketData : TicketData) (st : State) (hclosed : isShopOpen currentHour = false) :
    submitTicket currentHour now username ticketData st = (SubmitResult.shopClosed, st) := by
  simp [submitTicket, hclosed]

theorem submitTicket_noUser (currentHour : Nat) (now : Int) (username : String)
    (ticketData : TicketData) (st : State) (hopen : isShopOpen currentHour = true)
    (huser : usersNamed st.users username = []) :
    submitTicket currentHour now username ticketData st =
      (SubmitResult.transactionFailed, st) := by
  simp [submitTicket, hopen, huser]

theorem submitTicket_rejected (currentHour : Nat) (now : Int) (username : String)
    (ticketData : TicketData) (st : State) (user : User) (rest : List User)
    (hopen : isShopOpen currentHour = true)
    (huser : usersNamed st.users username = user :: rest)
    (hneg : user.balance - (ticketData.totalAmount - ticketData.totalAmount * commissionRate) < 0) :
    submitTicket currentHour now username ticketData st =
      (SubmitResult.insufficientBalance, st) := by
  simp [submitTicket, hopen, huser, hneg]

theorem submitTicket_accepted (currentHour : Nat) (now : Int) (username : String)
    (ticketData : TicketData) (st : State) (user : User) (rest : List User)
    (hopen : isShopOpen currentHour = true)
    (huser : usersNamed st.users username = user :: rest)
    (hok : ¬ user.balance - (ticketData.totalAmount - ticketData.totalAmount * commissionRate) < 0) :
    submitTicket currentHour now username ticketData st =
      (SubmitResult.confirmed
          (user.balance - (ticketData.totalAmount - ticketData.totalAmount * commissionRate))
          (nextTicketId st.tickets)
          (match st.draws.filter (fun d => d.end_time = ticketData.drawEndTime) with
            | d :: _ => d.draw_id
            | [] => nextDrawId st.draws),
        { users := setBalance st.users user.user_id
            (user.balance - (ticketData.totalAmount - ticketData.totalAmount * commissionRate)),
          draws := (match st.draws.filter (fun d => d.end_time = ticketData.drawEndTime) with
            | _ :: _ => st.draws
            | [] => st.draws ++ [pendingDraw (nextDrawId st.draws) ticketData.drawEndTime]),
          tickets := st.tickets ++
            [{ ticket_id := nextTicketId st.tickets,
               draw_id := (match st.draws.filter (fun d => d.end_time = ticketData.drawEndTime) with
                 | d :: _ => d.draw_id
                 | [] => nextDrawId st.draws),
               user_id := user.user_id, bet_details := some ticketData.betDetails,
               total_amount := ticketData.totalAmount, is_cancelled := false,
               is_claimed := false, created_at := now }],
          game_settings := st.game_settings }) := by
  simp only [submitTicket, hopen, huser, hok]
  rfl

/-- Inversion of a confirmed submit: the path the handler took and the state it wrote. -/
theorem submitTicket_confirmed_inv {currentHour : Nat} {now : Int} {username : String}
    {ticketData : TicketData} {st st' : State} {nb : ℚ} {tid did : Nat}
    (h : submitTicket currentHour now username ticketData st =
      (SubmitResult.confirmed nb tid did, st')) :
    ∃ user rest, isShopOpen currentHour = true ∧
      usersNamed st.users username = user :: rest ∧
      nb = user.balance - (ticketData.totalAmount - ticketData.totalAmount * commissionRate) ∧
      0 ≤ nb ∧
      tid = nextTicketId st.tickets ∧
      st'.users = setBalance st.users user.user_id nb ∧
      st'.tickets = st.tickets ++
        [{ ticket_id := tid, draw_id := did, user_id := user.user_id,
           bet_details := some ticketData.betDetails, total_amount := ticketData.totalAmount,
           is_cancelled := false, is_claimed := false, created_at := now }] ∧
      st'.game_settings = st.game_settings ∧
      ((∃ d ds, st.draws.filter (fun d => d.end_time = ticketData.drawEndTime) = d :: ds ∧
          did = d.draw_id ∧ st'.draws = st.draws) ∨
       (st.draws.filter (fun d => d.end_time = ticketData.drawEndTime) = [] ∧
          did = nextDrawId st.draws ∧
          st'.draws = st.draws ++ [pendingDraw did ticketData.drawEndTime])) := by
  cases hopen : isShopOpen currentHour with
  | false =>
    rw [submitTicket_closed _ _ _ _ _ hopen] at h
    simp at h
  | true =>
    cases huser : usersNamed st.users username with
    | nil =>
      rw [submitTicket_noUser _ _ _ _ _ hopen huser] at h
      simp at h
    | cons user rest =>
      by_cases hneg :
          user.balance - (ticketData.totalAmount - ticketData.totalAmount * commissionRate) < 0
      · rw [submitTicket_rejected _ _ _ _ _ user rest hopen huser hneg] at h
        simp at h
      · rw [submitTicket_accepted _ _ _ _ _ user rest hopen huser hneg] at h
        simp only [Prod.mk.injEq, SubmitResult.confirmed.injEq] at h
        obtain ⟨⟨hnb, htid, hdid⟩, hst⟩ := h
        subst hst
        refine ⟨user, rest, rfl, rfl, hnb.symm, ?_, htid.symm, ?_, ?_, rfl, ?_⟩
        · rw [← hnb]; exact not_lt.mp hneg
        · rw [← hnb]
        · rw [← htid, ← hdid]
        · rcases hf : st.draws.filter (fun d => d.end_time = ticketData.drawEndTime) with
            _ | ⟨d, ds⟩
          · right
            simp only [hf] at hdid ⊢
            exact ⟨trivial, hdid.symm, by rw [← hdid]⟩
          · left
            simp only [hf] at hdid
            refine ⟨d, ds, ?_, hdid.symm, ?_⟩
            · first | rfl | exact hf
            · simp only [hf]

/-! ## Rounds and their end times -/

theorem finalizeDraw_endTimes (ds : List Draw) (id : Nat) (w : String) (c p : ℚ) :
    (finalizeDraw ds id w c p).map (fun d => d.end_time) = ds.map (fun d => d.end_time) := by
  unfold finalizeDraw
  rw [List.map_map]
  apply List.map_congr_left
  intro d _
  by_cases hd : d.draw_id = id <;> simp [hd]

theorem append_pending_endTimes_nodup (ds : List Draw) (id : Nat) (e : Int)
    (hnone : ds.filter (fun d => d.end_time = e) = [])
    (hnd : (ds.map (fun d => d.end_time)).Nodup) :
    ((ds ++ [pendingDraw id e]).map (fun d => d.end_time)).Nodup := by
  rw [List.map_append, List.nodup_append]
  refine ⟨hnd, by simp, ?_⟩
  intro a ha hb
  simp only [pendingDraw, List.map_cons, List.map_nil, List.mem_singleton] at hb
  subst hb
  obtain ⟨d, hd, hde⟩ := List.mem_map.mp ha
  have : d ∈ ds.filter (fun d => d.end_time = a) :=
    List.mem_filter.mpr ⟨hd, by simpa using hde⟩
  rw [hnone] at this
  exact absurd this (List.not_mem_nil _)

theorem findOrCreateDraw_draws {e : Int} {st tx : State} {id : Nat}
    (h : findOrCreateDraw e st = some (id, tx)) :
    tx.draws = st.draws ∨
      (st.draws.filter (fun d => d.end_time = e) = [] ∧
        tx.draws = st.draws ++ [pendingDraw (nextDrawId st.draws) e]) := by
  unfold findOrCreateDraw at h
  split at h
  · rename_i hnil
    simp only [Option.some.injEq, Prod.mk.injEq] at h
    obtain ⟨-, htx⟩ := h
    subst htx
    exact Or.inr ⟨hnil, rfl⟩
  · split at h
    · exact absurd h (by simp)
    · simp only [Option.some.injEq, Prod.mk.injEq] at h
      obtain ⟨-, htx⟩ := h
      subst htx
      exact Or.inl rfl

theorem cancel_draws (now : Int) (ticketId : Nat) (username : String) (st : State) :
    (cancel now ticketId username st).2.draws = st.draws := by
  unfold cancel
  split
  · rfl
  · split
    · rfl
    · split
      · rfl
      · split <;> rfl

theorem claim_draws (ticketId : Nat) (username : String) (st : State) :
    (claim ticketId username st).2.draws = st.draws := by
  unfold claim
  split
  · rfl
  · split
    · rfl
    · split
      · rfl
      · split
        · rfl
        · split <;> rfl

theorem submitTicket_endTimes_nodup (currentHour : Nat) (now : Int) (username : String)
    (ticketData : TicketData) (st : State)
    (hnd : (st.draws.map (fun d => d.end_time)).Nodup) :
    ((submitTicket currentHour now username ticketData st).2.draws.map
      (fun d => d.end_time)).Nodup := by
  cases hopen : isShopOpen currentHour with
  | false => rw [submitTicket_closed _ _ _ _ _ hopen]; exact hnd
  | true =>
    cases huser : usersNamed st.users username with
    | nil => rw [submitTicket_noUser _ _ _ _ _ hopen huser]; exact hnd
    | cons user rest =>
      by_cases hneg :
          user.balance - (ticketData.totalAmount - ticketData.totalAmount * commissionRate) < 0
      · rw [submitTicket_rejected _ _ _ _ _ user rest hopen huser hneg]; exact hnd
      · rw [submitTicket_accepted _ _ _ _ _ user rest hopen huser hneg]
        dsimp only
        rcases hf : st.draws.filter (fun d => d.end_time = ticketData.drawEndTime) with
          _ | ⟨d, ds⟩
        · simp only [hf]
          exact append_pending_endTimes_nodup _ _ _ hf hnd
        · simp only [hf]
          exact hnd

theorem declareWinner_endTimes_nodup (rng : Rand) (now e : Int) (st : State)
    (hnd : (st.draws.map (fun d => d.end_time)).Nodup) :
    ((declareWinner rng now e st).2.draws.map (fun d => d.end_time)).Nodup := by
  cases hf : findOrCreateDraw e st with
  | none => simp only [declareWinner, hf]; exact hnd
  | some r =>
    obtain ⟨id, tx⟩ := r
    cases hsd : settleDraw rng now id tx with
    | none => simp only [declareWinner, hf, hsd]; exact hnd
    | some r1 =>
      obtain ⟨o, st1⟩ := r1
      simp only [declareWinner, hf, hsd]
      obtain ⟨-, -, w, c, p, hdraws⟩ := settleDraw_draws hsd
      rw [hdraws, finalizeDraw_endTimes]
      rcases findOrCreateDraw_draws hf with htx | ⟨hnone, htx⟩
      · rw [htx]; exact hnd
      · rw [htx]; exact append_pending_endTimes_nodup _ _ _ hnone hnd

theorem run_endTimes_nodup (st : State) (ops : List Op)
    (hnd : (st.draws.map (fun d => d.end_time)).Nodup) :
    (((run st ops).draws).map (fun d => d.end_time)).Nodup := by
  induction ops generalizing st with
  | nil => exact hnd
  | cons op ops ih =>
    apply ih (step st op)
    cases op with
    | submit currentHour now username ticketData =>
      exact submitTicket_endTimes_nodup currentHour now username ticketData st hnd
    | cancel now ticketId username =>
      simp only [step]
      rw [cancel_draws]; exact hnd
    | claim ticketId username =>
      simp only [step]
      rw [claim_draws]; exact hnd
    | declare rng now drawEndTime =>
      exact declareWinner_endTimes_nodup rng now drawEndTime st hnd

/-- C15: a confirmed submit-ticket sets the balance of the caller's account to
balance - (totalAmount - totalAmount x 0.09) and returns that value as `newBalance`; it
appends exactly one ticket, owned by the caller and bound to a round whose end time is
the requested draw end time; the draws are unchanged when a round with that end time
existed, and otherwise one PENDING round with zero collection and payout is appended;
so when no two rounds shared an end time before, none do afterwards, whatever
operations follow. -/
theorem submitTicket_confirmed_effect (currentHour : Nat) (now : Int) (username : String)
    (ticketData : TicketData) (st st' : State) (nb : ℚ) (tid did : Nat)
    (h : submitTicket currentHour now username ticketData st =
      (SubmitResult.confirmed nb tid did, st')) :
    ∃ user rest, usersNamed st.users username = user :: rest ∧
      nb = user.balance - (ticketData.totalAmount - ticketData.totalAmount * (9 / 100)) ∧
      st'.users = st.users.map
        (fun u => if u.user_id = user.user_id then { u with balance := nb } else u) ∧
      st'.tickets = st.tickets ++
        [{ ticket_id := tid, draw_id := did, user_id := user.user_id,
           bet_details := some ticketData.betDetails, total_amount := ticketData.totalAmount,
           is_cancelled := false, is_claimed := false, created_at := now }] ∧
      (∃ d ∈ st'.draws, d.draw_id = did ∧ d.end_time = ticketData.drawEndTime) ∧
      ((∃ d ∈ st.draws, d.end_time = ticketData.drawEndTime) → st'.draws = st.draws) ∧
      ((¬ ∃ d ∈ st.draws, d.end_time = ticketData.drawEndTime) →
        st'.draws = st.draws ++
          [{ draw_id := did, end_time := ticketData.drawEndTime, winning_spot := "PENDING",
             total_collection := 0, total_payout := 0, is_processed := false }]) ∧
      ((st.draws.map (fun d => d.end_time)).Nodup →
        ∀ ops, ((run st' ops).draws.map (fun d => d.end_time)).Nodup) := by
  obtain ⟨user, rest, -, huser, hnb, -, -, husers, htickets, -, hdraws⟩ :=
    submitTicket_confirmed_inv h
  refine ⟨user, rest, huser, by rw [hnb]; rfl, husers, htickets, ?_, ?_, ?_, ?_⟩
  · rcases hdraws with ⟨d, ds, hf, hdid, hst⟩ | ⟨-, -, hst⟩
    · have hmem : d ∈ st.draws.filter (fun d => d.end_time = ticketData.drawEndTime) := by
        rw [hf]; exact List.mem_cons_self _ _
      obtain ⟨hd, hde⟩ := List.mem_filter.mp hmem
      exact ⟨d, by rw [hst]; exact hd, hdid.symm, by simpa using hde⟩
    · refine ⟨pendingDraw did ticketData.drawEndTime, ?_, rfl, rfl⟩
      rw [hst]
      exact List.mem_append_right _ (List.mem_singleton_self _)
  · rintro ⟨d, hd, hde⟩
    rcases hdraws with ⟨-, -, -, -, hst⟩ | ⟨hnone, -, -⟩
    · exact hst
    · have : d ∈ st.draws.filter (fun d => d.end_time = ticketData.drawEndTime) :=
        List.mem_filter.mpr ⟨hd, by simpa using hde⟩
      rw [hnone] at this
      exact absurd this (List.not_mem_nil _)
  · intro hno
    rcases hdraws with ⟨d, ds, hf, -, -⟩ | ⟨-, -, hst⟩
    · have hmem : d ∈ st.draws.filter (fun d => d.end_time = ticketData.drawEndTime) := by
        rw [hf]; exact List.mem_cons_self _ _
      obtain ⟨hd, hde⟩ := List.mem_filter.mp hmem
      exact absurd ⟨d, hd, by simpa using hde⟩ hno
    · rw [hst]; rfl
  · intro hnd ops
    apply run_endTimes_nodup
    have := submitTicket_endTimes_nodup currentHour now username ticketData st hnd
    rw [h] at this
    exact this

/-- C15, at a concrete sale: the slip of 10 on A0 sold by `shop` leads to `openSale`. -/
theorem submitTicket_confirmed_effect_witness :
    ∃ user rest, usersNamed shop.users "ram" = user :: rest ∧
      (909 / 10 : ℚ) = user.balance - (slipA0.totalAmount - slipA0.totalAmount * (9 / 100)) ∧
      openSale.users = shop.users.map
        (fun u => if u.user_id = user.user_id then { u with balance := 909 / 10 } else u) ∧
      openSale.tickets = shop.tickets ++
        [{ ticket_id := 1, draw_id := 1, user_id := user.user_id,
           bet_details := some slipA0.betDetails, total_amount := slipA0.totalAmount,
           is_cancelled := false, is_claimed := false, created_at := 0 }] ∧
      (∃ d ∈ openSale.draws, d.draw_id = 1 ∧ d.end_time = slipA0.drawEndTime) ∧
      ((∃ d ∈ shop.draws, d.end_time = slipA0.drawEndTime) → openSale.draws = shop.draws) ∧
      ((¬ ∃ d ∈ shop.draws, d.end_time = slipA0.drawEndTime) →
        openSale.draws = shop.draws ++
          [{ draw_id := 1, end_time := slipA0.drawEndTime, winning_spot := "PENDING",
             total_collection := 0, total_payout := 0, is_processed := false }]) ∧
      ((shop.draws.map (fun d => d.end_time)).Nodup →
        ∀ ops, ((run openSale ops).draws.map (fun d => d.end_time)).Nodup) :=
  submitTicket_confirmed_effect 10 0 "ram" slipA0 shop openSale (909 / 10) 1 1 (by decide!)

/-- C16 (as stated, refuted): a submit with `totalAmount = 150` and quantity 5 on A0 is
confirmed and the ticket is stored with `total_amount = 150`, while the sum of its
quantities times 10 is 50. -/
theorem submitTicket_stores_mismatched_total :
    (submitTicket 10 0 "ram" mismatchedSlip shop200).1 = SubmitResult.confirmed (127 / 2) 1 1 ∧
    (submitTicket 10 0 "ram" mismatchedSlip shop200).2.tickets =
      [{ ticket_id := 1, draw_id := 1, user_id := 1, bet_details := some [("A0", 5)],
         total_amount := 150, is_cancelled := false, is_claimed := false, created_at := 0 }] ∧
    specWagerTotal [("A0", 5)] = 50 := by
  decide!

/-- C16 (amended): the ticket a confirmed submit-ticket stores carries the request's
`totalAmount` and `betDetails` as they came; so its `total_amount` equals the sum of
its per-spot quantities times 10 whenever the request's total amount does. -/
theorem submitTicket_stores_request_total (currentHour : Nat) (now : Int) (username : String)
    (ticketData : TicketData) (st st' : State) (nb : ℚ) (tid did : Nat)
    (h : submitTicket currentHour now username ticketData st =
      (SubmitResult.confirmed nb tid did, st'))
    (hreq : ticketData.totalAmount = specWagerTotal ticketData.betDetails) :
    ∃ t, st'.tickets = st.tickets ++ [t] ∧ t.ticket_id = tid ∧
      t.total_amount = ticketData.totalAmount ∧
      t.bet_details = some ticketData.betDetails ∧
      t.total_amount = specWagerTotal ticketData.betDetails := by
  obtain ⟨user, rest, -, -, -, -, -, -, htickets, -, -⟩ := submitTicket_confirmed_inv h
  exact ⟨_, htickets, rfl, rfl, rfl, hreq⟩

/-- C16 (amended), at a concrete sale: the slip of 10 with quantity 1 on A0. -/
theorem submitTicket_stores_request_total_witness :
    ∃ t, openSale.tickets = shop.tickets ++ [t] ∧ t.ticket_id = 1 ∧
      t.total_amount = slipA0.totalAmount ∧
      t.bet_details = some slipA0.betDetails ∧
      t.total_amount = specWagerTotal slipA0.betDetails :=
  submitTicket_stores_request_total 10 0 "ram" slipA0 shop openSale (909 / 10) 1 1
    (by decide!) (by decide!)

/-! ## The cancel handler, path by path -/

theorem cancel_noUser (now : Int) (ticketId : Nat) (username : String) (st : State)
    (huser : usersNamed st.users username = []) :
    cancel now ticketId username st = (CancelResult.serverError, st) := by
  simp [cancel, huser]

theorem cancel_notFound (now : Int) (ticketId : Nat) (username : String) (st : State)
    (user : User) (rest : List User)
    (huser : usersNamed st.users username = user :: rest)
    (hrows : ticketWithDraw st ticketId user.user_id = []) :
    cancel now ticketId username st = (CancelResult.ticketNotFound, st) := by
  simp [cancel, huser, hrows]

theorem cancel_already (now : Int) (ticketId : Nat) (username : String) (st : State)
    (user : User) (rest : List User) (ticket : Ticket) (draw : Draw)
    (rows : List (Ticket × Draw))
    (huser : usersNamed st.users username = user :: rest)
    (hrows : ticketWithDraw st ticketId user.user_id = (ticket, draw) :: rows)
    (hflag : ticket.is_cancelled = true) :
    cancel now ticketId username st = (CancelResult.alreadyCancelled, st) := by
  simp [cancel, huser, hrows, hflag]

theorem cancel_timeOver (now : Int) (ticketId : Nat) (username : String) (st : State)
    (user : User) (rest : List User) (ticket : Ticket) (draw : Draw)
    (rows : List (Ticket × Draw))
    (huser : usersNamed st.users username = user :: rest)
    (hrows : ticketWithDraw st ticketId user.user_id = (ticket, draw) :: rows)
    (hflag : ticket.is_cancelled = false)
    (hlate : (draw.end_time - now) * 1000 < 60000) :
    cancel now ticketId username st = (CancelResult.timeOver, st) := by
  simp [cancel, huser, hrows, hflag, hlate]

theorem cancel_refunds (now : Int) (ticketId : Nat) (username : String) (st : State)
    (user : User) (rest : List User) (ticket : Ticket) (draw : Draw)
    (rows : List (Ticket × Draw))
    (huser : usersNamed st.users username = user :: rest)
    (hrows : ticketWithDraw st ticketId user.user_id = (ticket, draw) :: rows)
    (hflag : ticket.is_cancelled = false)
    (hearly : ¬ (draw.end_time - now) * 1000 < 60000) :
    cancel now ticketId username st =
      (CancelResult.cancelled (user.balance + ticket.total_amount),
        { st with users := setBalance st.users user.user_id (user.balance + ticket.total_amount),
                  tickets := markCancelled st.tickets ticketId }) := by
  simp [cancel, huser, hrows, hflag, hearly]

/-- Inversion of a successful cancel: the rows the handler read and the state it wrote. -/
theorem cancel_cancelled_inv {now : Int} {ticketId : Nat} {username : String}
    {st st' : State} {nb : ℚ}
    (h : cancel now ticketId username st = (CancelResult.cancelled nb, st')) :
    ∃ user rest ticket draw rows,
      usersNamed st.users username = user :: rest ∧
      ticketWithDraw st ticketId user.user_id = (ticket, draw) :: rows ∧
      ticket.is_cancelled = false ∧
      ¬ (draw.end_time - now) * 1000 < 60000 ∧
      nb = user.balance + ticket.total_amount ∧
      st' = { st with users := setBalance st.users user.user_id nb,
                      tickets := markCancelled st.tickets ticketId } := by
  cases huser : usersNamed st.users username with
  | nil =>
    rw [cancel_noUser _ _ _ _ huser] at h
    simp at h
  | cons user rest =>
    cases hrows : ticketWithDraw st ticketId user.user_id with
    | nil =>
      rw [cancel_notFound _ _ _ _ user rest huser hrows] at h
      simp at h
    | cons row rows =>
      obtain ⟨ticket, draw⟩ := row
      cases hflag : ticket.is_cancelled with
      | true =>
        rw [cancel_already _ _ _ _ user rest ticket draw rows huser hrows hflag] at h
        simp at h
      | false =>
        by_cases hlate : (draw.end_time - now) * 1000 < 60000
        · rw [cancel_timeOver _ _ _ _ user rest ticket draw rows huser hrows hflag hlate] at h
          simp at h
        · rw [cancel_refunds _ _ _ _ user rest ticket draw rows huser hrows hflag hlate] at h
          simp only [Prod.mk.injEq, CancelResult.cancelled.injEq] at h
          obtain ⟨hnb, hst⟩ := h
          exact ⟨user, rest, ticket, draw, rows, rfl, hrows, hflag, hlate, hnb.symm,
            by rw [← hst, hnb]⟩

/-- The two ways a cancel call ends: a refusal that leaves the state as it was, or a
refund that flags the tickets with that id. -/
theorem cancel_cases (now : Int) (ticketId : Nat) (username : String) (st : State) :
    ((cancel now ticketId username st).1.isRefund = false ∧
      (cancel now ticketId username st).2 = st) ∨
    ((cancel now ticketId username st).1.isRefund = true ∧
      (cancel now ticketId username st).2.tickets = markCancelled st.tickets ticketId ∧
      ∃ t ∈ st.tickets, t.ticket_id = ticketId ∧ t.is_cancelled = false) := by
  cases huser : usersNamed st.users username with
  | nil =>
    rw [cancel_noUser _ _ _ _ huser]
    exact Or.inl ⟨rfl, rfl⟩
  | cons user rest =>
    cases hrows : ticketWithDraw st ticketId user.user_id with
    | nil =>
      rw [cancel_notFound _ _ _ _ user rest huser hrows]
      exact Or.inl ⟨rfl, rfl⟩
    | cons row rows =>
      obtain ⟨ticket, draw⟩ := row
      cases hflag : ticket.is_cancelled with
      | true =>
        rw [cancel_already _ _ _ _ user rest ticket draw rows huser hrows hflag]
        exact Or.inl ⟨rfl, rfl⟩
      | false =>
        by_cases hlate : (draw.end_time - now) * 1000 < 60000
        · rw [cancel_timeOver _ _ _ _ user rest ticket draw rows huser hrows hflag hlate]
          exact Or.inl ⟨rfl, rfl⟩
        · rw [cancel_refunds _ _ _ _ user rest ticket draw rows huser hrows hflag hlate]
          obtain ⟨hmem, -, -, hid, -⟩ := ticketWithDraw_head_mem hrows
          exact Or.inr ⟨rfl, rfl, ticket, hmem, hid, hflag⟩

theorem markCancelled_allCancelled (tickets : List Ticket) (ticketId : Nat) :
    ∀ t ∈ markCancelled tickets ticketId, t.ticket_id = ticketId → t.is_cancelled = true := by
  intro t ht hid
  simp only [markCancelled, List.mem_map] at ht
  obtain ⟨v, -, rfl⟩ := ht
  by_cases hv : v.ticket_id = ticketId
  · simp [hv]
  · simp only [hv, if_false] at hid

theorem markCancelled_keeps_cancelled (tickets : List Ticket) (other ticketId : Nat)
    (h : ∀ t ∈ tickets, t.ticket_id = ticketId → t.is_cancelled = true) :
    ∀ t ∈ markCancelled tickets other, t.ticket_id = ticketId → t.is_cancelled = true := by
  intro t ht hid
  simp only [markCancelled, List.mem_map] at ht
  obtain ⟨v, hv, rfl⟩ := ht
  by_cases hvo : v.ticket_id = other
  · simp [hvo]
  · simp only [hvo, if_false] at hid ⊢
    exact h v hv hid

theorem cancel_keeps_allCancelled (now : Int) (other ticketId : Nat) (username : String)
    (st : State) (h : AllCancelled ticketId st) :
    AllCancelled ticketId (cancel now other username st).2 := by
  rcases cancel_cases now other username st with ⟨-, hst⟩ | ⟨-, htk, -⟩
  · rw [hst]; exact h
  · unfold AllCancelled
    rw [htk]
    exact markCancelled_keeps_cancelled _ _ _ h

theorem cancel_refused_of_allCancelled (now : Int) (ticketId : Nat) (username : String)
    (st : State) (h : AllCancelled ticketId st) :
    (cancel now ticketId username st).1.isRefund = false ∧
      (cancel now ticketId username st).2 = st := by
  rcases cancel_cases now ticketId username st with hno | ⟨-, -, t, ht, hid, hflag⟩
  · exact hno
  · have := h t ht hid
    rw [hflag] at this
    exact absurd this (by simp)

theorem refundsApplied_of_allCancelled (ticketId : Nat) (st : State) (calls : List CancelCall)
    (h : AllCancelled ticketId st) : refundsApplied ticketId st calls = 0 := by
  induction calls generalizing st with
  | nil => rfl
  | cons call rest ih =>
    unfold refundsApplied
    rw [ih _ (cancel_keeps_allCancelled call.now call.ticketId ticketId call.username st h)]
    by_cases hid : call.ticketId = ticketId
    · have hno := (cancel_refused_of_allCancelled call.now ticketId call.username st h).1
      rw [hid]
      simp [hno]
    · simp [hid]

theorem refundsApplied_le_one (ticketId : Nat) (st : State) (calls : List CancelCall) :
    refundsApplied ticketId st calls ≤ 1 := by
  induction calls generalizing st with
  | nil => simp [refundsApplied]
  | cons call rest ih =>
    unfold refundsApplied
    by_cases hc : call.ticketId = ticketId ∧
        (cancel call.now call.ticketId call.username st).1.isRefund = true
    · obtain ⟨hid, href⟩ := hc
      have hall : AllCancelled ticketId (cancel call.now call.ticketId call.username st).2 := by
        rcases cancel_cases call.now call.ticketId call.username st with ⟨hno, -⟩ | ⟨-, htk, -⟩
        · rw [href] at hno
          exact absurd hno (by simp)
        · unfold AllCancelled
          rw [htk, hid]
          exact markCancelled_allCancelled _ _
      rw [refundsApplied_of_allCancelled _ _ _ hall]
      split <;> simp
    · have := ih (cancel call.now call.ticketId call.username st).2
      simp only [hc, if_false, zero_add]
      exact this

/-- C17: a successful cancel answers with the owner's balance plus the ticket's
`total_amount`, writes that balance to the owner's account, sets `is_cancelled` on the
ticket with the given id, and leaves every other account, every other ticket, every
round and the settings unchanged. -/
theorem cancel_success_effect (now : Int) (ticketId : Nat) (username : String)
    (st st' : State) (nb : ℚ)
    (h : cancel now ticketId username st = (CancelResult.cancelled nb, st')) :
    ∃ user ticket, user ∈ st.users ∧ user.username = username ∧
      ticket ∈ st.tickets ∧ ticket.ticket_id = ticketId ∧ ticket.user_id = user.user_id ∧
      ticket.is_cancelled = false ∧
      nb = user.balance + ticket.total_amount ∧
      st'.users = st.users.map (fun u =>
        if u.user_id = user.user_id then
          { u with balance := user.balance + ticket.total_amount }
        else u) ∧
      st'.tickets = st.tickets.map (fun t =>
        if t.ticket_id = ticketId then { t with is_cancelled := true } else t) ∧
      st'.draws = st.draws ∧ st'.game_settings = st.game_settings := by
  obtain ⟨user, rest, ticket, draw, rows, huser, hrows, hflag, -, hnb, hst⟩ :=
    cancel_cancelled_inv h
  obtain ⟨hmem, -, -, hid, huid⟩ := ticketWithDraw_head_mem hrows
  have humem : user ∈ usersNamed st.users username := by
    rw [huser]; exact List.mem_cons_self _ _
  have hname : user.username = username := by
    simpa [usersNamed] using (List.mem_filter.mp humem).2
  refine ⟨user, ticket, usersNamed_head_mem huser, hname, hmem, hid, huid, hflag, hnb, ?_, ?_,
    ?_, ?_⟩
  · rw [hst, hnb]; rfl
  · rw [hst]; rfl
  · rw [hst]
  · rw [hst]

/-- C17, at a concrete ticket: cancelling the slip of `openSale` 500 seconds before the
close takes the balance from 90.9 to 100.9 and leads to `cancelledSale`. -/
theorem cancel_success_effect_witness :
    ∃ user ticket, user ∈ openSale.users ∧ user.username = "ram" ∧
      ticket ∈ openSale.tickets ∧ ticket.ticket_id = 1 ∧ ticket.user_id = user.user_id ∧
      ticket.is_cancelled = false ∧
      (1009 / 10 : ℚ) = user.balance + ticket.total_amount ∧
      cancelledSale.users = openSale.users.map (fun u =>
        if u.user_id = user.user_id then
          { u with balance := user.balance + ticket.total_amount }
        else u) ∧
      cancelledSale.tickets = openSale.tickets.map (fun t =>
        if t.ticket_id = 1 then { t with is_cancelled := true } else t) ∧
      cancelledSale.draws = openSale.draws ∧
      cancelledSale.game_settings = openSale.game_settings :=
  cancel_success_effect 100 1 "ram" openSale cancelledSale (1009 / 10) (by decide!)

/-- C18: for the caller's ticket that is not yet cancelled, at every server time with
close - now < 60 seconds (30 seconds before the close, or after it), cancel answers
with the time-over result and the state, balances and ticket flags included, is
unchanged. -/
theorem cancel_window_closed (now : Int) (ticketId : Nat) (username : String) (st : State)
    (user : User) (rest : List User) (ticket : Ticket) (draw : Draw)
    (rows : List (Ticket × Draw))
    (huser : usersNamed st.users username = user :: rest)
    (hrows : ticketWithDraw st ticketId user.user_id = (ticket, draw) :: rows)
    (hflag : ticket.is_cancelled = false)
    (hlate : draw.end_time - now < 60) :
    cancel now ticketId username st = (CancelResult.timeOver, st) :=
  cancel_timeOver now ticketId username st user rest ticket draw rows huser hrows hflag
    (by omega)

/-- C18, at a concrete ticket: 30 seconds before the close of its round the slip of
`openSale` can no longer be cancelled. -/
theorem cancel_window_closed_witness :
    cancel 570 1 "ram" openSale = (CancelResult.timeOver, openSale) :=
  cancel_window_closed 570 1 "ram" openSale ramAfterSale [] ticketA0 (pendingDraw 1 600) []
    (by decide!) (by decide!) (by decide!) (by decide!)

/-- C19 (as stated, refuted): exactly 60 seconds before the close (end time 600, server
time 540) the cancel of the slip of `openSale` is accepted and refunds 10. -/
theorem cancel_accepted_at_exactly_sixty :
    (600 : Int) - 540 ≤ 60 ∧
    openSale.draws.map (fun d => d.end_time) = [600] ∧
    (cancel 540 1 "ram" openSale).1 = CancelResult.cancelled (1009 / 10) ∧
    (cancel 540 1 "ram" openSale).2.tickets.map (fun t => t.is_cancelled) = [true] := by
  decide!

/-- C19 (amended): for the caller's ticket that is not yet cancelled, cancel succeeds
exactly when the server time is at least 60 seconds before the round's close time: with
close - now < 60 seconds it is rejected, at exactly 60 seconds it is accepted. -/
theorem cancel_succeeds_iff_sixty (now : Int) (ticketId : Nat) (username : String)
    (st : State) (user : User) (rest : List User) (ticket : Ticket) (draw : Draw)
    (rows : List (Ticket × Draw))
    (huser : usersNamed st.users username = user :: rest)
    (hrows : ticketWithDraw st ticketId user.user_id = (ticket, draw) :: rows)
    (hflag : ticket.is_cancelled = false) :
    ((cancel now ticketId username st).1.isRefund = true ↔ 60 ≤ draw.end_time - now) ∧
    (draw.end_time - now < 60 →
      cancel now ticketId username st = (CancelResult.timeOver, st)) ∧
    (draw.end_time - now = 60 →
      (cancel now ticketId username st).1 =
        CancelResult.cancelled (user.balance + ticket.total_amount)) := by
  refine ⟨?_, ?_, ?_⟩
  · by_cases hlate : (draw.end_time - now) * 1000 < 60000
    · rw [cancel_timeOver _ _ _ _ user rest ticket draw rows huser hrows hflag hlate]
      simp only [CancelResult.isRefund]
      constructor
      · intro hf
        exact absurd hf (by simp)
      · intro hge
        omega
    · rw [cancel_refunds _ _ _ _ user rest ticket draw rows huser hrows hflag hlate]
      simp only [CancelResult.isRefund, true_iff]
      omega
  · intro hlt
    exact cancel_timeOver _ _ _ _ user rest ticket draw rows huser hrows hflag (by omega)
  · intro heq
    rw [cancel_refunds _ _ _ _ user rest ticket draw rows huser hrows hflag (by omega)]

/-- C19 (amended), at a concrete ticket: for the slip of `openSale` and server time 540
the cancel succeeds, the close being 60 seconds away. -/
theorem cancel_succeeds_iff_sixty_witness :
    ((cancel 540 1 "ram" openSale).1.isRefund = true ↔
      60 ≤ (pendingDraw 1 600).end_time - 540) ∧
    ((pendingDraw 1 600).end_time - 540 < 60 →
      cancel 540 1 "ram" openSale = (CancelResult.timeOver, openSale)) ∧
    ((pendingDraw 1 600).end_time - 540 = 60 →
      (cancel 540 1 "ram" openSale).1 =
        CancelResult.cancelled (ramAfterSale.balance + ticketA0.total_amount)) :=
  cancel_succeeds_iff_sixty 540 1 "ram" openSale ramAfterSale [] ticketA0 (pendingDraw 1 600) []
    (by decide!) (by decide!) (by decide!)

/-- C20: cancelling the caller's ticket whose `is_cancelled` flag is already set is
answered with the already-cancelled result and leaves the whole state, every balance
and every ticket included, unchanged; and over any sequence of cancel calls, from any
state, at most one call refunds a given ticket. -/
theorem cancel_only_once (now : Int) (ticketId : Nat) (username : String) (st : State)
    (user : User) (rest : List User) (ticket : Ticket) (draw : Draw)
    (rows : List (Ticket × Draw))
    (huser : usersNamed st.users username = user :: rest)
    (hrows : ticketWithDraw st ticketId user.user_id = (ticket, draw) :: rows)
    (hflag : ticket.is_cancelled = true) :
    cancel now ticketId username st = (CancelResult.alreadyCancelled, st) ∧
    ∀ (s : State) (calls : List CancelCall), refundsApplied ticketId s calls ≤ 1 :=
  ⟨cancel_already now ticketId username st user rest ticket draw rows huser hrows hflag,
   fun s calls => refundsApplied_le_one ticketId s calls⟩

/-- C20, at a concrete ticket: the slip of `cancelledSale` cannot be cancelled again,
and of two cancel calls on the slip of `openSale` exactly one refunds. -/
theorem cancel_only_once_witness :
    cancel 200 1 "ram" cancelledSale = (CancelResult.alreadyCancelled, cancelledSale) ∧
    refundsApplied 1 openSale
      [{ now := 100, ticketId := 1, username := "ram" },
       { now := 200, ticketId := 1, username := "ram" }] = 1 ∧
    ∀ (s : State) (calls : List CancelCall), refundsApplied 1 s calls ≤ 1 :=
  ⟨(cancel_only_once 200 1 "ram" cancelledSale
      { user_id := 1, username := "ram", balance := 1009 / 10 } []
      { ticketA0 with is_cancelled := true } (pendingDraw 1 600) []
      (by decide!) (by decide!) (by decide!)).1,
   by decide!,
   (cancel_only_once 200 1 "ram" cancelledSale
      { user_id := 1, username := "ram", balance := 1009 / 10 } []
      { ticketA0 with is_cancelled := true } (pendingDraw 1 600) []
      (by decide!) (by decide!) (by decide!)).2⟩

/-! ## The claim handler, path by path -/

theorem claim_noUser (ticketId : Nat) (username : String) (st : State)
    (huser : usersNamed st.users username = []) :
    claim ticketId username st = (ClaimResult.serverError, st) := by
  simp [claim, huser]

theorem claim_notFound (ticketId : Nat) (username : String) (st : State)
    (user : User) (rest : List User)
    (huser : usersNamed st.users username = user :: rest)
    (hrows : ticketWithDraw st ticketId user.user_id = []) :
    claim ticketId username st = (ClaimResult.invalidTicket, st) := by
  simp [claim, huser, hrows]

theorem claim_blocked (ticketId : Nat) (username : String) (st : State)
    (user : User) (rest : List User) (ticket : Ticket) (draw : Draw)
    (rows : List (Ticket × Draw))
    (huser : usersNamed st.users username = user :: rest)
    (hrows : ticketWithDraw st ticketId user.user_id = (ticket, draw) :: rows)
    (hflag : ticket.is_cancelled = true ∨ ticket.is_claimed = true ∨
      draw.winning_spot = "PENDING") :
    claim ticketId username st = (ClaimResult.cannotClaim, st) := by
  have hcond : (ticket.is_cancelled || ticket.is_claimed ||
      decide (draw.winning_spot = "PENDING")) = true := by
    rcases hflag with h | h | h <;> simp [h]
  simp [claim, huser, hrows, hcond]

theorem claim_unparsable (ticketId : Nat) (username : String) (st : State)
    (user : User) (rest : List User) (ticket : Ticket) (draw : Draw)
    (rows : List (Ticket × Draw))
    (huser : usersNamed st.users username = user :: rest)
    (hrows : ticketWithDraw st ticketId user.user_id = (ticket, draw) :: rows)
    (hc : ticket.is_cancelled = false) (hk : ticket.is_claimed = false)
    (hw : draw.winning_spot ≠ "PENDING") (hbets : ticket.bet_details = none) :
    claim ticketId username st = (ClaimResult.serverError, st) := by
  simp [claim, huser, hrows, hc, hk, hw, hbets]

theorem claim_noWin (ticketId : Nat) (username : String) (st : State)
    (user : User) (rest : List User) (ticket : Ticket) (draw : Draw)
    (rows : List (Ticket × Draw)) (bets : BetDetails)
    (huser : usersNamed st.users username = user :: rest)
    (hrows : ticketWithDraw st ticketId user.user_id = (ticket, draw) :: rows)
    (hc : ticket.is_cancelled = false) (hk : ticket.is_claimed = false)
    (hw : draw.winning_spot ≠ "PENDING") (hbets : ticket.bet_details = some bets)
    (hq : winningQty bets draw.winning_spot = 0) :
    claim ticketId username st = (ClaimResult.noWinningSpots, st) := by
  simp [claim, huser, hrows, hc, hk, hw, hbets, hq]

theorem claim_credits (ticketId : Nat) (username : String) (st : State)
    (user : User) (rest : List User) (ticket : Ticket) (draw : Draw)
    (rows : List (Ticket × Draw)) (bets : BetDetails)
    (huser : usersNamed st.users username = user :: rest)
    (hrows : ticketWithDraw st ticketId user.user_id = (ticket, draw) :: rows)
    (hc : ticket.is_cancelled = false) (hk : ticket.is_claimed = false)
    (hw : draw.winning_spot ≠ "PENDING") (hbets : ticket.bet_details = some bets)
    (hq : winningQty bets draw.winning_spot ≠ 0) :
    claim ticketId username st =
      (ClaimResult.success (winningQty bets draw.winning_spot * 90) ticketId draw.winning_spot
          (winningQty bets draw.winning_spot)
          (user.balance + winningQty bets draw.winning_spot * 90),
        { st with
          users := setBalance st.users user.user_id
            (user.balance + winningQty bets draw.winning_spot * 90),
          tickets := markClaimed st.tickets ticketId }) := by
  simp [claim, huser, hrows, hc, hk, hw, hbets, hq]

/-- The two ways a claim call ends: a refusal that leaves the state as it was, or a
credit, with the rows the handler read and the state it wrote. -/
theorem claim_cases (ticketId : Nat) (username : String) (st : State) :
    ((claim ticketId username st).1.isCredit = false ∧ (claim ticketId username st).2 = st) ∨
    (∃ user rest ticket draw rows bets,
      usersNamed st.users username = user :: rest ∧
      ticketWithDraw st ticketId user.user_id = (ticket, draw) :: rows ∧
      ticket.is_cancelled = false ∧ ticket.is_claimed = false ∧
      draw.winning_spot ≠ "PENDING" ∧ ticket.bet_details = some bets ∧
      winningQty bets draw.winning_spot ≠ 0 ∧
      claim ticketId username st =
        (ClaimResult.success (winningQty bets draw.winning_spot * 90) ticketId
            draw.winning_spot (winningQty bets draw.winning_spot)
            (user.balance + winningQty bets draw.winning_spot * 90),
          { st with
            users := setBalance st.users user.user_id
              (user.balance + winningQty bets draw.winning_spot * 90),
            tickets := markClaimed st.tickets ticketId })) := by
  cases huser : usersNamed st.users username with
  | nil =>
    rw [claim_noUser _ _ _ huser]
    exact Or.inl ⟨rfl, rfl⟩
  | cons user rest =>
    cases hrows : ticketWithDraw st ticketId user.user_id with
    | nil =>
      rw [claim_notFound _ _ _ user rest huser hrows]
      exact Or.inl ⟨rfl, rfl⟩
    | cons row rows =>
      obtain ⟨ticket, draw⟩ := row
      by_cases hflag : ticket.is_cancelled = true ∨ ticket.is_claimed = true ∨
          draw.winning_spot = "PENDING"
      · rw [claim_blocked _ _ _ user rest ticket draw rows huser hrows hflag]
        exact Or.inl ⟨rfl, rfl⟩
      · simp only [not_or, Bool.not_eq_true] at hflag
        obtain ⟨hc, hk, hw⟩ := hflag
        cases hbets : ticket.bet_details with
        | none =>
          rw [claim_unparsable _ _ _ user rest ticket draw rows huser hrows hc hk hw hbets]
          exact Or.inl ⟨rfl, rfl⟩
        | some bets =>
          by_cases hq : winningQty bets draw.winning_spot = 0
          · rw [claim_noWin _ _ _ user rest ticket draw rows bets huser hrows hc hk hw hbets hq]
            exact Or.inl ⟨rfl, rfl⟩
          · exact Or.inr ⟨user, rest, ticket, draw, rows, bets, rfl, hrows, hc, hk, hw, hbets,
              hq, claim_credits _ _ _ user rest ticket draw rows bets huser hrows hc hk hw
                hbets hq⟩

/-! ## A ticket is credited by claim at most once -/

theorem markClaimed_sets_flag (tickets : List Ticket) (ticketId : Nat) :
    ∀ t ∈ markClaimed tickets ticketId, t.ticket_id = ticketId → t.is_claimed = true := by
  intro t ht hid
  simp only [markClaimed, List.mem_map] at ht
  obtain ⟨v, -, rfl⟩ := ht
  by_cases hv : v.ticket_id = ticketId
  · simp [hv]
  · simp only [hv, if_false] at hid

theorem markClaimed_keeps_blocked (tickets : List Ticket) (other ticketId : Nat)
    (h : ∀ t ∈ tickets, t.ticket_id = ticketId → t.is_claimed = true ∨ t.is_cancelled = true) :
    ∀ t ∈ markClaimed tickets other, t.ticket_id = ticketId →
      t.is_claimed = true ∨ t.is_cancelled = true := by
  intro t ht hid
  simp only [markClaimed, List.mem_map] at ht
  obtain ⟨v, hv, rfl⟩ := ht
  by_cases hvo : v.ticket_id = other
  · simp [hvo]
  · simp only [hvo, if_false] at hid ⊢
    exact h v hv hid

theorem claim_refused_of_blocked (ticketId : Nat) (username : String) (st : State)
    (h : ClaimBlocked ticketId st) :
    (claim ticketId username st).1.isCredit = false ∧ (claim ticketId username st).2 = st := by
  rcases claim_cases ticketId username st with hno |
    ⟨user, rest, ticket, draw, rows, bets, -, hrows, hc, hk, -, -, -, -⟩
  · exact hno
  · obtain ⟨hmem, -, -, hid, -⟩ := ticketWithDraw_head_mem hrows
    rcases h ticket hmem hid with hflag | hflag
    · rw [hk] at hflag
      exact absurd hflag (by simp)
    · rw [hc] at hflag
      exact absurd hflag (by simp)

theorem claim_keeps_blocked (other ticketId : Nat) (username : String) (st : State)
    (h : ClaimBlocked ticketId st) : ClaimBlocked ticketId (claim other username st).2 := by
  rcases claim_cases other username st with ⟨-, hst⟩ |
    ⟨user, rest, ticket, draw, rows, bets, -, -, -, -, -, -, -, heq⟩
  · rw [hst]; exact h
  · rw [heq]
    exact markClaimed_keeps_blocked _ _ _ h

theorem claimsApplied_of_blocked (ticketId : Nat) (st : State) (calls : List ClaimCall)
    (h : ClaimBlocked ticketId st) : claimsApplied ticketId st calls = 0 := by
  induction calls generalizing st with
  | nil => rfl
  | cons call rest ih =>
    unfold claimsApplied
    rw [ih _ (claim_keeps_blocked call.ticketId ticketId call.username st h)]
    by_cases hid : call.ticketId = ticketId
    · have hno := (claim_refused_of_blocked ticketId call.username st h).1
      rw [hid]
      simp [hno]
    · simp [hid]

theorem claimsApplied_le_one (ticketId : Nat) (st : State) (calls : List ClaimCall) :
    claimsApplied ticketId st calls ≤ 1 := by
  induction calls generalizing st with
  | nil => simp [claimsApplied]
  | cons call rest ih =>
    unfold claimsApplied
    by_cases hc : call.ticketId = ticketId ∧
        (claim call.ticketId call.username st).1.isCredit = true
    · obtain ⟨hid, href⟩ := hc
      have hall : ClaimBlocked ticketId (claim call.ticketId call.username st).2 := by
        rcases claim_cases call.ticketId call.username st with ⟨hno, -⟩ |
          ⟨user, rest', ticket, draw, rows, bets, -, -, -, -, -, -, -, heq⟩
        · rw [href] at hno
          exact absurd hno (by simp)
        · rw [heq]
          intro t ht htid
          exact Or.inl (markClaimed_sets_flag _ _ t ht (by rw [hid]; exact htid))
      rw [claimsApplied_of_blocked _ _ _ hall]
      split <;> simp
    · have := ih (claim call.ticketId call.username st).2
      simp only [hc, if_false, zero_add]
      exact this

/-- C21: when every ticket with the given id carries the claimed or the cancelled flag,
claim is refused, whoever calls, and leaves the whole state, every balance and every
ticket included, unchanged; and over any sequence of claim calls, from any state, at
most one call credits a given ticket. -/
theorem claim_only_once (ticketId : Nat) (username : String) (st : State)
    (hflag : ∀ t ∈ st.tickets, t.ticket_id = ticketId →
      t.is_claimed = true ∨ t.is_cancelled = true) :
    (claim ticketId username st).1.isCredit = false ∧
    (claim ticketId username st).2 = st ∧
    ∀ (s : State) (calls : List ClaimCall), claimsApplied ticketId s calls ≤ 1 :=
  ⟨(claim_refused_of_blocked ticketId username st hflag).1,
   (claim_refused_of_blocked ticketId username st hflag).2,
   fun s calls => claimsApplied_le_one ticketId s calls⟩

/-- C21, at concrete tickets: the cancelled slip of `cancelledSale` cannot be claimed
after its round is settled, and of two claims of the winning slip of `openSale` exactly
one is credited. -/
theorem claim_only_once_witness :
    (claim 1 "ram" (declareWinner luckyRand 605 600 cancelledSale).2).1 =
      ClaimResult.cannotClaim ∧
    (claim 1 "ram" (declareWinner luckyRand 605 600 cancelledSale).2).1.isCredit = false ∧
    (claim 1 "ram" (declareWinner luckyRand 605 600 cancelledSale).2).2 =
      (declareWinner luckyRand 605 600 cancelledSale).2 ∧
    claimsApplied 1 (declareWinner luckyRand 605 600 openSale).2
      [{ ticketId := 1, username := "ram" }, { ticketId := 1, username := "ram" }] = 1 :=
  ⟨by decide!,
   (claim_only_once 1 "ram" (declareWinner luckyRand 605 600 cancelledSale).2 (by decide!)).1,
   (claim_only_once 1 "ram" (declareWinner luckyRand 605 600 cancelledSale).2 (by decide!)).2.1,
   by decide!⟩

/-- C23 (the code at the failing input): the standing ticket of `shortSale` has
quantity -1 on A0; the settlement of its round with A0 credits nothing (the payout loop
tests `winningQty > 0`, the balance stays 90.9), but the claim of the ticket succeeds
(the claim handler tests `winningQty === 0`), returns `winAmount = -90` and takes the
balance from 90.9 to 0.9, although the quantity on the winning spot is not greater
than 0. -/
theorem claim_succeeds_on_negative_quantity :
    roundOf (declareWinner unluckyRand 605 600 shortSale).2 600 =
      some { draw_id := 1, end_time := 600, winning_spot := "A0", total_collection := 10,
             total_payout := -90, is_processed := true } ∧
    (declareWinner unluckyRand 605 600 shortSale).2.tickets.map
      (fun t => t.quantityOn "A0") = [-1] ∧
    (declareWinner unluckyRand 605 600 shortSale).2.users.map (fun u => u.balance) =
      [909 / 10] ∧
    (claim 1 "ram" (declareWinner unluckyRand 605 600 shortSale).2).1 =
      ClaimResult.success (-90) 1 "A0" (-1) (9 / 10) ∧
    (claim 1 "ram" (declareWinner unluckyRand 605 600 shortSale).2).2.users.map
      (fun u => u.balance) = [9 / 10] := by
  decide!

/-- Inversion of the claim handler: a call either fails and leaves the state unchanged,
or succeeds, and then the ticket belongs to the caller, is neither cancelled nor
claimed, its round has a determined winning spot, and its quantity on the winning spot
passed the test `winningQty === 0`; the call sets the caller's balance to
balance + quantity x 90, returns quantity x 90 as `winAmount`, sets `is_claimed` on the
ticket and changes nothing else. -/
theorem claim_effect (ticketId : Nat) (username : String) (st : State) :
    ((claim ticketId username st).1.isCredit = false ∧ (claim ticketId username st).2 = st) ∨
    (∃ user ticket draw,
      user ∈ st.users ∧ user.username = username ∧
      ticket ∈ st.tickets ∧ ticket.ticket_id = ticketId ∧ ticket.user_id = user.user_id ∧
      draw ∈ st.draws ∧ ticket.draw_id = draw.draw_id ∧ draw.winning_spot ≠ "PENDING" ∧
      ticket.is_cancelled = false ∧ ticket.is_claimed = false ∧
      ticket.quantityOn draw.winning_spot ≠ 0 ∧
      (ticket.NonNeg → 0 < ticket.quantityOn draw.winning_spot) ∧
      (claim ticketId username st).1 =
        ClaimResult.success (ticket.quantityOn draw.winning_spot * 90) ticketId
          draw.winning_spot (ticket.quantityOn draw.winning_spot)
          (user.balance + ticket.quantityOn draw.winning_spot * 90) ∧
      (claim ticketId username st).2.users = st.users.map (fun u =>
        if u.user_id = user.user_id then
          { u with balance := user.balance + ticket.quantityOn draw.winning_spot * 90 }
        else u) ∧
      (claim ticketId username st).2.tickets = st.tickets.map (fun t =>
        if t.ticket_id = ticketId then { t with is_claimed := true } else t) ∧
      (claim ticketId username st).2.draws = st.draws ∧
      (claim ticketId username st).2.game_settings = st.game_settings) := by
  rcases claim_cases ticketId username st with hno |
    ⟨user, rest, ticket, draw, rows, bets, huser, hrows, hc, hk, hw, hbets, hq, heq⟩
  · exact Or.inl hno
  · right
    obtain ⟨hmem, hdmem, hjoin, hid, huid⟩ := ticketWithDraw_head_mem hrows
    have humem : user ∈ usersNamed st.users username := by
      rw [huser]; exact List.mem_cons_self _ _
    have hname : user.username = username := by
      simpa [usersNamed] using (List.mem_filter.mp humem).2
    have hqty := winningQty_eq_quantityOn ticket bets draw.winning_spot hbets
    rw [hqty] at hq heq
    refine ⟨user, ticket, draw, usersNamed_head_mem huser, hname, hmem, hid, huid, hdmem,
      hjoin, hw, hc, hk, hq, ?_, ?_, ?_, ?_, ?_, ?_⟩
    · intro hnn
      have h0 := winningQty_nonneg bets draw.winning_spot (hnn.2 bets hbets)
      rw [hqty] at h0
      exact lt_of_le_of_ne h0 (Ne.symm hq)
    · rw [heq]
    · rw [heq]; rfl
    · rw [heq]; rfl
    · rw [heq]
    · rw [heq]

/-- C24: `isShopOpen` answers true exactly for the hours h with 6 <= h <= 23, and when
it answers false submit-ticket returns the shop-closed result and the state, with every
balance, ticket and round, is unchanged. -/
theorem shop_hours_gate (currentHour : Nat) (now : Int) (username : String)
    (ticketData : TicketData) (st : State) :
    (isShopOpen currentHour = true ↔ 6 ≤ currentHour ∧ currentHour ≤ 23) ∧
    (isShopOpen currentHour = false →
      submitTicket currentHour now username ticketData st = (SubmitResult.shopClosed, st)) := by
  refine ⟨?_, fun hclosed => submitTicket_closed currentHour now username ticketData st hclosed⟩
  simp [isShopOpen]

/-- C24, at a concrete hour: at 3 in the morning the shop is closed and the slip of 10
is turned away with `shop` unchanged; at 6 and at 23 the shop is open. -/
theorem shop_hours_gate_witness :
    isShopOpen 6 = true ∧ isShopOpen 23 = true ∧ isShopOpen 5 = false ∧
    submitTicket 3 0 "ram" slipA0 shop = (SubmitResult.shopClosed, shop) :=
  ⟨by decide, by decide, by decide,
   (shop_hours_gate 3 0 "ram" slipA0 shop).2 (by decide)⟩

/-! ## Daily statistics and the proportional control -/

/-- C25 (the code at the failing input): one round of today is settled with
`total_payout = 180` and holds two standing tickets of 10; the `dailyStats` query
returns day sales 20 and day payout 360, the round being counted once per ticket, while
the sum of `total_payout` over today's settled rounds is 180; the current RTP computed
from the query is 1800 instead of 900. -/
theorem dailyStats_counts_round_per_ticket :
    twoSlipsSettled.draws.map (fun d => (d.draw_id, d.total_payout, d.is_processed)) =
      [(1, 180, true)] ∧
    twoSlipsSettled.tickets.map (fun t => (t.draw_id, t.total_amount, t.is_cancelled)) =
      [(1, 10, false), (1, 10, false)] ∧
    dailyStats twoSlipsSettled 700 = (20, 360) ∧
    specDayPayout twoSlipsSettled 700 = 180 ∧
    currentRTP twoSlipsSettled.game_settings (dailyStats twoSlipsSettled 700).1
      (dailyStats twoSlipsSettled 700).2 = 1800 ∧
    currentRTP twoSlipsSettled.game_settings 20 180 = 900 := by
  decide!

theorem allowedDrawRTP_antitone (settings : Option GameSettings) (s p s' p' : ℚ)
    (h : currentRTP settings s p ≤ currentRTP settings s' p') :
    allowedDrawRTP settings s' p' ≤ allowedDrawRTP settings s p := by
  unfold allowedDrawRTP CONTROL_FACTOR
  dsimp only
  apply max_le_max (le_refl _)
  apply min_le_min _ (le_refl _)
  linarith

/-- C26 (as stated, refuted): the settings row `zeroMinimumWideRow` (target 50,
minimum 0, maximum 100) has minimum <= target <= maximum; on a day with sales 1000 and
payout 600 the realised RTP 60 is above the target, yet the allowed RTP is 80, above
the target: the code reads the stored minimum 0 as the default 80. -/
theorem allowedDrawRTP_above_target_zero_minimum :
    zeroMinimumWideRow.profit_min ≤ zeroMinimumWideRow.target_percent ∧
    zeroMinimumWideRow.target_percent ≤ zeroMinimumWideRow.profit_max ∧
    targetRTP (some zeroMinimumWideRow) = 50 ∧
    currentRTP (some zeroMinimumWideRow) 1000 600 = 60 ∧
    minDrawRTP (some zeroMinimumWideRow) = 80 ∧
    allowedDrawRTP (some zeroMinimumWideRow) 1000 600 = 80 ∧
    ¬ allowedDrawRTP (some zeroMinimumWideRow) 1000 600 ≤ zeroMinimumWideRow.target_percent := by
  decide!

/-- C26 (amended): with `target`, `minimum` and `maximum` read as the code reads them
(the stored value when it is not 0, and 90, 80, 100 for a stored 0 or a missing row)
and minimum <= target <= maximum: a realised daily RTP above the target gives an
allowed RTP <= target, one below the target gives an allowed RTP >= target, one equal
to the target gives exactly the target, and the allowed RTP never increases when the
realised daily RTP increases. -/
theorem allowedDrawRTP_tracks_target (settings : Option GameSettings) (daySales dayPayout : ℚ)
    (hlo : minDrawRTP settings ≤ targetRTP settings)
    (hhi : targetRTP settings ≤ maxDrawRTP settings) :
    (targetRTP settings < currentRTP settings daySales dayPayout →
      allowedDrawRTP settings daySales dayPayout ≤ targetRTP settings) ∧
    (currentRTP settings daySales dayPayout < targetRTP settings →
      targetRTP settings ≤ allowedDrawRTP settings daySales dayPayout) ∧
    (currentRTP settings daySales dayPayout = targetRTP settings →
      allowedDrawRTP settings daySales dayPayout = targetRTP settings) ∧
    (∀ s p s' p' : ℚ, currentRTP settings s p ≤ currentRTP settings s' p' →
      allowedDrawRTP settings s' p' ≤ allowedDrawRTP settings s p) ∧
    (∀ row : GameSettings, settings = some row →
      (row.target_percent ≠ 0 → targetRTP settings = row.target_percent) ∧
      (row.profit_min ≠ 0 → minDrawRTP settings = row.profit_min) ∧
      (row.profit_max ≠ 0 → maxDrawRTP settings = row.profit_max) ∧
      (row.target_percent = 0 → targetRTP settings = 90) ∧
      (row.profit_min = 0 → minDrawRTP settings = 80) ∧
      (row.profit_max = 0 → maxDrawRTP settings = 100)) ∧
    (settings = none →
      targetRTP settings = 90 ∧ minDrawRTP settings = 80 ∧ maxDrawRTP settings = 100) := by
  refine ⟨?_, ?_, ?_, fun s p s' p' h => allowedDrawRTP_antitone settings s p s' p' h,
    (effective_settings settings).1, (effective_settings settings).2⟩
  · intro habove
    unfold allowedDrawRTP CONTROL_FACTOR
    dsimp only
    apply max_le hlo
    apply le_trans (min_le_left _ _)
    linarith
  · intro hbelow
    unfold allowedDrawRTP CONTROL_FACTOR
    dsimp only
    apply le_trans _ (le_max_right _ _)
    apply le_min _ hhi
    linarith
  · intro heq
    unfold allowedDrawRTP CONTROL_FACTOR
    dsimp only
    rw [heq, sub_self, zero_mul, add_zero, min_eq_left hhi, max_eq_right hlo]

/-- C26 (amended), at the stored settings (90, 80, 100): a day at RTP 200 allows 80, a
day at RTP 50 allows 100, and a day without sales allows the target 90. -/
theorem allowedDrawRTP_tracks_target_witness :
    allowedDrawRTP richShop.game_settings 1000 2000 = 80 ∧
    allowedDrawRTP richShop.game_settings 1000 500 = 100 ∧
    allowedDrawRTP richShop.game_settings 0 0 = 90 ∧
    (targetRTP richShop.game_settings < currentRTP richShop.game_settings 1000 2000 →
      allowedDrawRTP richShop.game_settings 1000 2000 ≤ targetRTP richShop.game_settings) ∧
    (currentRTP richShop.game_settings 1000 500 < targetRTP richShop.game_settings →
      targetRTP richShop.game_settings ≤ allowedDrawRTP richShop.game_settings 1000 500) :=
  ⟨by decide!, by decide!, by decide!,
   (allowedDrawRTP_tracks_target richShop.game_settings 1000 2000 (by decide!) (by decide!)).1,
   (allowedDrawRTP_tracks_target richShop.game_settings 1000 500 (by decide!)
    (by decide!)).2.1⟩

/-! ## Failure of a settlement -/

/-- C27: when the round found or created for the end time holds a ticket whose
`bet_details` cannot be parsed, `declareWinner` ends rolled back and the state is the
one it started from: no balance credit and no round field is written, and a round row
that existed is still unprocessed with the winning spot it had; more generally every
run that ends rolled back returns the state it started from. -/
theorem declareWinner_rolls_back (rng : Rand) (now e : Int) (st tx : State) (id : Nat)
    (hf : findOrCreateDraw e st = some (id, tx))
    (hbad : ∃ t ∈ ticketsOfDraw st.tickets id, t.bet_details = none) :
    declareWinner rng now e st = (Outcome.rolledBack, st) ∧
    (∀ d, roundOf st e = some d →
      roundOf (declareWinner rng now e st).2 e = some d ∧ d.is_processed = false) ∧
    (∀ (rng' : Rand) (now' e' : Int) (st' : State),
      (declareWinner rng' now' e' st').1 = Outcome.rolledBack →
        (declareWinner rng' now' e' st').2 = st') := by
  obtain ⟨-, htickets, -, -⟩ := findOrCreateDraw_some hf
  have hsd : settleDraw rng now id tx = none := by
    rw [settleDraw_eq_none, htickets]
    exact hbad
  have hrun : declareWinner rng now e st = (Outcome.rolledBack, st) := by
    simp [declareWinner, hf, hsd]
  refine ⟨hrun, ?_, ?_⟩
  · intro d hd
    rw [hrun]
    refine ⟨hd, ?_⟩
    unfold findOrCreateDraw at hf
    unfold roundOf at hd
    cases hfl : st.draws.filter (fun d => d.end_time = e) with
    | nil => rw [hfl] at hd; simp at hd
    | cons d0 ds =>
      rw [hfl] at hd
      simp only [List.head?_cons, Option.some.injEq] at hd
      subst hd
      simp only [hfl] at hf
      by_cases hp : d0.is_processed = true
      · simp [hp] at hf
      · simpa using hp
  · intro rng' now' e' st' hout
    cases hf' : findOrCreateDraw e' st' with
    | none => simp [declareWinner, hf']
    | some r =>
      obtain ⟨id', tx'⟩ := r
      cases hsd' : settleDraw rng' now' id' tx' with
      | none => simp [declareWinner, hf', hsd']
      | some r1 =>
        obtain ⟨o, st1⟩ := r1
        have ho := (settleDraw_draws hsd').1
        simp only [declareWinner, hf', hsd'] at hout
        exact absurd hout ho

/-- C27, at a concrete round: round 1 of `brokenSale` holds an unparsable ticket; the
settlement rolls back and `brokenSale`, with its PENDING round and its balances, is
unchanged. -/
theorem declareWinner_rolls_back_witness :
    declareWinner luckyRand 605 600 brokenSale = (Outcome.rolledBack, brokenSale) ∧
    roundOf brokenSale 600 = some (pendingDraw 1 600) ∧
    roundOf (declareWinner luckyRand 605 600 brokenSale).2 600 = some (pendingDraw 1 600) :=
  ⟨(declareWinner_rolls_back luckyRand 605 600 brokenSale brokenSale 1 (by decide!)
      (by decide!)).1,
   by decide!,
   ((declareWinner_rolls_back luckyRand 605 600 brokenSale brokenSale 1 (by decide!)
      (by decide!)).2.1 (pendingDraw 1 600) (by decide!)).1⟩

/-! ## A submit followed by a cancel or a claim of the new ticket -/

theorem usersNamed_setBalance (users : List User) (id : Nat) (nb : ℚ) (name : String) :
    usersNamed (setBalance users id nb) name =
      (usersNamed users name).map
        (fun u => if u.user_id = id then { u with balance := nb } else u) := by
  unfold usersNamed setBalance
  induction users with
  | nil => rfl
  | cons u us ih =>
    by_cases hid : u.user_id = id <;> by_cases hn : u.username = name <;>
      simp [List.filter_cons, hid, hn, ih]

theorem foldr_max_ge (l : List Nat) : ∀ x ∈ l, x ≤ l.foldr max 0 := by
  induction l with
  | nil => intro x hx; exact absurd hx (List.not_mem_nil _)
  | cons y ys ih =>
    intro x hx
    rw [List.foldr_cons]
    rcases List.mem_cons.mp hx with rfl | h
    · exact le_max_left _ _
    · exact le_trans (ih x h) (le_max_right _ _)

theorem nextTicketId_fresh (tickets : List Ticket) :
    ∀ t ∈ tickets, t.ticket_id < nextTicketId tickets := by
  intro t ht
  unfold nextTicketId
  exact Nat.lt_succ_of_le (foldr_max_ge _ _ (List.mem_map.mpr ⟨t, ht, rfl⟩))

theorem nextDrawId_fresh (draws : List Draw) :
    ∀ d ∈ draws, d.draw_id < nextDrawId draws := by
  intro d hd
  unfold nextDrawId
  exact Nat.lt_succ_of_le (foldr_max_ge _ _ (List.mem_map.mpr ⟨d, hd, rfl⟩))

/-- C30: a confirmed submit-ticket of total amount a followed by a successful cancel of
the ticket it stored answers the cancel with the original balance + 0.09 x a and writes
that balance to the account: the submit debits a x 0.91 and the cancel refunds a. -/
theorem submit_then_cancel_balance (currentHour : Nat) (now now2 : Int) (username : String)
    (ticketData : TicketData) (st st1 st2 : State) (nb nb2 : ℚ) (tid did : Nat)
    (h1 : submitTicket currentHour now username ticketData st =
      (SubmitResult.confirmed nb tid did, st1))
    (h2 : cancel now2 tid username st1 = (CancelResult.cancelled nb2, st2)) :
    ∃ user rest, usersNamed st.users username = user :: rest ∧
      nb = user.balance - ticketData.totalAmount * (91 / 100) ∧
      nb2 = user.balance + (9 / 100) * ticketData.totalAmount ∧
      (∀ u ∈ st2.users, u.user_id = user.user_id → u.balance = nb2) ∧
      ((9 / 100 : ℚ) * ticketData.totalAmount ≠ 0 → nb2 ≠ user.balance) := by
  obtain ⟨user, rest, -, huser, hnb, -, htid, husers, htickets, -, -⟩ :=
    submitTicket_confirmed_inv h1
  obtain ⟨user2, rest2, ticket, draw, rows, huser2, hrows, -, -, hnb2, hst2⟩ :=
    cancel_cancelled_inv h2
  have hu2 : user2 = { user with balance := nb } := by
    rw [husers, usersNamed_setBalance, huser] at huser2
    simp only [List.map_cons, if_true, List.cons.injEq] at huser2
    exact huser2.1.symm
  obtain ⟨hmem, -, -, hid, -⟩ := ticketWithDraw_head_mem hrows
  have hticket : ticket.total_amount = ticketData.totalAmount := by
    rw [htickets] at hmem
    rcases List.mem_append.mp hmem with hold | hnew
    · have := nextTicketId_fresh st.tickets ticket hold
      rw [← htid, hid] at this
      exact absurd this (lt_irrefl _)
    · rw [List.mem_singleton] at hnew
      rw [hnew]
  have hval : nb2 = user.balance + (9 / 100) * ticketData.totalAmount := by
    rw [hnb2, hu2, hticket]
    dsimp only
    rw [hnb]
    unfold commissionRate
    ring
  refine ⟨user, rest, huser, ?_, hval, ?_, ?_⟩
  · rw [hnb]
    unfold commissionRate
    ring
  · intro u hu hid2
    rw [hst2] at hu
    simp only [setBalance, List.mem_map] at hu
    obtain ⟨v, -, rfl⟩ := hu
    have huid : user2.user_id = user.user_id := by rw [hu2]
    by_cases hv : v.user_id = user2.user_id
    · simp [hv]
    · simp only [hv, if_false] at hid2
      exact absurd (hid2.trans huid.symm) hv
  · intro hne heq
    rw [hval] at heq
    apply hne
    linarith

/-- C30, at a concrete sale: the slip of 10 sold by `shop` (balance 100) and cancelled
500 seconds before the close leaves the balance at 100.9. -/
theorem submit_then_cancel_balance_witness :
    ∃ user rest, usersNamed shop.users "ram" = user :: rest ∧
      (909 / 10 : ℚ) = user.balance - slipA0.totalAmount * (91 / 100) ∧
      (1009 / 10 : ℚ) = user.balance + (9 / 100) * slipA0.totalAmount ∧
      (∀ u ∈ cancelledSale.users, u.user_id = user.user_id → u.balance = 1009 / 10) ∧
      ((9 / 100 : ℚ) * slipA0.totalAmount ≠ 0 → (1009 / 10 : ℚ) ≠ user.balance) :=
  submit_then_cancel_balance 10 0 100 "ram" slipA0 shop openSale cancelledSale
    (909 / 10) (1009 / 10) 1 1 (by decide!) (by decide!)

theorem filter_eq_singleton_of_nodup (draws : List Draw) (d : Draw)
    (hnd : (draws.map (fun x => x.draw_id)).Nodup) (hd : d ∈ draws) :
    draws.filter (fun x => d.draw_id = x.draw_id) = [d] := by
  induction draws with
  | nil => exact absurd hd (List.not_mem_nil _)
  | cons y ys ih =>
    simp only [List.map_cons, List.nodup_cons, List.mem_map, not_exists, not_and] at hnd
    obtain ⟨hnotin, hnd'⟩ := hnd
    rcases List.mem_cons.mp hd with rfl | hmem
    · have hnone : ys.filter (fun x => d.draw_id = x.draw_id) = [] := by
        rw [List.filter_eq_nil_iff]
        intro x hx
        simp only [decide_eq_true_eq]
        intro heq
        exact hnotin x hx heq.symm
      simp [List.filter_cons, hnone]
    · have hne : ¬ d.draw_id = y.draw_id := fun heq => hnotin d hmem heq
      simp [List.filter_cons, hne, ih hnd' hmem]

theorem ticketWithDraw_of_new_ticket (st1 : State) (old : List Ticket) (nt : Ticket) (d : Draw)
    (htickets : st1.tickets = old ++ [nt])
    (hfresh : ∀ t ∈ old, t.ticket_id ≠ nt.ticket_id)
    (hdraws : st1.draws.filter (fun x => nt.draw_id = x.draw_id) = [d]) :
    ticketWithDraw st1 nt.ticket_id nt.user_id = [(nt, d)] := by
  unfold ticketWithDraw
  rw [htickets, List.flatMap_append, List.filter_append]
  have hold : (old.flatMap (fun t =>
      (st1.draws.filter (fun x => t.draw_id = x.draw_id)).map (fun x => (t, x)))).filter
      (fun r => decide (r.1.ticket_id = nt.ticket_id) && decide (r.1.user_id = nt.user_id)) =
      [] := by
    rw [List.filter_eq_nil_iff]
    intro r hr
    obtain ⟨t, ht, hrt⟩ := List.mem_flatMap.mp hr
    obtain ⟨x, -, rfl⟩ := List.mem_map.mp hrt
    simp [hfresh t ht]
  rw [hold]
  simp [hdraws]

theorem setBalance_setBalance (users : List User) (id : Nat) (a b : ℚ) :
    setBalance (setBalance users id a) id b = setBalance users id b := by
  unfold setBalance
  rw [List.map_map]
  apply List.map_congr_left
  intro u _
  by_cases h : u.user_id = id <;> simp [h]

theorem markClaimed_append_new (old : List Ticket) (nt : Ticket)
    (hfresh : ∀ t ∈ old, t.ticket_id ≠ nt.ticket_id) :
    markClaimed (old ++ [nt]) nt.ticket_id = old ++ [{ nt with is_claimed := true }] := by
  unfold markClaimed
  rw [List.map_append]
  congr 1
  · conv_rhs => rw [← List.map_id old]
    apply List.map_congr_left
    intro t ht
    simp [hfresh t ht]
  · simp

/-- C29: submit-ticket reads neither `is_processed` nor `winning_spot`: when the round
with the requested end time is already processed with winning spot w (one of the ten
labels, draw ids being unique), a submit with shop open, sufficient balance and
quantity q > 0 on w is confirmed and binds the new ticket to that round, and the claim
of that ticket by the same caller succeeds with `winAmount = q x 90`: it writes the
balance (balance after the submit) + q x 90 to the caller's account, sets `is_claimed`
on the new ticket and leaves the other tickets and the rounds as they were. -/
theorem submit_into_processed_round (currentHour : Nat) (now : Int) (username : String)
    (ticketData : TicketData) (st : State) (user : User) (rest : List User) (d : Draw)
    (w : String) (q : ℚ)
    (hopen : isShopOpen currentHour = true)
    (huser : usersNamed st.users username = user :: rest)
    (hbal : ticketData.totalAmount * (91 / 100) ≤ user.balance)
    (hround : roundOf st ticketData.drawEndTime = some d)
    (_hproc : d.is_processed = true) (hw : d.winning_spot = w) (hlabel : w ∈ spotNames)
    (hids : (st.draws.map (fun x => x.draw_id)).Nodup)
    (hq : ticketData.betDetails.lookup w = some q) (hpos : 0 < q) :
    ∃ tid st1,
      submitTicket currentHour now username ticketData st =
        (SubmitResult.confirmed
          (user.balance - (ticketData.totalAmount - ticketData.totalAmount * (9 / 100)))
          tid d.draw_id, st1) ∧
      st1.draws = st.draws ∧
      st1.tickets = st.tickets ++
        [{ ticket_id := tid, draw_id := d.draw_id, user_id := user.user_id,
           bet_details := some ticketData.betDetails, total_amount := ticketData.totalAmount,
           is_cancelled := false, is_claimed := false, created_at := now }] ∧
      (claim tid username st1).1 =
        ClaimResult.success (q * 90) tid w q
          (user.balance - (ticketData.totalAmount - ticketData.totalAmount * (9 / 100)) +
            q * 90) ∧
      (claim tid username st1).2.users =
        setBalance st.users user.user_id
          (user.balance - (ticketData.totalAmount - ticketData.totalAmount * (9 / 100)) +
            q * 90) ∧
      (claim tid username st1).2.tickets = st.tickets ++
        [{ ticket_id := tid, draw_id := d.draw_id, user_id := user.user_id,
           bet_details := some ticketData.betDetails, total_amount := ticketData.totalAmount,
           is_cancelled := false, is_claimed := true, created_at := now }] ∧
      (claim tid username st1).2.draws = st.draws := by
  have hok : ¬ user.balance -
      (ticketData.totalAmount - ticketData.totalAmount * commissionRate) < 0 := by
    unfold commissionRate
    intro hneg
    linarith
  have hsub := submitTicket_accepted currentHour now username ticketData st user rest
    hopen huser hok
  obtain ⟨ds, hfilter⟩ : ∃ ds,
      st.draws.filter (fun x => x.end_time = ticketData.drawEndTime) = d :: ds := by
    unfold roundOf at hround
    cases hfl : st.draws.filter (fun x => x.end_time = ticketData.drawEndTime) with
    | nil => rw [hfl] at hround; simp at hround
    | cons d0 ds0 =>
      rw [hfl] at hround
      simp only [List.head?_cons, Option.some.injEq] at hround
      exact ⟨ds0, by rw [hround]⟩
  simp only [hfilter] at hsub
  have hdmem : d ∈ st.draws := by
    have : d ∈ st.draws.filter (fun x => x.end_time = ticketData.drawEndTime) := by
      rw [hfilter]; exact List.mem_cons_self _ _
    exact (List.mem_filter.mp this).1
  refine ⟨nextTicketId st.tickets, _, hsub, rfl, rfl, ?_⟩
  have hwq : winningQty ticketData.betDetails w = q := by
    unfold winningQty orDefault
    rw [hq]
    simp [ne_of_gt hpos]
  have hrows := ticketWithDraw_of_new_ticket
    { users := setBalance st.users user.user_id
        (user.balance - (ticketData.totalAmount - ticketData.totalAmount * commissionRate)),
      draws := st.draws,
      tickets := st.tickets ++
        [{ ticket_id := nextTicketId st.tickets, draw_id := d.draw_id,
           user_id := user.user_id, bet_details := some ticketData.betDetails,
           total_amount := ticketData.totalAmount, is_cancelled := false,
           is_claimed := false, created_at := now }],
      game_settings := st.game_settings }
    st.tickets
    { ticket_id := nextTicketId st.tickets, draw_id := d.draw_id,
      user_id := user.user_id, bet_details := some ticketData.betDetails,
      total_amount := ticketData.totalAmount, is_cancelled := false,
      is_claimed := false, created_at := now }
    d rfl
    (fun t ht => ne_of_lt (nextTicketId_fresh st.tickets t ht))
    (filter_eq_singleton_of_nodup st.draws d hids hdmem)
  have huser1 := usersNamed_setBalance st.users user.user_id
    (user.balance - (ticketData.totalAmount - ticketData.totalAmount * commissionRate)) username
  rw [huser] at huser1
  simp only [List.map_cons, if_true] at huser1
  have hpending : d.winning_spot ≠ "PENDING" := by
    rw [hw]
    intro hp
    rw [hp] at hlabel
    simp [spotNames] at hlabel
  have hclaim := claim_credits (nextTicketId st.tickets) username _
    { user with balance :=
        user.balance - (ticketData.totalAmount - ticketData.totalAmount * commissionRate) }
    _ _ d [] ticketData.betDetails
    huser1 hrows rfl rfl hpending rfl (by rw [hw, hwq]; exact ne_of_gt hpos)
  rw [hclaim]
  dsimp only
  rw [hw, hwq]
  refine ⟨rfl, ?_, ?_, rfl⟩
  · rw [setBalance_setBalance]
    rfl
  · exact markClaimed_append_new st.tickets
      { ticket_id := nextTicketId st.tickets, draw_id := d.draw_id,
        user_id := user.user_id, bet_details := some ticketData.betDetails,
        total_amount := ticketData.totalAmount, is_cancelled := false,
        is_claimed := false, created_at := now }
      (fun t ht => ne_of_lt (nextTicketId_fresh st.tickets t ht))

/-- C29, at a concrete round: the round of `settledSale` is processed with A0; a new
slip with quantity 1 on A0 is still accepted for it as ticket 2, and its claim writes
the balance 171.8 + 90 and flags the ticket as claimed. -/
theorem submit_into_processed_round_witness :
    ∃ tid st1,
      submitTicket 10 700 "ram" slipA0 settledSale =
        (SubmitResult.confirmed
          (1809 / 10 - (slipA0.totalAmount - slipA0.totalAmount * (9 / 100))) tid 1, st1) ∧
      st1.draws = settledSale.draws ∧
      st1.tickets = settledSale.tickets ++
        [{ ticket_id := tid, draw_id := 1, user_id := 1,
           bet_details := some slipA0.betDetails, total_amount := slipA0.totalAmount,
           is_cancelled := false, is_claimed := false, created_at := 700 }] ∧
      (claim tid "ram" st1).1 =
        ClaimResult.success (1 * 90) tid "A0" 1
          (1809 / 10 - (slipA0.totalAmount - slipA0.totalAmount * (9 / 100)) + 1 * 90) ∧
      (claim tid "ram" st1).2.users =
        setBalance settledSale.users 1
          (1809 / 10 - (slipA0.totalAmount - slipA0.totalAmount * (9 / 100)) + 1 * 90) ∧
      (claim tid "ram" st1).2.tickets = settledSale.tickets ++
        [{ ticket_id := tid, draw_id := 1, user_id := 1,
           bet_details := some slipA0.betDetails, total_amount := slipA0.totalAmount,
           is_cancelled := false, is_claimed := true, created_at := 700 }] ∧
      (claim tid "ram" st1).2.draws = settledSale.draws :=
  submit_into_processed_round 10 700 "ram" slipA0 settledSale
    { user_id := 1, username := "ram", balance := 1809 / 10 } []
    { draw_id := 1, end_time := 600, winning_spot := "A0", total_collection := 10,
      total_payout := 90, is_processed := true }
    "A0" 1 (by decide!) (by decide!) (by decide!) (by decide!) rfl rfl (by decide!)
    (by decide!) (by decide!) (by decide!)

/-! ## No ticket is both cancelled and claimed -/

theorem LedgerInv.mono {clock clock' : Int} {st : State} (h : LedgerInv clock st)
    (hle : clock ≤ clock') : LedgerInv clock' st where
  ticketIds := h.ticketIds
  drawIds := h.drawIds
  determinedPast := fun d hd hw => le_trans (h.determinedPast d hd hw) hle
  claimedPast := fun t ht hc => by
    obtain ⟨d, hd, hid, hpast⟩ := h.claimedPast t ht hc
    exact ⟨d, hd, hid, le_trans hpast hle⟩
  exclusive := h.exclusive

theorem markCancelled_ids (tickets : List Ticket) (id : Nat) :
    (markCancelled tickets id).map (fun t => t.ticket_id) = tickets.map (fun t => t.ticket_id) := by
  unfold markCancelled
  rw [List.map_map]
  apply List.map_congr_left
  intro t _
  by_cases ht : t.ticket_id = id <;> simp [ht]

theorem markClaimed_ids (tickets : List Ticket) (id : Nat) :
    (markClaimed tickets id).map (fun t => t.ticket_id) = tickets.map (fun t => t.ticket_id) := by
  unfold markClaimed
  rw [List.map_map]
  apply List.map_congr_left
  intro t _
  by_cases ht : t.ticket_id = id <;> simp [ht]

theorem finalizeDraw_drawIds (ds : List Draw) (id : Nat) (w : String) (c p : ℚ) :
    (finalizeDraw ds id w c p).map (fun d => d.draw_id) = ds.map (fun d => d.draw_id) := by
  unfold finalizeDraw
  rw [List.map_map]
  apply List.map_congr_left
  intro d _
  by_cases hd : d.draw_id = id <;> simp [hd]

theorem append_pending_drawIds_nodup (ds : List Draw) (e : Int)
    (hnd : (ds.map (fun d => d.draw_id)).Nodup) :
    ((ds ++ [pendingDraw (nextDrawId ds) e]).map (fun d => d.draw_id)).Nodup := by
  rw [List.map_append, List.nodup_append]
  refine ⟨hnd, by simp, ?_⟩
  intro a ha hb
  simp only [pendingDraw, List.map_cons, List.map_nil, List.mem_singleton] at hb
  subst hb
  obtain ⟨d, hd, hde⟩ := List.mem_map.mp ha
  have := nextDrawId_fresh ds d hd
  rw [hde] at this
  exact absurd this (lt_irrefl _)

theorem append_ticket_ids_nodup (ts : List Ticket) (nt : Ticket)
    (hid : nt.ticket_id = nextTicketId ts)
    (hnd : (ts.map (fun t => t.ticket_id)).Nodup) :
    ((ts ++ [nt]).map (fun t => t.ticket_id)).Nodup := by
  rw [List.map_append, List.nodup_append]
  refine ⟨hnd, by simp, ?_⟩
  intro a ha hb
  simp only [List.map_cons, List.map_nil, List.mem_singleton] at hb
  subst hb
  obtain ⟨t, ht, hte⟩ := List.mem_map.mp ha
  have := nextTicketId_fresh ts t ht
  rw [hte, hid] at this
  exact absurd this (lt_irrefl _)

theorem submitTicket_ledgerInv (currentHour : Nat) (now : Int) (username : String)
    (ticketData : TicketData) (clock : Int) (st : State) (h : LedgerInv clock st) :
    LedgerInv clock (submitTicket currentHour now username ticketData st).2 := by
  cases hopen : isShopOpen currentHour with
  | false => rw [submitTicket_closed _ _ _ _ _ hopen]; exact h
  | true =>
    cases huser : usersNamed st.users username with
    | nil => rw [submitTicket_noUser _ _ _ _ _ hopen huser]; exact h
    | cons user rest =>
      by_cases hneg :
          user.balance - (ticketData.totalAmount - ticketData.totalAmount * commissionRate) < 0
      · rw [submitTicket_rejected _ _ _ _ _ user rest hopen huser hneg]; exact h
      · have hex : ∃ nb tid did st', submitTicket currentHour now username ticketData st =
            (SubmitResult.confirmed nb tid did, st') :=
          ⟨_, _, _, _, submitTicket_accepted currentHour now username ticketData st user rest
            hopen huser hneg⟩
        obtain ⟨nb, tid, did, st', hacc⟩ := hex
        obtain ⟨_, _, -, -, -, -, htid, -, htickets, -, hdraws⟩ :=
          submitTicket_confirmed_inv hacc
        have hsub : ∀ d ∈ st.draws,
            d ∈ (submitTicket currentHour now username ticketData st).2.draws := by
          intro d hd
          rw [hacc]
          rcases hdraws with ⟨-, -, -, -, hst⟩ | ⟨-, -, hst⟩
          · rw [hst]; exact hd
          · rw [hst]; exact List.mem_append_left _ hd
        refine ⟨?_, ?_, ?_, ?_, ?_⟩
        · rw [hacc, htickets]
          exact append_ticket_ids_nodup _ _ htid h.ticketIds
        · rw [hacc]
          rcases hdraws with ⟨-, -, -, -, hst⟩ | ⟨-, hdid, hst⟩
          · rw [hst]; exact h.drawIds
          · rw [hst, hdid]
            exact append_pending_drawIds_nodup _ _ h.drawIds
        · intro d hd hw
          rw [hacc] at hd
          rcases hdraws with ⟨-, -, -, -, hst⟩ | ⟨-, -, hst⟩
          · rw [hst] at hd
            exact h.determinedPast d hd hw
          · rw [hst] at hd
            rcases List.mem_append.mp hd with hold | hnew
            · exact h.determinedPast d hold hw
            · rw [List.mem_singleton] at hnew
              rw [hnew] at hw
              exact absurd rfl hw
        · intro t ht hc
          rw [hacc, htickets] at ht
          rcases List.mem_append.mp ht with hold | hnew
          · obtain ⟨d, hd, hid, hpast⟩ := h.claimedPast t hold hc
            exact ⟨d, hsub d hd, hid, hpast⟩
          · rw [List.mem_singleton] at hnew
            rw [hnew] at hc
            exact absurd hc (by simp)
        · intro t ht
          rw [hacc, htickets] at ht
          rcases List.mem_append.mp ht with hold | hnew
          · exact h.exclusive t hold
          · rw [List.mem_singleton] at hnew
            rw [hnew]
            simp

theorem cancel_ledgerInv (now : Int) (ticketId : Nat) (username : String) (clock : Int)
    (st : State) (h : LedgerInv clock st) (hclock : clock ≤ now) :
    LedgerInv now (cancel now ticketId username st).2 := by
  rcases cancel_cases now ticketId username st with ⟨-, hst⟩ | ⟨href, -, -⟩
  · rw [hst]; exact h.mono hclock
  · cases hres : cancel now ticketId username st with
    | mk r st' =>
      rw [hres] at href
      cases r with
      | cancelled nb =>
        obtain ⟨user, rest, ticket, draw, rows, -, hrows, hflag, hearly, -, hst'⟩ :=
          cancel_cancelled_inv hres
        obtain ⟨hmem, hdmem, hjoin, hid, -⟩ := ticketWithDraw_head_mem hrows
        have hnotclaimed : ticket.is_claimed = false := by
          by_contra hc
          have hc' : ticket.is_claimed = true := by simpa using hc
          obtain ⟨d2, hd2, hid2, hpast⟩ := h.claimedPast ticket hmem hc'
          have heq : d2 = draw :=
            List.inj_on_of_nodup_map h.drawIds hd2 hdmem (by rw [hid2, hjoin])
          rw [heq] at hpast
          apply hearly
          omega
        refine ⟨?_, ?_, ?_, ?_, ?_⟩
        · rw [hst']
          show ((markCancelled st.tickets ticketId).map (fun t => t.ticket_id)).Nodup
          rw [markCancelled_ids]
          exact h.ticketIds
        · rw [hst']; exact h.drawIds
        · intro d hd hw
          rw [hst'] at hd
          exact le_trans (h.determinedPast d hd hw) hclock
        · intro t ht hc
          rw [hst'] at ht
          simp only [markCancelled, List.mem_map] at ht
          obtain ⟨v, hv, rfl⟩ := ht
          have hvc : v.is_claimed = true := by
            by_cases hvid : v.ticket_id = ticketId
            · simpa [hvid] using hc
            · simpa [hvid] using hc
          obtain ⟨d, hd, hdid, hpast⟩ := h.claimedPast v hv hvc
          refine ⟨d, by rw [hst']; exact hd, ?_, le_trans hpast hclock⟩
          by_cases hvid : v.ticket_id = ticketId
          · simpa [hvid] using hdid
          · simpa [hvid] using hdid
        · intro t ht
          rw [hst'] at ht
          simp only [markCancelled, List.mem_map] at ht
          obtain ⟨v, hv, rfl⟩ := ht
          by_cases hvid : v.ticket_id = ticketId
          · have hvt : v = ticket :=
              List.inj_on_of_nodup_map h.ticketIds hv hmem (by rw [hvid, hid])
            subst hvt
            simp [hvid, hnotclaimed]
          · simpa [hvid] using h.exclusive v hv
      | ticketNotFound => simp [CancelResult.isRefund] at href
      | alreadyCancelled => simp [CancelResult.isRefund] at href
      | timeOver => simp [CancelResult.isRefund] at href
      | serverError => simp [CancelResult.isRefund] at href

theorem claim_ledgerInv (ticketId : Nat) (username : String) (clock : Int) (st : State)
    (h : LedgerInv clock st) : LedgerInv clock (claim ticketId username st).2 := by
  rcases claim_cases ticketId username st with ⟨-, hst⟩ |
    ⟨user, rest, ticket, draw, rows, bets, -, hrows, hc, -, hw, -, -, heq⟩
  · rw [hst]; exact h
  · obtain ⟨hmem, hdmem, hjoin, hid, -⟩ := ticketWithDraw_head_mem hrows
    rw [heq]
    refine ⟨?_, ?_, ?_, ?_, ?_⟩
    · show ((markClaimed st.tickets ticketId).map (fun t => t.ticket_id)).Nodup
      rw [markClaimed_ids]
      exact h.ticketIds
    · exact h.drawIds
    · exact h.determinedPast
    · intro t ht hclaimed
      simp only [markClaimed, List.mem_map] at ht
      obtain ⟨v, hv, rfl⟩ := ht
      by_cases hvid : v.ticket_id = ticketId
      · have hvt : v = ticket :=
          List.inj_on_of_nodup_map h.ticketIds hv hmem (by rw [hvid, hid])
        subst hvt
        refine ⟨draw, hdmem, ?_, h.determinedPast draw hdmem hw⟩
        simp [hvid, hjoin]
      · have hvc : v.is_claimed = true := by
          simpa [hvid] using hclaimed
        obtain ⟨d, hd, hdid, hpast⟩ := h.claimedPast v hv hvc
        exact ⟨d, hd, by simpa [hvid] using hdid, hpast⟩
    · intro t ht
      simp only [markClaimed, List.mem_map] at ht
      obtain ⟨v, hv, rfl⟩ := ht
      by_cases hvid : v.ticket_id = ticketId
      · have hvt : v = ticket :=
          List.inj_on_of_nodup_map h.ticketIds hv hmem (by rw [hvid, hid])
        subst hvt
        simp [hvid, hc]
      · simpa [hvid] using h.exclusive v hv

theorem declareWinner_ledgerInv (rng : Rand) (now e : Int) (clock : Int) (st : State)
    (h : LedgerInv clock st) (hclock : clock ≤ now) (hpassed : e ≤ now) :
    LedgerInv now (declareWinner rng now e st).2 := by
  cases hf : findOrCreateDraw e st with
  | none =>
    simp only [declareWinner, hf]
    exact h.mono hclock
  | some r =>
    obtain ⟨id, tx⟩ := r
    cases hsd : settleDraw rng now id tx with
    | none =>
      simp only [declareWinner, hf, hsd]
      exact h.mono hclock
    | some r1 =>
      obtain ⟨o, st1⟩ := r1
      simp only [declareWinner, hf, hsd]
      obtain ⟨-, htickets, -, d0, ds, hfilter, hid0, -⟩ := findOrCreateDraw_some hf
      obtain ⟨-, htk1, w, c, p, hdraws⟩ := settleDraw_draws hsd
      have hd0mem : d0 ∈ tx.draws.filter (fun d => d.end_time = e) := by
        rw [hfilter]; exact List.mem_cons_self _ _
      have hd0 : d0 ∈ tx.draws := (List.mem_filter.mp hd0mem).1
      have hd0e : d0.end_time = e := by simpa using (List.mem_filter.mp hd0mem).2
      have htxids : (tx.draws.map (fun d => d.draw_id)).Nodup := by
        rcases findOrCreateDraw_draws hf with htx | ⟨-, htx⟩
        · rw [htx]; exact h.drawIds
        · rw [htx]; exact append_pending_drawIds_nodup _ _ h.drawIds
      have htxpast : ∀ d ∈ tx.draws, d.winning_spot ≠ "PENDING" → d.end_time ≤ now := by
        intro d hd hw
        rcases findOrCreateDraw_draws hf with htx | ⟨-, htx⟩
        · rw [htx] at hd
          exact le_trans (h.determinedPast d hd hw) hclock
        · rw [htx] at hd
          rcases List.mem_append.mp hd with hold | hnew
          · exact le_trans (h.determinedPast d hold hw) hclock
          · rw [List.mem_singleton] at hnew
            rw [hnew] at hw
            exact absurd rfl hw
      have hsub : ∀ d ∈ st.draws, d ∈ tx.draws := by
        intro d hd
        rcases findOrCreateDraw_draws hf with htx | ⟨-, htx⟩
        · rw [htx]; exact hd
        · rw [htx]; exact List.mem_append_left _ hd
      refine ⟨?_, ?_, ?_, ?_, ?_⟩
      · rw [htk1, htickets]; exact h.ticketIds
      · rw [hdraws, finalizeDraw_drawIds]; exact htxids
      · intro d hd hw
        rw [hdraws] at hd
        simp only [finalizeDraw, List.mem_map] at hd
        obtain ⟨v, hv, rfl⟩ := hd
        by_cases hvid : v.draw_id = id
        · have hvd : v = d0 :=
            List.inj_on_of_nodup_map htxids hv hd0 (by rw [hvid, hid0])
          subst hvd
          simp only [hvid, if_true]
          rw [hd0e]
          exact hpassed
        · simp only [hvid, if_false] at hw ⊢
          exact htxpast v hv hw
      · intro t ht hc
        rw [htk1, htickets] at ht
        obtain ⟨d, hd, hdid, hpast⟩ := h.claimedPast t ht hc
        refine ⟨(fun d : Draw =>
            if d.draw_id = id then
              { d with winning_spot := w, total_collection := c, total_payout := p,
                       is_processed := true }
            else d) d, ?_, ?_, ?_⟩
        · rw [hdraws]
          exact List.mem_map.mpr ⟨d, hsub d hd, rfl⟩
        · by_cases hdd : d.draw_id = id
          · simpa [hdd] using hdid
          · simpa [hdd] using hdid
        · by_cases hdd : d.draw_id = id
          · simpa [hdd] using le_trans hpast hclock
          · simpa [hdd] using le_trans hpast hclock
      · intro t ht
        rw [htk1, htickets] at ht
        exact h.exclusive t ht

theorem run_ledgerInv (ops : List Op) (clock : Int) (st : State) (h : LedgerInv clock st)
    (hord : ClockOrdered clock ops) : ∃ clock', LedgerInv clock' (run st ops) := by
  induction ops generalizing clock st with
  | nil => exact ⟨clock, h⟩
  | cons op ops ih =>
    cases op with
    | submit currentHour now username ticketData =>
      obtain ⟨hle, hrest⟩ := hord
      exact ih now _
        ((submitTicket_ledgerInv currentHour now username ticketData clock st h).mono hle) hrest
    | cancel now ticketId username =>
      obtain ⟨hle, hrest⟩ := hord
      exact ih now _ (cancel_ledgerInv now ticketId username clock st h hle) hrest
    | claim ticketId username =>
      exact ih clock _ (claim_ledgerInv ticketId username clock st h) hord
    | declare rng now drawEndTime =>
      obtain ⟨hle, hpassed, hrest⟩ := hord
      exact ih now _ (declareWinner_ledgerInv rng now drawEndTime clock st h hle hpassed) hrest

/-- C22 (as stated, refuted): from `shop`, which has no tickets, a slip on A0 is sold,
the round closing at second 600 is settled while the database clock reads 540 (the
scheduler's clock runs ahead), the win is claimed, and the cancel at database time 540,
60 seconds before the close, is accepted: the ticket ends both cancelled and claimed. -/
theorem ticket_cancelled_and_claimed :
    shop.tickets = [] ∧
    (run shop skewedDay).tickets.map (fun t => (t.ticket_id, t.is_cancelled, t.is_claimed)) =
      [(1, true, true)] ∧
    (run shop skewedDay).users.map (fun u => u.balance) = [2809 / 10] := by
  decide!

/-- C22 (amended): from a state with no tickets, unique round ids and no determined
round closing after the clock, every sequence of submit-ticket, cancel, claim and
`declareWinner` operations served in the order of a non-decreasing database clock, with
`declareWinner` run only for end times that clock has reached, leads to a state in
which no ticket has both `is_cancelled` and `is_claimed` set. -/
theorem no_ticket_cancelled_and_claimed (clock : Int) (st : State) (ops : List Op)
    (hempty : st.tickets = [])
    (hids : (st.draws.map (fun d => d.draw_id)).Nodup)
    (hpast : ∀ d ∈ st.draws, d.winning_spot ≠ "PENDING" → d.end_time ≤ clock)
    (hord : ClockOrdered clock ops) :
    ∀ t ∈ (run st ops).tickets, ¬ (t.is_cancelled = true ∧ t.is_claimed = true) := by
  have hinv : LedgerInv clock st :=
    { ticketIds := by rw [hempty]; exact List.nodup_nil
      drawIds := hids
      determinedPast := hpast
      claimedPast := by
        intro t ht
        rw [hempty] at ht
        exact absurd ht (List.not_mem_nil _)
      exclusive := by
        intro t ht
        rw [hempty] at ht
        exact absurd ht (List.not_mem_nil _) }
  obtain ⟨clock', hfinal⟩ := run_ledgerInv ops clock st hinv hord
  exact hfinal.exclusive

/-- C22 (amended), at a concrete day: with the settlement at second 605 and the cancel
attempt at second 700 the claimed ticket of `shop` stays uncancelled. -/
theorem no_ticket_cancelled_and_claimed_witness :
    (run shop orderedDay).tickets.map (fun t => (t.ticket_id, t.is_cancelled, t.is_claimed)) =
      [(1, false, true)] ∧
    ¬ (({ ticketA0 with is_claimed := true } : Ticket).is_cancelled = true ∧
       ({ ticketA0 with is_claimed := true } : Ticket).is_claimed = true) :=
  ⟨by decide!,
   no_ticket_cancelled_and_claimed 0 shop orderedDay (by decide!) (by decide!)
    (by intro d hd; simp [shop] at hd)
    (by simp [orderedDay, ClockOrdered])
    { ticketA0 with is_claimed := true } (by decide!)⟩

end WinZone
